import Mathlib

/-!
# geany-sftp-plugins: connection endpoint, transfer engine, sync reconciler,
configuration and sidebar

A shallow embedding of `src/connection.c`, `src/sync.c`, `src/config.c` and of the
handlers of `src/ui.c` and `src/sftp-plugin.c` that change the plugin data.

Conventions of the embedding.

* C pointers to library objects (`LIBSSH2_SESSION *`, `LIBSSH2_SFTP *`) are
  `Option Nat`: `none` is `NULL`, `some h` is a handle named `h`.
* `session->config` points to a profile; the profile is carried inside the
  session, so a write through the pointer is a write to that field.  Where the
  slot of `plugin_data->connections` the pointer addresses matters, it is the
  field `config_index`.
* Calls into libc / libssh2 are answered by an environment record (one field
  per call site) or by an oracle function indexed by the call number.
* Every call that acquires or releases a resource is logged in an event list,
  in program order.  Diagnostic output (`g_print`, `g_printerr`) is not logged.
* Loops whose exit depends on the environment carry a fuel argument or consume
  a finite script; `none` means that the C function has not returned.
-/

namespace SftpPlugin

/-! ## Data model (`src/sftp-plugin.h`) -/

/-- The `ConnectionState` enum. -/
inductive ConnectionState where
  | CONN_DISCONNECTED
  | CONN_CONNECTING
  | CONN_CONNECTED
  | CONN_ERROR
deriving DecidableEq, Repr

/-- The `SFTPConnection` struct; the fixed-size `gchar` arrays are strings. -/
structure SFTPConnection where
  name : String
  hostname : String
  port : Int
  username : String
  password : String
  private_key : String
  remote_dir : String
  use_keyring : Bool
  state : ConnectionState
deriving DecidableEq, Repr

/-- The `SFTPSession` struct (without the mutex).  The pointer `config` is held twice:
`config` is the profile read through it when the connection endpoint uses the session,
and `config_index` is the slot of `plugin_data->connections` it addresses (0 for a session
that is not stored in the plugin data). -/
structure SFTPSession where
  config : Option SFTPConnection
  ssh_session : Option Nat
  sftp_session : Option Nat
  sock : Int
  active : Bool
  config_index : Nat := 0
  temp_dir : String := ""
deriving DecidableEq, Repr

/-- The progress fields of `struct _FileOperation`.  The `cancelled` flag is written by
another thread while a transfer runs; the values the transfer reads from it are supplied
by an oracle (see `sftp_upload_file`). -/
structure FileOperation where
  total_size : Nat
  transferred : Nat
deriving DecidableEq, Repr

/-- The data fields of `SFTPPluginData` (the widgets and the operation lists are left
out).  The arrays `connections` and `sessions` are lists indexed from 0; a slot past the
end of the list reads as zero-initialised. -/
structure SFTPPluginData where
  connections : List SFTPConnection
  num_connections : Int
  sessions : List (Option SFTPSession)
  current_connection : Int
  current_remote_path : String
  show_hidden_files : Bool
  auto_upload : Bool := false
  /-- The hash table `downloaded_files`: local path and remote path of each entry. -/
  downloaded_files : List (String × String) := []
deriving DecidableEq, Repr

/-! ## Connection endpoint (`src/connection.c`, lines 16-167) -/

/-- Resource operations performed by `sftp_connection_connect` and
`sftp_connection_disconnect`, in program order. -/
inductive ConnEvent where
  /-- The call `socket()` returned the descriptor `fd >= 0`. -/
  | socket_open (fd : Int)
  /-- The call `compat_close_socket(fd)`. -/
  | socket_close (fd : Int)
  /-- The call `libssh2_session_init()` returned the handle `h`. -/
  | ssh_init (h : Nat)
  /-- One `select` wait of the handshake retry loop. -/
  | select_wait
  /-- A call of `libssh2_userauth_publickey_fromfile`. -/
  | auth_publickey
  /-- A call of `libssh2_userauth_password`. -/
  | auth_password
  /-- The call `libssh2_session_disconnect(h, "Normal disconnect")`. -/
  | ssh_disconnect (h : Nat)
  /-- The call `libssh2_session_free(h)`. -/
  | ssh_free (h : Nat)
  /-- The call `libssh2_sftp_init` returned the handle `h`. -/
  | sftp_init (h : Nat)
  /-- The call `libssh2_sftp_shutdown(h)`. -/
  | sftp_shutdown (h : Nat)
deriving DecidableEq, Repr

/-- The value of `LIBSSH2_ERROR_EAGAIN` in `libssh2.h`. -/
def LIBSSH2_ERROR_EAGAIN : Int := -37

/-- What the operating system and libssh2 answer during one call of
`sftp_connection_connect`. -/
structure ConnectEnv where
  /-- Return value of `socket()`. -/
  socket_ret : Int
  /-- Whether `gethostbyname` returns a non-null entry. -/
  host_found : Bool
  /-- Return value of `connect()`. -/
  connect_ret : Int
  /-- Return value of `libssh2_session_init()`. -/
  ssh_init : Option Nat
  /-- Return values of the successive `libssh2_session_handshake` calls. -/
  handshake : List Int
  /-- Return value of `libssh2_userauth_list` (`none` is `NULL`). -/
  auth_methods : Option String
  /-- Return value of `libssh2_userauth_publickey_fromfile`. -/
  publickey_ret : Int
  /-- Return value of `libssh2_userauth_password`. -/
  password_ret : Int
  /-- Return value of `libssh2_sftp_init`. -/
  sftp_init : Option Nat
deriving DecidableEq, Repr

/-- What `sftp_connection_connect` leaves behind when it returns. -/
structure ConnectResult where
  ret : Bool
  session : SFTPSession
  events : List ConnEvent
deriving DecidableEq, Repr

/-- The handshake retry loop (lines 75-84): calls the handshake until the answer is not
`LIBSSH2_ERROR_EAGAIN`, waiting on the socket after each `EAGAIN`.  Returns the final
`rc` and the waits performed; `none` when every scripted answer is `EAGAIN`. -/
def handshake_loop : List Int → Option (Int × List ConnEvent)
  | [] => none
  | rc :: rest =>
    if rc = LIBSSH2_ERROR_EAGAIN then
      match handshake_loop rest with
      | none => none
      | some (rc', evs) => some (rc', ConnEvent.select_wait :: evs)
    else some (rc, [])

/-- The C call `strstr(haystack, needle) != NULL`. -/
def strstr (haystack needle : String) : Bool :=
  decide (needle.toList <:+: haystack.toList)

/-- The authentication step (lines 98-108): public key when the advertised list is
available, names "publickey" and a private key path is configured; password otherwise.
Returns `rc` and the call made. -/
def authenticate (config : SFTPConnection) (env : ConnectEnv) : Int × ConnEvent :=
  match env.auth_methods with
  | some methods =>
    if strstr methods "publickey" && decide (config.private_key ≠ "") then
      (env.publickey_ret, ConnEvent.auth_publickey)
    else (env.password_ret, ConnEvent.auth_password)
  | none => (env.password_ret, ConnEvent.auth_password)

/-- Writes `config->state`. -/
def set_state (session : SFTPSession) (config : SFTPConnection) (st : ConnectionState) :
    SFTPSession :=
  { session with config := some { config with state := st } }

/-- The function `sftp_connection_connect` (lines 16-135). -/
def sftp_connection_connect (session : SFTPSession) (env : ConnectEnv) :
    Option ConnectResult :=
  match session.config with
  | none => some ⟨false, session, []⟩
  | some config =>
    let sock := env.socket_ret
    if sock < 0 then
      some ⟨false, set_state session config .CONN_ERROR, []⟩
    else
    let ev1 := [ConnEvent.socket_open sock]
    if !env.host_found then
      some ⟨false, set_state session config .CONN_ERROR, ev1 ++ [.socket_close sock]⟩
    else if env.connect_ret < 0 then
      some ⟨false, set_state session config .CONN_ERROR, ev1 ++ [.socket_close sock]⟩
    else
    let session := { session with sock := sock }
    match env.ssh_init with
    | none =>
      some ⟨false, set_state session config .CONN_ERROR, ev1 ++ [.socket_close sock]⟩
    | some ssh =>
      let ev2 := ev1 ++ [ConnEvent.ssh_init ssh]
      match handshake_loop env.handshake with
      | none => none
      | some (rc, waits) =>
        let ev3 := ev2 ++ waits
        if rc ≠ 0 then
          some ⟨false, set_state session config .CONN_ERROR,
            ev3 ++ [.ssh_free ssh, .socket_close sock]⟩
        else
        let (rc, auth) := authenticate config env
        let ev4 := ev3 ++ [auth]
        if rc ≠ 0 then
          some ⟨false, set_state session config .CONN_ERROR,
            ev4 ++ [.ssh_free ssh, .socket_close sock]⟩
        else
        match env.sftp_init with
        | none =>
          some ⟨false, set_state session config .CONN_ERROR,
            ev4 ++ [.ssh_free ssh, .socket_close sock]⟩
        | some sftp =>
          some ⟨true,
            { session with
              ssh_session := some ssh, sftp_session := some sftp, active := true,
              config := some { config with state := .CONN_CONNECTED } },
            ev4 ++ [.sftp_init sftp]⟩

/-- What `sftp_connection_disconnect` leaves behind: the session (`none` for a null
pointer) and the release calls made. -/
structure DisconnectResult where
  session : Option SFTPSession
  events : List ConnEvent
deriving DecidableEq, Repr

/-- The function `sftp_connection_disconnect` (lines 140-167). -/
def sftp_connection_disconnect (session : Option SFTPSession) : DisconnectResult :=
  match session with
  | none => ⟨none, []⟩
  | some s =>
    let (s, ev1) :=
      match s.sftp_session with
      | some h => ({ s with sftp_session := none }, [ConnEvent.sftp_shutdown h])
      | none => (s, [])
    let (s, ev2) :=
      match s.ssh_session with
      | some h => ({ s with ssh_session := none },
                   ev1 ++ [ConnEvent.ssh_disconnect h, ConnEvent.ssh_free h])
      | none => (s, ev1)
    let (s, ev3) :=
      if 0 < s.sock then ({ s with sock := 0 }, ev2 ++ [ConnEvent.socket_close s.sock])
      else (s, ev2)
    let s :=
      match s.config with
      | some c => { s with config := some { c with state := .CONN_DISCONNECTED } }
      | none => s
    ⟨some { s with active := false }, ev3⟩

/-- The session built by `on_connect_clicked` (`src/ui.c`, lines 183-189) and by the
zero-initialised `test_session` of the connection test before `sftp_connection_connect`
is called. -/
def fresh_session (config : Option SFTPConnection) : SFTPSession :=
  { config := config, ssh_session := none, sftp_session := none, sock := 0, active := false }

/-! ## Transfer engine (`src/connection.c`, lines 210-339) -/

/-- A byte of file content (a value below 256; the transfer code never inspects it). -/
abbrev Byte := Nat

/-- The size of the stack buffer, `char buf[8192]`. -/
def BUF_SIZE : Nat := 8192

/-- Calls made by the transfer functions, in program order. -/
inductive XferEvent where
  /-- The call `fopen(local, mode)`; `write` tells "wb" from "rb", `ok` is a non-null result. -/
  | local_open (write : Bool) (ok : Bool)
  /-- The call `libssh2_sftp_open`; `write` tells WRITE|CREAT|TRUNC from READ. -/
  | remote_open (write : Bool) (ok : Bool)
  /-- The call `libssh2_sftp_stat` on the remote path. -/
  | remote_stat (ok : Bool)
  /-- A read of `op->cancelled` while `op->transferred` had the given value. -/
  | cancel_check (transferred : Nat) (flag : Bool)
  /-- The call `libssh2_sftp_write(handle, buf + written, nread - written)`: the bytes
  submitted and the return value. -/
  | remote_write (submitted : List Byte) (rc : Int)
  /-- The call `libssh2_sftp_read(handle, buf, sizeof(buf))`: the return value and the
  bytes placed in the buffer. -/
  | remote_read (rc : Int) (data : List Byte)
  /-- The call `fwrite(buf, 1, rc, local_file)`: the bytes submitted and the count returned. -/
  | local_write (submitted : List Byte) (ret : Nat)
  /-- The call `libssh2_sftp_close(sftp_handle)`. -/
  | remote_close
  /-- The call `fclose(local_file)`. -/
  | local_close
deriving DecidableEq, Repr

/-- The mutable state of a running transfer. -/
structure XferState where
  /-- The attached task, `none` for a null `op`. -/
  op : Option FileOperation
  /-- Calls made so far. -/
  events : List XferEvent
  /-- Number of remote read/write calls made so far. -/
  calls : Nat
  /-- Number of reads of `op->cancelled` made so far. -/
  checks : Nat
deriving DecidableEq, Repr

/-- What a transfer function leaves behind when it returns. -/
structure XferResult where
  ret : Bool
  op : Option FileOperation
  events : List XferEvent
deriving DecidableEq, Repr

/-- How a run of the inner write loop ends: it falls through (`done`) or the function
returns from inside it. -/
inductive LoopExit where
  | done (st : XferState)
  | returned (r : XferResult)
deriving DecidableEq, Repr

/-- The guard `!session || !session->active || !session->sftp_session`. -/
def not_connected (session : Option SFTPSession) : Bool :=
  match session with
  | none => true
  | some s => !s.active || s.sftp_session.isNone

/-- The statement `g_atomic_pointer_add(&op->transferred, rc)` under `if (op)`. -/
def add_transferred (op : Option FileOperation) (rc : Nat) : Option FileOperation :=
  op.map fun o => { o with transferred := o.transferred + rc }

/-- The early exit `libssh2_sftp_close(sftp_handle); fclose(local_file); return FALSE;`. -/
def abort (st : XferState) : XferResult :=
  ⟨false, st.op, st.events ++ [.remote_close, .local_close]⟩

/-- The test `op && op->cancelled`: with a task attached the flag is read (and the read
logged), the value read being the oracle's answer for this read. -/
def check_cancelled (cancelled : Nat → Bool) (st : XferState) : Bool × XferState :=
  match st.op with
  | none => (false, st)
  | some o =>
    (cancelled st.checks,
     { st with events := st.events ++ [.cancel_check o.transferred (cancelled st.checks)],
               checks := st.checks + 1 })

/-- What the file system and the server answer during one call of `sftp_upload_file`. -/
structure UploadEnv where
  /-- Content of the local file; `none` when `fopen(local, "rb")` fails. -/
  local_file : Option (List Byte)
  /-- Whether `libssh2_sftp_open` returns a handle. -/
  remote_open_ok : Bool
  /-- Return value of the `i`-th `libssh2_sftp_write` call when asked to write `n` bytes. -/
  write_rc : Nat → Nat → Int
  /-- Value of `op->cancelled` seen by the `j`-th read of the flag. -/
  cancelled : Nat → Bool

/-- The call `libssh2_sftp_write(sftp_handle, buf + written, nread - written)`, logged. -/
def log_remote_write (st : XferState) (submitted : List Byte) (rc : Int) : XferState :=
  { st with events := st.events ++ [.remote_write submitted rc], calls := st.calls + 1 }

/-- The statement `if (op) g_atomic_pointer_add(&op->transferred, rc);`. -/
def progress (st : XferState) (rc : Nat) : XferState :=
  { st with op := add_transferred st.op rc }

/-- The inner loop `while (written < nread)` (lines 251-267) on the buffer `buf`. -/
def upload_chunk (env : UploadEnv) (buf : List Byte) :
    Nat → Nat → XferState → Option LoopExit
  | 0, _, _ => none
  | fuel + 1, written, st =>
    if written < buf.length then
      let (flag, st) := check_cancelled env.cancelled st
      if flag then some (.returned (abort st))
      else
        let rc := env.write_rc st.calls (buf.length - written)
        let st := log_remote_write st (buf.drop written) rc
        if rc < 0 then some (.returned (abort st))
        else upload_chunk env buf fuel (written + rc.toNat) (progress st rc.toNat)
    else some (.done st)

/-- The outer loop `while ((nread = fread(buf, 1, sizeof(buf), local_file)) > 0)`
(lines 249-268) and the normal exit (lines 270-274); `rest` is the unread part of the
local file. -/
def upload_loop (env : UploadEnv) : Nat → List Byte → XferState → Option XferResult
  | 0, _, _ => none
  | fuel + 1, rest, st =>
    let buf := rest.take BUF_SIZE
    if 0 < buf.length then
      match upload_chunk env buf fuel 0 st with
      | none => none
      | some (.returned r) => some r
      | some (.done st) => upload_loop env fuel (rest.drop BUF_SIZE) st
    else
      some ⟨true, st.op, st.events ++ [.remote_close, .local_close]⟩

/-- The function `sftp_upload_file` (lines 210-275). -/
def sftp_upload_file (session : Option SFTPSession) (op : Option FileOperation)
    (env : UploadEnv) (fuel : Nat) : Option XferResult :=
  if not_connected session then some ⟨false, op, []⟩
  else
    match env.local_file with
    | none => some ⟨false, op, [.local_open false false]⟩
    | some content =>
      let op := op.map fun (o : FileOperation) =>
        { o with total_size := content.length, transferred := 0 }
      let events := [XferEvent.local_open false true, .remote_open true env.remote_open_ok]
      if !env.remote_open_ok then some ⟨false, op, events ++ [.local_close]⟩
      else upload_loop env fuel content ⟨op, events, 0, 0⟩

/-- The bytes the remote file holds after the logged calls: what each
`libssh2_sftp_write` accepted, in call order. -/
def remote_written : List XferEvent → List Byte
  | [] => []
  | .remote_write submitted rc :: evs => submitted.take rc.toNat ++ remote_written evs
  | _ :: evs => remote_written evs

/-- What the server and the file system answer during one call of `sftp_download_file`. -/
structure DownloadEnv where
  /-- Content of the remote file; `none` when `libssh2_sftp_open` fails. -/
  remote_file : Option (List Byte)
  /-- The `filesize` attribute when `libssh2_sftp_stat` returns 0. -/
  stat_size : Option Nat
  /-- Whether `fopen(local, "wb")` returns a stream. -/
  local_open_ok : Bool
  /-- Answer to the `i`-th `libssh2_sftp_read` call: a negative number is the error code
  returned; a number `m >= 0` lets the call deliver up to `m` bytes. -/
  read_choice : Nat → Int
  /-- Return value of the `i`-th `fwrite` call when asked to write `n` bytes. -/
  fwrite_ret : Nat → Nat → Nat
  /-- Value of `op->cancelled` seen by the `j`-th read of the flag. -/
  cancelled : Nat → Bool

/-- One `libssh2_sftp_read(handle, buf, sizeof(buf))` on a handle at offset `off` of a
file holding `content`: an error code, or the next bytes of the file, at most
`sizeof(buf)` and at most what the server chooses to deliver. -/
def sftp_read (content : List Byte) (off : Nat) (choice : Int) : Int × List Byte :=
  if choice < 0 then (choice, [])
  else
    let data := ((content.drop off).take BUF_SIZE).take choice.toNat
    (data.length, data)

/-- The call `libssh2_sftp_read(sftp_handle, buf, sizeof(buf))`, logged. -/
def log_remote_read (st : XferState) (rc : Int) (data : List Byte) : XferState :=
  { st with events := st.events ++ [.remote_read rc data], calls := st.calls + 1 }

/-- The call `fwrite(buf, 1, rc, local_file)`, logged. -/
def log_local_write (st : XferState) (submitted : List Byte) (ret : Nat) : XferState :=
  { st with events := st.events ++ [.local_write submitted ret] }

/-- The loop `while ((rc = libssh2_sftp_read(...)) > 0)` (lines 318-332) and the normal
exit (lines 334-338); `off` is the read offset of the remote handle and `writes` the
number of `fwrite` calls made so far. -/
def download_loop (env : DownloadEnv) (content : List Byte) :
    Nat → Nat → Nat → XferState → Option XferResult
  | 0, _, _, _ => none
  | fuel + 1, off, writes, st =>
    let (rc, data) := sftp_read content off (env.read_choice st.calls)
    let st := log_remote_read st rc data
    if 0 < rc then
      let (flag, st) := check_cancelled env.cancelled st
      if flag then some (abort st)
      else
        let w := env.fwrite_ret writes rc.toNat
        let st := log_local_write st data w
        if w ≠ rc.toNat then some (abort st)
        else download_loop env content fuel (off + rc.toNat) (writes + 1) (progress st rc.toNat)
    else
      some ⟨true, st.op, st.events ++ [.remote_close, .local_close]⟩

/-- The function `sftp_download_file` (lines 280-339). -/
def sftp_download_file (session : Option SFTPSession) (op : Option FileOperation)
    (env : DownloadEnv) (fuel : Nat) : Option XferResult :=
  if not_connected session then some ⟨false, op, []⟩
  else
    match env.remote_file with
    | none => some ⟨false, op, [.remote_open false false]⟩
    | some content =>
      let op :=
        match env.stat_size with
        | some size => op.map fun (o : FileOperation) => { o with total_size := size }
        | none => op
      let op := op.map fun (o : FileOperation) => { o with transferred := 0 }
      let events := [XferEvent.remote_open false true, .remote_stat env.stat_size.isSome,
                     .local_open true env.local_open_ok]
      if !env.local_open_ok then some ⟨false, op, events ++ [.remote_close]⟩
      else download_loop env content fuel 0 0 ⟨op, events, 0, 0⟩

/-- The bytes the local file holds after the logged calls: what each `fwrite` wrote, in
call order (the file was opened with "wb", hence truncated). -/
def local_written : List XferEvent → List Byte
  | [] => []
  | .local_write submitted ret :: evs => submitted.take ret ++ local_written evs
  | _ :: evs => local_written evs

/-! ## Sync reconciler (`src/sync.c`) -/

/-- The function `compare_file_time` (lines 14-19) on two `time_t` values. -/
def compare_file_time (t1 t2 : Int) : Int :=
  if t1 < t2 then -1
  else if t1 > t2 then 1
  else 0

/-- Calls made by the sync functions, in program order. -/
inductive SyncEvent where
  /-- The call `stat(local, &local_stat)`; `ok` is a zero result. -/
  | stat_local (ok : Bool)
  /-- The call `libssh2_sftp_stat(session->sftp_session, remote, &remote_stat)`. -/
  | stat_remote (ok : Bool)
  /-- The call `sftp_download_file(session, remote, local, NULL)` and its result. -/
  | download (session : SFTPSession) (ok : Bool)
  /-- The call `sftp_upload_file(session, local, remote, NULL)` and its result. -/
  | upload (session : SFTPSession) (ok : Bool)
  /-- The call `dialogs_show_msgbox`; `error` tells GTK_MESSAGE_ERROR from GTK_MESSAGE_INFO. -/
  | msgbox (error : Bool)
deriving DecidableEq, Repr

/-- What the file system, the server and the transfer engine answer during one call of a
sync function. -/
structure SyncEnv where
  /-- The `st_mtime` of the local file when `stat` succeeds. -/
  local_mtime : Option Int
  /-- The `mtime` attribute of the remote file when `libssh2_sftp_stat` succeeds, as the
  `time_t` value handed to `compare_file_time`. -/
  remote_mtime : Option Int
  /-- What `sftp_download_file` returns if it is called. -/
  download_ret : Bool
  /-- What `sftp_upload_file` returns if it is called. -/
  upload_ret : Bool
deriving DecidableEq, Repr

/-- What a sync function leaves behind when it returns. -/
structure SyncResult where
  ret : Bool
  events : List SyncEvent
deriving DecidableEq, Repr

/-- The session selected by the guard
`plugin_data->current_connection < 0 || !plugin_data->sessions[plugin_data->current_connection]`:
`none` when the guard fires. -/
def current_session (plugin_data : SFTPPluginData) : Option SFTPSession :=
  if plugin_data.current_connection < 0 then none
  else plugin_data.sessions.getD plugin_data.current_connection.toNat none

/-- The function `sync_upload_file` (lines 170-192). -/
def sync_upload_file (plugin_data : SFTPPluginData) (env : SyncEnv) : SyncResult :=
  match current_session plugin_data with
  | none => ⟨false, []⟩
  | some session =>
    if env.upload_ret then ⟨true, [.upload session true, .msgbox false]⟩
    else ⟨false, [.upload session false, .msgbox true]⟩

/-- The function `sync_download_file` (lines 197-219). -/
def sync_download_file (plugin_data : SFTPPluginData) (env : SyncEnv) : SyncResult :=
  match current_session plugin_data with
  | none => ⟨false, []⟩
  | some session =>
    if env.download_ret then ⟨true, [.download session true, .msgbox false]⟩
    else ⟨false, [.download session false, .msgbox true]⟩

/-- The function `sync_auto_sync` (lines 224-264). -/
def sync_auto_sync (plugin_data : SFTPPluginData) (env : SyncEnv) : SyncResult :=
  match current_session plugin_data with
  | none => ⟨false, []⟩
  | some _ =>
    match env.local_mtime with
    | none => ⟨false, [.stat_local false]⟩
    | some local_mtime =>
      match env.remote_mtime with
      | none => ⟨false, [.stat_local true, .stat_remote false]⟩
      | some remote_mtime =>
        let time_cmp := compare_file_time local_mtime remote_mtime
        let stats := [SyncEvent.stat_local true, SyncEvent.stat_remote true]
        if time_cmp < 0 then
          let r := sync_download_file plugin_data env
          ⟨r.ret, stats ++ r.events⟩
        else if time_cmp > 0 then
          let r := sync_upload_file plugin_data env
          ⟨r.ret, stats ++ r.events⟩
        else ⟨true, stats⟩

/-- Whether an event is a call of `sftp_download_file`. -/
def SyncEvent.is_download : SyncEvent → Bool
  | .download _ _ => true
  | _ => false

/-- Whether an event is a call of `sftp_upload_file`. -/
def SyncEvent.is_upload : SyncEvent → Bool
  | .upload _ _ => true
  | _ => false

/-! ## Specification-level vocabulary -/

/-- The handshake eventually answers something other than "try again". -/
def handshake_settles (env : ConnectEnv) : Prop :=
  ∃ rc ∈ env.handshake, rc ≠ LIBSSH2_ERROR_EAGAIN

/-- Descriptors opened by `socket()` in an event list. -/
def sockets_opened : List ConnEvent → List Int
  | [] => []
  | .socket_open fd :: evs => fd :: sockets_opened evs
  | _ :: evs => sockets_opened evs

/-- Descriptors closed by `compat_close_socket` in an event list. -/
def sockets_closed : List ConnEvent → List Int
  | [] => []
  | .socket_close fd :: evs => fd :: sockets_closed evs
  | _ :: evs => sockets_closed evs

/-- SSH handles created by `libssh2_session_init` in an event list. -/
def ssh_created : List ConnEvent → List Nat
  | [] => []
  | .ssh_init h :: evs => h :: ssh_created evs
  | _ :: evs => ssh_created evs

/-- SSH handles released by `libssh2_session_free` in an event list. -/
def ssh_freed : List ConnEvent → List Nat
  | [] => []
  | .ssh_free h :: evs => h :: ssh_freed evs
  | _ :: evs => ssh_freed evs

/-- The Session invariant of the specification: the sftp handle is non-null iff active
iff the ssh handle is non-null iff the socket is valid (`sock > 0`). -/
def session_invariant (s : SFTPSession) : Prop :=
  (s.sftp_session.isSome = true ↔ s.active = true) ∧
  (s.active = true ↔ s.ssh_session.isSome = true) ∧
  (s.ssh_session.isSome = true ↔ 0 < s.sock)

instance (s : SFTPSession) : Decidable (session_invariant s) := by
  unfold session_invariant; infer_instance

/-- One call made on a session by its owner. -/
inductive ConnCall where
  | connect (env : ConnectEnv)
  | disconnect
deriving DecidableEq, Repr

/-- The session after a sequence of `sftp_connection_connect` /
`sftp_connection_disconnect` calls (`none` when a call does not return). -/
def run_calls : List ConnCall → SFTPSession → Option SFTPSession
  | [], s => some s
  | .connect env :: calls, s =>
    match sftp_connection_connect s env with
    | none => none
    | some r => run_calls calls r.session
  | .disconnect :: calls, s =>
    match (sftp_connection_disconnect (some s)).session with
    | none => none
    | some s' => run_calls calls s'

/-- The release calls the specification prescribes for a disconnect, in its order: the
SFTP handle, then the SSH handle (disconnect notice, then free), then the socket, each
one skipped when already null / zero. -/
def release_order (s : SFTPSession) : List ConnEvent :=
  (match s.sftp_session with
    | some h => [ConnEvent.sftp_shutdown h]
    | none => []) ++
  (match s.ssh_session with
    | some h => [ConnEvent.ssh_disconnect h, ConnEvent.ssh_free h]
    | none => []) ++
  (if s.sock = 0 then [] else [ConnEvent.socket_close s.sock])

/-- The profile state of a session, when a profile is attached. -/
def profile_state (s : SFTPSession) : Option ConnectionState :=
  s.config.map fun c => c.state

/-- Every remote write accepts at least one byte and at most what was submitted. -/
def WritesAccept (env : UploadEnv) : Prop :=
  ∀ i n, 0 < n → 1 ≤ env.write_rc i n ∧ env.write_rc i n ≤ n

/-- Every remote write fails or accepts at least one byte, and never more than was
submitted. -/
def WritesProgress (env : UploadEnv) : Prop :=
  ∀ i n, 0 < n → env.write_rc i n ≠ 0 ∧ env.write_rc i n ≤ n

/-- The cancelled flag is never seen set. -/
def never_cancelled (cancelled : Nat → Bool) : Prop :=
  ∀ j, cancelled j = false

/-- The values `op->transferred` had at the successive reads of `op->cancelled`. -/
def check_values : List XferEvent → List Nat
  | [] => []
  | .cancel_check t _ :: evs => t :: check_values evs
  | _ :: evs => check_values evs

/-- The length of the local file read by an upload (0 when it cannot be opened). -/
def local_length (env : UploadEnv) : Nat :=
  match env.local_file with
  | some content => content.length
  | none => 0

/-- The remote writes logged, in call order: bytes submitted and return value. -/
def remote_writes : List XferEvent → List (List Byte × Int)
  | [] => []
  | .remote_write submitted rc :: evs => (submitted, rc) :: remote_writes evs
  | _ :: evs => remote_writes evs

/-- A write that accepted only part of what it was given is followed by a write of
exactly the part it did not accept. -/
def resubmits_remainder (events : List XferEvent) : Prop :=
  List.Chain' (fun a b : List Byte × Int => a.2.toNat < a.1.length → b.1 = a.1.drop a.2.toNat)
    (remote_writes events)



/-- What the last remote write logged left unaccepted, if anything, is `rest`. -/
def pending_remainder (events : List XferEvent) (rest : List Byte) : Prop :=
  ∀ p, (remote_writes events).getLast? = some p → p.2.toNat < p.1.length →
    p.1.drop p.2.toNat = rest



/-- The profile of the specification scenario:
hostname "test", port 22, username "u", password "p". -/
def test_profile : SFTPConnection :=
  { name := "test", hostname := "test", port := 22, username := "u", password := "p",
    private_key := "", remote_dir := "/", use_keyring := false,
    state := .CONN_DISCONNECTED }

/-- A session on which a connection was established earlier: socket 5, handles 1 and 2. -/
def connected_session : SFTPSession :=
  { config := some { test_profile with state := .CONN_CONNECTED },
    ssh_session := some 1, sftp_session := some 2, sock := 5, active := true }

/-- An environment in which every step of a connection attempt succeeds, the handshake
after one "try again". -/
def reachable_env : ConnectEnv :=
  { socket_ret := 5, host_found := true, connect_ret := 0, ssh_init := some 1,
    handshake := [LIBSSH2_ERROR_EAGAIN, 0], auth_methods := some "publickey,password",
    publickey_ret := 0, password_ret := 0, sftp_init := some 2 }

/-- An environment in which the TCP connection is made and the SSH handshake is then
rejected (error -5). -/
def handshake_failure_env : ConnectEnv :=
  { reachable_env with handshake := [LIBSSH2_ERROR_EAGAIN, -5] }

/-- An environment in which `socket()` fails. -/
def no_socket_env : ConnectEnv :=
  { reachable_env with socket_ret := -1 }

/-- An upload of `content` to a server that accepts at most two bytes per write. -/
def slow_upload (content : List Byte) : UploadEnv :=
  { local_file := some content, remote_open_ok := true, write_rc := fun _ n => min n 2,
    cancelled := fun _ => false }

/-- A download of `content` during which the first remote read delivers two bytes and
every later read fails with error -1; the local file accepts every byte. -/
def failing_download (content : List Byte) : DownloadEnv :=
  { remote_file := some content, stat_size := some content.length, local_open_ok := true,
    read_choice := fun i => if i = 0 then 2 else -1, fwrite_ret := fun _ n => n,
    cancelled := fun _ => false }

/-- A download of `content` from a server that fills the buffer on every read, with the
flag read as `cancelled` says. -/
def plain_download (content : List Byte) (cancelled : Nat → Bool) : DownloadEnv :=
  { remote_file := some content, stat_size := some content.length, local_open_ok := true,
    read_choice := fun _ => 8192, fwrite_ret := fun _ n => n, cancelled := cancelled }

/-- Plugin data with one connected session selected. -/
def one_session_plugin : SFTPPluginData :=
  { connections := [{ test_profile with state := .CONN_CONNECTED }], num_connections := 1,
    sessions := [some connected_session], current_connection := 0,
    current_remote_path := "/", show_hidden_files := false }

/-! ## Vocabulary for the progress counters -/

/-- The sum of the byte counts accepted by the remote writes logged (a failed write
accepts nothing). -/
def accepted_total : List XferEvent → Nat
  | [] => 0
  | .remote_write _ rc :: evs => rc.toNat + accepted_total evs
  | _ :: evs => accepted_total evs

/-- The books of a running transfer balance: with `remaining` bytes of the source still
to be transferred, the attached task (if any) has `total_size = total` and
`transferred + remaining = total`, and every value of `transferred` seen at a read of the
cancelled flag was at most `total`. -/
def accounted (st : XferState) (remaining total : Nat) : Prop :=
  (∀ o, st.op = some o → o.total_size = total ∧ o.transferred + remaining = total) ∧
  (∀ t ∈ check_values st.events, t ≤ total)

/-- The task of a finished transfer never showed more than `total`: its `total_size` is
`total`, its final `transferred` is at most `total`, and so was every value of
`transferred` seen at a read of the cancelled flag. -/
def result_within_total (r : XferResult) (total : Nat) : Prop :=
  (∀ o, r.op = some o → o.total_size = total ∧ o.transferred ≤ total) ∧
  (∀ t ∈ check_values r.events, t ≤ total)

/-- A download of `content` whose first remote read fails with error -1. -/
def broken_download (content : List Byte) : DownloadEnv :=
  { remote_file := some content, stat_size := some content.length, local_open_ok := true,
    read_choice := fun _ => -1, fwrite_ret := fun _ n => n, cancelled := fun _ => false }

/-! ## Vocabulary for authentication and for repeated sync runs -/

/-- The authentication calls logged, in call order. -/
def auth_attempts : List ConnEvent → List ConnEvent
  | [] => []
  | .auth_publickey :: evs => .auth_publickey :: auth_attempts evs
  | .auth_password :: evs => .auth_password :: auth_attempts evs
  | _ :: evs => auth_attempts evs

/-- The server's list of methods is available and names "publickey", and the profile has
a non-empty private key path. -/
def publickey_offered (config : SFTPConnection) (env : ConnectEnv) : Prop :=
  ∃ methods, env.auth_methods = some methods ∧
    "publickey".toList <:+: methods.toList ∧ config.private_key ≠ ""

/-- The modification times a second sync run finds when nothing but the first run
touched the two files.  Neither `sftp_upload_file` nor `sftp_download_file` sets a
modification time (the sources hold no `utime`, `futimes` or `libssh2_sftp_setstat`
call): a file the first run wrote carries the time of that write, `write_time` on the
clock of the side that stores it; a run that wrote nothing leaves both times alone. -/
def env_after_sync (env : SyncEnv) (r : SyncResult) (write_time : Int) : SyncEnv :=
  if r.events.any SyncEvent.is_download && r.ret then
    { env with local_mtime := some write_time }
  else if r.events.any SyncEvent.is_upload && r.ret then
    { env with remote_mtime := some write_time }
  else env

/-- A sync run made no transfer and returned TRUE. -/
def sync_noop (r : SyncResult) : Prop :=
  r.events.any SyncEvent.is_download = false ∧ r.events.any SyncEvent.is_upload = false ∧
  r.ret = true

/-! ## Directory listing (`src/ui.c`, lines 787-875) -/

/-- The fields of `LIBSSH2_SFTP_ATTRIBUTES` the listing reads. -/
structure SftpAttributes where
  flags : Nat
  filesize : Nat
  permissions : Nat
  mtime : Nat
deriving DecidableEq, Repr

/-- The value of `LIBSSH2_SFTP_ATTR_PERMISSIONS` in `libssh2_sftp.h`. -/
def LIBSSH2_SFTP_ATTR_PERMISSIONS : Nat := 0x4

/-- The value of `LIBSSH2_SFTP_ATTR_ACMODTIME` in `libssh2_sftp.h`. -/
def LIBSSH2_SFTP_ATTR_ACMODTIME : Nat := 0x8

/-- The value of `LIBSSH2_SFTP_S_IFDIR` in `libssh2_sftp.h`. -/
def LIBSSH2_SFTP_S_IFDIR : Nat := 0o040000

/-- One answer of `libssh2_sftp_readdir`: the return value, and the name and attributes
it stored when the return value is positive. -/
structure ReaddirAnswer where
  rc : Int
  filename : String
  attrs : SftpAttributes
deriving DecidableEq, Repr

/-- A row of the file list store: columns 0 to 5. -/
structure FileRow where
  name : String
  kind : String
  size_str : String
  icon : String
  mtime_str : String
  mtime : Int
deriving DecidableEq, Repr

/-- What the server and libc answer during one call of `ui_update_file_list`. -/
structure ListEnv where
  /-- Whether `libssh2_sftp_opendir` returns a handle. -/
  opendir_ok : Bool
  /-- The successive answers of `libssh2_sftp_readdir`; past the end of the list the
  directory is exhausted. -/
  readdir : List ReaddirAnswer
  /-- The text `localtime` and `strftime(..., "%Y-%m-%d %H:%M", ...)` produce for a time. -/
  format_time : Nat → String

/-- The conversion of a 64-bit unsigned value to `long` / `gint64`. -/
def to_long (n : Nat) : Int :=
  if n % 2 ^ 64 < 2 ^ 63 then (n % 2 ^ 64 : Nat) else (n % 2 ^ 64 : Nat) - 2 ^ 64

/-- The synthetic row for the parent directory (lines 809-812). -/
def parent_row : FileRow :=
  { name := "..", kind := "DIR", size_str := "", icon := "folder", mtime_str := "",
    mtime := 0 }

/-- The row built from one directory entry (lines 837-868). -/
def file_row (format_time : Nat → String) (a : ReaddirAnswer) : FileRow :=
  let (mtime, mtime_str) :=
    if a.attrs.flags &&& LIBSSH2_SFTP_ATTR_ACMODTIME ≠ 0 then
      (to_long a.attrs.mtime, format_time a.attrs.mtime)
    else (0, "")
  if a.attrs.flags &&& LIBSSH2_SFTP_ATTR_PERMISSIONS ≠ 0 ∧
      a.attrs.permissions &&& LIBSSH2_SFTP_S_IFDIR ≠ 0 then
    { name := a.filename, kind := "DIR", size_str := "", icon := "folder",
      mtime_str := mtime_str, mtime := mtime }
  else
    { name := a.filename, kind := "FILE", size_str := toString (to_long a.attrs.filesize),
      icon := "text-x-generic", mtime_str := mtime_str, mtime := mtime }

/-- The sort columns of the file list: the ids 0 (name), 1 (type), 2 (size text) and 5
(modification time) that `ui_create_sidebar` gives to the view columns (lines 729-759). -/
inductive SortColumn where
  | name
  | type
  | size
  | mtime
deriving DecidableEq, Repr

/-- The list store of the file list, a `GtkListStore` used as its own
`GtkTreeSortable` (line 721): its rows from top to bottom, its sort column and order
(column 0 ascending after `ui_create_sidebar`, line 764; a click on a column header
changes them), and the answers of `g_utf8_collate`, with which the store compares
string columns. -/
structure FileStore where
  rows : List FileRow
  sort_column : SortColumn
  descending : Bool
  collate : String → String → Int

/-- The store `ui_create_sidebar` creates (lines 718-764): no rows, sorted on column 0,
ascending. -/
def new_file_store (collate : String → String → Int) : FileStore :=
  { rows := [], sort_column := .name, descending := false, collate := collate }

/-- The comparison of two rows the store sorts by: `g_utf8_collate` on a string column,
the order of the numbers on the `gint64` column, the sign turned round for a descending
sort. -/
def store_compare (store : FileStore) (a b : FileRow) : Int :=
  let c :=
    match store.sort_column with
    | .name => store.collate a.name b.name
    | .type => store.collate a.kind b.kind
    | .size => store.collate a.size_str b.size_str
    | .mtime => if a.mtime < b.mtime then -1 else if a.mtime = b.mtime then 0 else 1
  if store.descending then
    if c > 0 then -1 else if c < 0 then 1 else c
  else c

/-- The place a sorted store gives to a row: before the first row that compares
greater (where it stands among rows that compare equal is not relied upon). -/
def store_insert (compare : FileRow → FileRow → Int) (row : FileRow) :
    List FileRow → List FileRow
  | [] => [row]
  | r :: rest =>
    if compare row r < 0 then row :: r :: rest else r :: store_insert compare row rest

/-- The calls `gtk_list_store_append` and `gtk_list_store_set` for one row (lines
810-811 and 859-867): the store being sorted, setting the columns moves the new row from
the end to its place in the sort order. -/
def store_append_set (store : FileStore) (row : FileRow) : FileStore :=
  { store with rows := store_insert (store_compare store) row store.rows }

/-- The loop `while ((rc = libssh2_sftp_readdir(...)) > 0)` (lines 821-869) on the list
store `store`. -/
def read_entries (show_hidden_files : Bool) (format_time : Nat → String) :
    List ReaddirAnswer → FileStore → FileStore
  | [], store => store
  | a :: rest, store =>
    if 0 < a.rc then
      if a.filename = "." || a.filename = ".." then
        read_entries show_hidden_files format_time rest store
      else if a.filename.toList.head? = some '.' && !show_hidden_files then
        read_entries show_hidden_files format_time rest store
      else
        read_entries show_hidden_files format_time rest
          (store_append_set store (file_row format_time a))
    else store

/-- The function `ui_update_file_list` (lines 787-875), as a function from the list
store before the call to the list store after it. -/
def ui_update_file_list (plugin_data : SFTPPluginData) (store : FileStore)
    (env : ListEnv) : FileStore :=
  match current_session plugin_data with
  | none => store
  | some _ =>
    let store : FileStore := { store with rows := [] }
    let store :=
      if plugin_data.current_remote_path ≠ "/" then store_append_set store parent_row
      else store
    if !env.opendir_ok then store
    else read_entries plugin_data.show_hidden_files env.format_time env.readdir store

/-- An entry the listing is to show: its name is neither "." nor "..", and it does not
start with '.' unless hidden files are shown. -/
def listed (show_hidden_files : Bool) (a : ReaddirAnswer) : Bool :=
  decide (a.filename ≠ ".") && decide (a.filename ≠ "..") &&
  (show_hidden_files || decide (a.filename.toList.head? ≠ some '.'))

/-- The directory of the specification scenario: a.txt (100 bytes, regular file) and
.hidden. -/
def scenario_directory : List ReaddirAnswer :=
  [⟨5, "a.txt", ⟨0xd, 100, 0o100644, 1700000000⟩⟩,
   ⟨7, ".hidden", ⟨0xd, 7, 0o100600, 1700000001⟩⟩]

/-- A listing environment for the specification scenario; times are shown as seconds. -/
def scenario_listing : ListEnv :=
  { opendir_ok := true, readdir := scenario_directory, format_time := fun t => toString t }

/-- The comparison is usable for sorting: `b` is above `a` exactly when `a` is below
`b`, and "not above" is transitive. -/
def compare_consistent {α : Type} (compare : α → α → Int) : Prop :=
  (∀ a b, compare a b < 0 ↔ 0 < compare b a) ∧
  (∀ a b c, compare a b ≤ 0 → compare b c ≤ 0 → compare a c ≤ 0)

/-- The rows are in the sort order of the comparison: no row compares greater than a
row below it. -/
def rows_sorted (compare : FileRow → FileRow → Int) (rows : List FileRow) : Prop :=
  List.Pairwise (fun a b => compare a b ≤ 0) rows

/-- The comparison of two strings character by character, the order `strcmp` gives to
UTF-8 text. -/
def compare_bytes : List Char → List Char → Int
  | [], [] => 0
  | [], _ :: _ => -1
  | _ :: _, [] => 1
  | a :: as, b :: bs =>
    if a.toNat < b.toNat then -1
    else if b.toNat < a.toNat then 1
    else compare_bytes as bs

/-- The answers of `g_utf8_collate` in the C locale. -/
def c_locale_collate (a b : String) : Int :=
  compare_bytes a.toList b.toList

/-- A directory the server reports in the order b.txt, a.txt. -/
def unsorted_directory : List ReaddirAnswer :=
  [⟨5, "b.txt", ⟨0xd, 20, 0o100644, 1700000002⟩⟩,
   ⟨5, "a.txt", ⟨0xd, 100, 0o100644, 1700000000⟩⟩]

/-! ## Async transfer scheduler (`src/connection.c`, lines 344-391) -/

/-- The constant `MAX_PATH_LEN` of `sftp-plugin.h`. -/
def MAX_PATH_LEN : Nat := 4096

/-- The content of `dest` after `g_strlcpy(dest, src, dest_size)`: the first
`dest_size - 1` characters of `src` (a character of the string stands for a byte). -/
def g_strlcpy (src : String) (dest_size : Nat) : String :=
  String.mk (src.toList.take (dest_size - 1))

/-- The scheduling fields of `struct _FileOperation` (the progress fields are in
`FileOperation`); `callback` is a function pointer, `user_data` an opaque pointer. -/
structure AsyncOperation where
  local_path : String
  remote_path : String
  is_upload : Bool
  completed : Bool
  success : Bool
  session : SFTPSession
  callback : Option Nat
  user_data : Nat
deriving DecidableEq, Repr

/-- Calls made by the worker thread and by the idle callback, in program order. -/
inductive WorkerEvent where
  /-- The call `g_mutex_lock(&op->session->lock)`. -/
  | mutex_lock
  /-- The call `g_mutex_unlock(&op->session->lock)`. -/
  | mutex_unlock
  /-- The call `sftp_upload_file(session, local, remote, op)` and its result. -/
  | upload (session : SFTPSession) (local_path remote_path : String) (ret : Bool)
  /-- The call `sftp_download_file(session, remote, local, op)` and its result. -/
  | download (session : SFTPSession) (remote_path local_path : String) (ret : Bool)
  /-- The assignment `op->completed = TRUE`. -/
  | set_completed
  /-- The call `g_idle_add(transfer_complete_idle, op)`. -/
  | idle_add
  /-- The call `op->callback(op, op->success, op->user_data)`. -/
  | callback (fn : Nat) (task : AsyncOperation) (success : Bool) (user_data : Nat)
deriving DecidableEq, Repr

/-- The task `transfer_async` allocates and fills in (lines 381-387), before it starts
the worker thread on it. -/
def transfer_async (session : SFTPSession) (local_path remote_path : String)
    (is_upload : Bool) (callback : Option Nat) (user_data : Nat) : AsyncOperation :=
  { local_path := g_strlcpy local_path MAX_PATH_LEN,
    remote_path := g_strlcpy remote_path MAX_PATH_LEN,
    is_upload := is_upload, completed := false, success := false,
    session := session, callback := callback, user_data := user_data }

/-- The function `transfer_thread_func` (lines 355-371); `transfer_ret` is what the
transfer it calls returns. -/
def transfer_thread_func (op : AsyncOperation) (transfer_ret : Bool) :
    AsyncOperation × List WorkerEvent :=
  let ev := [WorkerEvent.mutex_lock]
  let (op, ev) :=
    if op.is_upload then
      ({ op with success := transfer_ret },
       ev ++ [.upload op.session op.local_path op.remote_path transfer_ret])
    else
      ({ op with success := transfer_ret },
       ev ++ [.download op.session op.remote_path op.local_path transfer_ret])
  let ev := ev ++ [.mutex_unlock]
  let op := { op with completed := true }
  (op, ev ++ [.set_completed, .idle_add])

/-- The function `transfer_complete_idle` (lines 344-350): the calls it makes and its
return value (`G_SOURCE_REMOVE` is FALSE). -/
def transfer_complete_idle (op : AsyncOperation) : List WorkerEvent × Bool :=
  match op.callback with
  | some fn => ([.callback fn op op.success op.user_data], false)
  | none => ([], false)

/-- The main loop's handling of one idle source: it is called again and again for as
long as it returns TRUE (`G_SOURCE_CONTINUE`), at most `rounds` times. -/
def dispatch_idle (source : Unit → List WorkerEvent × Bool) : Nat → List WorkerEvent
  | 0 => []
  | rounds + 1 =>
    let (ev, again) := source ()
    if again then ev ++ dispatch_idle source rounds else ev

/-- A whole asynchronous transfer: `transfer_async`, the worker thread it starts, and the
main loop running the idle source the worker queued.  Returns the task at the end and
the calls made. -/
def run_transfer_async (session : SFTPSession) (local_path remote_path : String)
    (is_upload : Bool) (callback : Option Nat) (user_data : Nat) (transfer_ret : Bool)
    (rounds : Nat) : AsyncOperation × List WorkerEvent :=
  let op := transfer_async session local_path remote_path is_upload callback user_data
  let (op, ev) := transfer_thread_func op transfer_ret
  (op, ev ++ dispatch_idle (fun _ => transfer_complete_idle op) rounds)

/-- The transfer call the specification prescribes for a task. -/
def expected_transfer (session : SFTPSession) (local_path remote_path : String)
    (is_upload : Bool) (ret : Bool) : WorkerEvent :=
  if is_upload then .upload session local_path remote_path ret
  else .download session remote_path local_path ret

/-- The callback calls the specification prescribes for a finished task. -/
def expected_callback (task : AsyncOperation) (ret : Bool) (user_data : Nat) :
    Option Nat → List WorkerEvent
  | some fn => [.callback fn task ret user_data]
  | none => []

/-- A path of 4096 characters. -/
def long_path : String :=
  String.mk (List.replicate 4096 'a')

/-! ## File comparison (`src/sync.c`, lines 24-165) -/

/-- The three texts of the timestamp verdict dialog. -/
inductive Verdict where
  /-- The text "Local file is older / Remote file is newer / Suggest downloading". -/
  | local_older
  /-- The text "Local file is newer / Remote file is older / Suggest uploading". -/
  | local_newer
  /-- The text "File modification times are the same / Files may be identical". -/
  | same_time
deriving DecidableEq, Repr

/-- Calls made by `sync_compare_files` and its helpers, in program order. -/
inductive CompareEvent where
  /-- The call `stat(local, &local_stat)`; `ok` is a zero result. -/
  | stat_local (ok : Bool)
  /-- The call `libssh2_sftp_stat` on the remote path. -/
  | stat_remote (ok : Bool)
  /-- The call `g_mkstemp` for the temporary copy. -/
  | mkstemp (ok : Bool)
  /-- The call `libssh2_sftp_open` on the remote path. -/
  | remote_open (ok : Bool)
  /-- The call `fopen(local_temp_path, "wb")`. -/
  | temp_open (ok : Bool)
  /-- The copy loop of `download_remote_file` and the two closes after it. -/
  | copy_remote
  /-- The call `remove` on the temporary copy. -/
  | remove_temp
  /-- The call `system("which <tool> > /dev/null 2>&1")` and its result. -/
  | which (tool : String) (status : Int)
  /-- The call `system("<tool> <local> <remote_temp>")` and its result. -/
  | run_tool (tool : String) (status : Int)
  /-- The call `dialogs_show_msgbox` with a timestamp verdict. -/
  | verdict (v : Verdict)
deriving DecidableEq, Repr

/-- What the file system, the server and the shell answer during one call of
`sync_compare_files`. -/
structure CompareEnv where
  /-- The `st_mtime` of the local file when `stat` succeeds. -/
  local_mtime : Option Int
  /-- The `mtime` of the remote file when `libssh2_sftp_stat` succeeds, as `time_t`. -/
  remote_mtime : Option Int
  /-- Whether `g_mkstemp` returns a descriptor. -/
  mkstemp_ok : Bool
  /-- Whether `libssh2_sftp_open` returns a handle. -/
  remote_open_ok : Bool
  /-- Whether `fopen` of the temporary file returns a stream. -/
  temp_open_ok : Bool
  /-- The result of `system("which <tool> ...")`. -/
  which_status : String → Int
  /-- The result of `system("<tool> <local> <remote_temp>")`. -/
  tool_status : String → Int

/-- What `sync_compare_files` or one of its helpers leaves behind. -/
structure CompareResult where
  ret : Bool
  events : List CompareEvent
deriving DecidableEq, Repr

/-- The function `download_remote_file` (lines 24-69). -/
def download_remote_file (env : CompareEnv) : CompareResult :=
  if !env.mkstemp_ok then ⟨false, [.mkstemp false]⟩
  else if !env.remote_open_ok then
    ⟨false, [.mkstemp true, .remote_open false, .remove_temp]⟩
  else if !env.temp_open_ok then
    ⟨false, [.mkstemp true, .remote_open true, .temp_open false, .remove_temp]⟩
  else ⟨true, [.mkstemp true, .remote_open true, .temp_open true, .copy_remote]⟩

/-- The array `diff_tools` of `run_external_diff`. -/
def diff_tools : List String := ["meld", "diff", "kdiff3"]

/-- The loop of `run_external_diff` (lines 81-95) over the tools not yet tried. -/
def run_external_diff_from (env : CompareEnv) : List String → CompareResult
  | [] => ⟨false, []⟩
  | tool :: rest =>
    if env.which_status tool = 0 then
      ⟨decide (env.tool_status tool = 0),
        [.which tool (env.which_status tool), .run_tool tool (env.tool_status tool),
         .remove_temp]⟩
    else
      let r := run_external_diff_from env rest
      ⟨r.ret, .which tool (env.which_status tool) :: r.events⟩

/-- The function `run_external_diff` (lines 74-96). -/
def run_external_diff (env : CompareEnv) : CompareResult :=
  run_external_diff_from env diff_tools

/-- The function `sync_compare_files` (lines 101-165). -/
def sync_compare_files (plugin_data : SFTPPluginData) (env : CompareEnv) : CompareResult :=
  match current_session plugin_data with
  | none => ⟨false, []⟩
  | some _ =>
    match env.local_mtime with
    | none => ⟨false, [.stat_local false]⟩
    | some local_mtime =>
      match env.remote_mtime with
      | none => ⟨false, [.stat_local true, .stat_remote false]⟩
      | some remote_mtime =>
        let stats := [CompareEvent.stat_local true, CompareEvent.stat_remote true]
        let dl := download_remote_file env
        if !dl.ret then ⟨false, stats ++ dl.events⟩
        else
          let result := run_external_diff env
          let events := stats ++ dl.events ++ result.events
          if !result.ret then
            let time_cmp := compare_file_time local_mtime remote_mtime
            if time_cmp < 0 then ⟨true, events ++ [.verdict .local_older]⟩
            else if time_cmp > 0 then ⟨true, events ++ [.verdict .local_newer]⟩
            else ⟨true, events ++ [.verdict .same_time]⟩
          else ⟨true, events⟩

/-- The timestamp verdicts shown, in order. -/
def verdicts : List CompareEvent → List Verdict
  | [] => []
  | .verdict v :: evs => v :: verdicts evs
  | _ :: evs => verdicts evs

/-- The first of meld, diff and kdiff3 that `which` finds, if any. -/
def discoverable_tool (env : CompareEnv) : Option String :=
  diff_tools.find? fun tool => decide (env.which_status tool = 0)

/-- The verdict that matches two modification times. -/
def verdict_for (local_mtime remote_mtime : Int) : Verdict :=
  if local_mtime < remote_mtime then .local_older
  else if remote_mtime < local_mtime then .local_newer
  else .same_time

/-- A comparison in which meld is not installed, diff is, and diff exits with status 1
(the files differ); the local file is the older one. -/
def differing_files_env : CompareEnv :=
  { local_mtime := some 100, remote_mtime := some 200, mkstemp_ok := true,
    remote_open_ok := true, temp_open_ok := true,
    which_status := fun tool => if tool = "diff" then 0 else 256,
    tool_status := fun _ => 256 }

/-! ## Worker threads sharing one session (`src/connection.c`, lines 355-371) -/

/-- The point a worker thread has reached in `transfer_thread_func`. -/
inductive WorkerPc where
  /-- In `g_mutex_lock` (line 359), which returns once the lock is free. -/
  | at_lock
  /-- Inside `sftp_upload_file` or `sftp_download_file` (lines 361-364), lock taken. -/
  | in_transfer
  /-- The transfer has returned and `op->success` is set; before `g_mutex_unlock`
  (line 366). -/
  | at_unlock
  /-- Before `op->completed = TRUE` (line 368). -/
  | at_completed
  /-- Before `g_idle_add` (line 369). -/
  | at_idle_add
  /-- After `return NULL`. -/
  | finished
deriving DecidableEq, Repr

/-- A worker thread: its task and the point it has reached. -/
structure Worker where
  op : AsyncOperation
  pc : WorkerPc
deriving DecidableEq, Repr

/-- The worker threads started on one session, and the field `lock` of that session:
the index of the worker that holds it, if any. -/
structure PoolState where
  lock : Option Nat
  workers : List Worker
deriving DecidableEq, Repr

/-- The threads `g_thread_new` starts for a list of tasks on a session whose lock is
free (`g_mutex_init`, `ui.c` line 189; the worker is the only code that takes it). -/
def start_pool (tasks : List AsyncOperation) : PoolState :=
  { lock := none, workers := tasks.map fun op => { op := op, pc := .at_lock } }

/-- One step of worker `i` of `transfer_thread_func`, when the scheduler runs it;
`transfer_ret` is what the transfer returns if the step is the transfer's return.  A
worker waiting in `g_mutex_lock` for a lock that is held stays where it is. -/
def worker_step (st : PoolState) (i : Nat) (transfer_ret : Bool) : PoolState :=
  match st.workers[i]? with
  | none => st
  | some w =>
    match w.pc with
    | .at_lock =>
      match st.lock with
      | some _ => st
      | none =>
        { lock := some i, workers := st.workers.set i { w with pc := .in_transfer } }
    | .in_transfer =>
      { st with workers :=
          st.workers.set i { op := { w.op with success := transfer_ret }, pc := .at_unlock } }
    | .at_unlock =>
      { lock := none, workers := st.workers.set i { w with pc := .at_completed } }
    | .at_completed =>
      { st with workers :=
          st.workers.set i { op := { w.op with completed := true }, pc := .at_idle_add } }
    | .at_idle_add =>
      { st with workers := st.workers.set i { w with pc := .finished } }
    | .finished => st

/-- The pool after a schedule: each item names the worker that runs next and the value
its transfer returns if it returns at that step. -/
def run_workers (st : PoolState) : List (Nat × Bool) → PoolState
  | [] => st
  | (i, transfer_ret) :: schedule => run_workers (worker_step st i transfer_ret) schedule

/-- Worker `i` is inside its upload or download. -/
def transferring (st : PoolState) (i : Nat) : Prop :=
  ∃ w, st.workers[i]? = some w ∧ w.pc = .in_transfer

/-- Worker `i` is between taking the lock and releasing it. -/
def in_section (st : PoolState) (i : Nat) : Prop :=
  ∃ w, st.workers[i]? = some w ∧ (w.pc = .in_transfer ∨ w.pc = .at_unlock)

/-- The lock is held by exactly the worker that is between lock and unlock. -/
def lock_invariant (st : PoolState) : Prop :=
  (∀ i, in_section st i → st.lock = some i) ∧ (∀ i, st.lock = some i → in_section st i)

/-- All workers have returned. -/
def all_finished (st : PoolState) : Prop :=
  ∀ (i : Nat) (w : Worker), st.workers[i]? = some w → w.pc = .finished

/-- Three tasks on the connected session: two uploads and a download. -/
def three_tasks : List AsyncOperation :=
  [transfer_async connected_session "/tmp/a" "/srv/a" true none 0,
   transfer_async connected_session "/tmp/b" "/srv/b" false none 0,
   transfer_async connected_session "/tmp/c" "/srv/c" true (some 1) 7]

/-! ## Connection profiles (`src/config.c`, lines 45-159; `src/sftp-plugin.c`, lines
344-513 and 665-681) -/

/-- The constant `MAX_CONNECTIONS` of `sftp-plugin.h`. -/
def MAX_CONNECTIONS : Nat := 10

/-- The constant `MAX_HOSTNAME_LEN` of `sftp-plugin.h`. -/
def MAX_HOSTNAME_LEN : Nat := 256

/-- The constant `MAX_USERNAME_LEN` of `sftp-plugin.h`. -/
def MAX_USERNAME_LEN : Nat := 64

/-- The constant `MAX_PASSWORD_LEN` of `sftp-plugin.h`. -/
def MAX_PASSWORD_LEN : Nat := 256

/-- The length of the array `name` of `SFTPConnection`. -/
def NAME_LEN : Nat := 128

/-- The constant `DEFAULT_PORT` of `sftp-plugin.h`. -/
def DEFAULT_PORT : Int := 22

/-- A zero-initialised `SFTPConnection` (`g_try_new0`, `memset`). -/
def zero_connection : SFTPConnection :=
  { name := "", hostname := "", port := 0, username := "", password := "",
    private_key := "", remote_dir := "", use_keyring := false,
    state := .CONN_DISCONNECTED }

/-- The assignment `a[i] = v` on a C array held as a list whose slots past the end read
as `zero`. -/
def array_set {α : Type} (a : List α) (i : Nat) (v zero : α) : List α :=
  if i < a.length then a.set i v else a ++ List.replicate (i - a.length) zero ++ [v]

/-- The string in `dest` after `strncpy(dest, src, n)` when `dest[n]` is zero: the first
`n` characters of `src` (shorter input is padded with zeros up to `n`).  The last byte of
every buffer of `SFTPConnection` stays zero: the struct is zeroed when allocated and
every write to a buffer stops one byte short of its end. -/
def strncpy (src : String) (n : Nat) : String :=
  String.mk (src.toList.take n)

/-- What a JSON node can hold, as far as the loader tells the cases apart. -/
inductive JsonValue where
  | str (s : String)
  | int (v : Int)
  | other
deriving DecidableEq, Repr

/-- A JSON object: the node of each member name.  An array element that is not an object
stands as an object without members (json-glib answers its queries on it with FALSE). -/
structure JsonObject where
  member : String → Option JsonValue

/-- The function `json_object_has_member`. -/
def json_object_has_member (obj : JsonObject) (name : String) : Bool :=
  (obj.member name).isSome

/-- The function `json_object_get_string_member`: `none` is NULL. -/
def json_object_get_string_member (obj : JsonObject) (name : String) : Option String :=
  match obj.member name with
  | some (.str s) => some s
  | _ => none

/-- The function `json_object_get_int_member`, 0 for a node that holds no integer. -/
def json_object_get_int_member (obj : JsonObject) (name : String) : Int :=
  match obj.member name with
  | some (.int v) => v
  | _ => 0

/-- The cast `(gint)` of a `gint64`. -/
def to_gint (v : Int) : Int :=
  (v + 2 ^ 31) % 2 ^ 32 - 2 ^ 31

/-- The function `json_get_string_member_safe` (lines 45-53): the content of `buf` after
the call. -/
def json_get_string_member_safe (obj : JsonObject) (name : String) (buf : String)
    (buf_size : Nat) : String :=
  if json_object_has_member obj name then
    match json_object_get_string_member obj name with
    | some s => g_strlcpy s buf_size
    | none => buf
  else buf

/-- The function `parse_connection_object` (lines 56-75): its return value and `*conn`. -/
def parse_connection_object (obj : JsonObject) : Bool × SFTPConnection :=
  let conn := zero_connection
  let conn := { conn with port := DEFAULT_PORT }
  let conn := { conn with state := .CONN_DISCONNECTED }
  let conn := { conn with use_keyring := false }
  let conn := { conn with remote_dir := g_strlcpy "." MAX_PATH_LEN }
  let conn := { conn with name := json_get_string_member_safe obj "name" conn.name NAME_LEN }
  let conn := { conn with
    hostname := json_get_string_member_safe obj "hostname" conn.hostname MAX_HOSTNAME_LEN }
  let conn := { conn with
    username := json_get_string_member_safe obj "username" conn.username MAX_USERNAME_LEN }
  let conn := { conn with
    password := json_get_string_member_safe obj "password" conn.password MAX_PASSWORD_LEN }
  let conn := { conn with
    private_key := json_get_string_member_safe obj "private_key" conn.private_key MAX_PATH_LEN }
  let conn := { conn with
    remote_dir := json_get_string_member_safe obj "remote_dir" conn.remote_dir MAX_PATH_LEN }
  let conn :=
    if json_object_has_member obj "port" then
      { conn with port := to_gint (json_object_get_int_member obj "port") }
    else conn
  (decide (conn.name ≠ "") && decide (conn.hostname ≠ ""), conn)

/-- What `config_load_connections` finds at the path of the connections file. -/
inductive ConnectionsFile where
  /-- The call `g_file_test(file, G_FILE_TEST_EXISTS)` fails. -/
  | missing
  /-- The call `json_parser_load_from_file` fails. -/
  | unparsable
  /-- The root is no object, or an object without a member `connections`. -/
  | no_connections
  /-- The elements of the array member `connections`. -/
  | connections (arr : List JsonObject)

/-- The loop of `config_load_connections` (lines 146-153) over the elements not yet
visited: the array `connections` and `count` after it. -/
def load_loop (connections : List SFTPConnection) (count : Nat) :
    List JsonObject → List SFTPConnection × Nat
  | [] => (connections, count)
  | obj :: rest =>
    if count < MAX_CONNECTIONS then
      if (parse_connection_object obj).1 then
        load_loop (array_set connections count (parse_connection_object obj).2 zero_connection)
          (count + 1) rest
      else load_loop connections count rest
    else (connections, count)

/-- The function `config_load_connections` (lines 106-159): its return value and the
plugin data after it. -/
def config_load_connections (plugin_data : SFTPPluginData) :
    ConnectionsFile → Bool × SFTPPluginData
  | .missing => (true, plugin_data)
  | .unparsable => (false, plugin_data)
  | .no_connections => (true, plugin_data)
  | .connections arr =>
    let (connections, count) := load_loop plugin_data.connections 0 arr
    (true, { plugin_data with connections := connections, num_connections := count })

/-- What the user leaves in a connection dialog: the button and the entry texts; `port`
is the value `atoi` gives for the text of the port entry. -/
structure DialogInput where
  response_ok : Bool
  name : String
  hostname : String
  port : Int
  username : String
  password : String
  private_key : String
  remote_dir : String
deriving DecidableEq, Repr

/-- The assignments both dialogs make to `*conn` from the entries. -/
def store_entries (conn : SFTPConnection) (input : DialogInput) : SFTPConnection :=
  { conn with
    name := strncpy input.name (NAME_LEN - 1),
    hostname := strncpy input.hostname (MAX_HOSTNAME_LEN - 1),
    port := input.port,
    username := strncpy input.username (MAX_USERNAME_LEN - 1),
    password := strncpy input.password (MAX_PASSWORD_LEN - 1),
    private_key := strncpy input.private_key (MAX_PATH_LEN - 1),
    remote_dir := strncpy input.remote_dir (MAX_PATH_LEN - 1) }

/-- The function `show_add_connection_dialog`, from the return of `gtk_dialog_run`
(lines 665-681); saving the file and refreshing the widgets are left out. -/
def show_add_connection_dialog (plugin_data : SFTPPluginData) (input : DialogInput) :
    SFTPPluginData :=
  if input.response_ok ∧ plugin_data.num_connections < MAX_CONNECTIONS then
    let slot := plugin_data.num_connections.toNat
    let conn := plugin_data.connections.getD slot zero_connection
    let conn := store_entries conn input
    let conn := { conn with state := .CONN_DISCONNECTED }
    { plugin_data with
      connections := array_set plugin_data.connections slot conn zero_connection,
      num_connections := plugin_data.num_connections + 1 }
  else plugin_data

/-- The function `show_edit_connection_dialog` (lines 344-347 and 460-474); saving the
file and refreshing the widgets are left out. -/
def show_edit_connection_dialog (plugin_data : SFTPPluginData) (conn_index : Int)
    (input : DialogInput) : SFTPPluginData :=
  if conn_index < 0 ∨ conn_index ≥ plugin_data.num_connections then plugin_data
  else if input.response_ok then
    let conn := plugin_data.connections.getD conn_index.toNat zero_connection
    { plugin_data with
      connections :=
        array_set plugin_data.connections conn_index.toNat (store_entries conn input)
          zero_connection }
  else plugin_data

/-- The loop of `delete_connection` (lines 499-502) from index `i` on, run for at most
`fuel` rounds. -/
def shift_loop (plugin_data : SFTPPluginData) (i : Nat) : Nat → SFTPPluginData
  | 0 => plugin_data
  | fuel + 1 =>
    if (i : Int) < plugin_data.num_connections - 1 then
      shift_loop
        { plugin_data with
          connections :=
            array_set plugin_data.connections i
              (plugin_data.connections.getD (i + 1) zero_connection) zero_connection,
          sessions :=
            array_set plugin_data.sessions i (plugin_data.sessions.getD (i + 1) none) none }
        (i + 1) fuel
    else plugin_data

/-- The function `delete_connection` (lines 484-513); the loop gets `num_connections`
rounds, more than it uses.  The calls made by `sftp_connection_disconnect` on the
session that is freed, saving the file and refreshing the widgets are left out. -/
def delete_connection (plugin_data : SFTPPluginData) (conn_index : Int) : SFTPPluginData :=
  if conn_index < 0 ∨ conn_index ≥ plugin_data.num_connections then plugin_data
  else
    let plugin_data :=
      match plugin_data.sessions.getD conn_index.toNat none with
      | some _ =>
        { plugin_data with
          sessions := array_set plugin_data.sessions conn_index.toNat none none }
      | none => plugin_data
    let plugin_data :=
      shift_loop plugin_data conn_index.toNat plugin_data.num_connections.toNat
    let plugin_data :=
      { plugin_data with
        sessions :=
          array_set plugin_data.sessions (plugin_data.num_connections - 1).toNat none none }
    let plugin_data :=
      { plugin_data with num_connections := plugin_data.num_connections - 1 }
    if plugin_data.current_connection ≥ plugin_data.num_connections then
      { plugin_data with current_connection := plugin_data.num_connections - 1 }
    else plugin_data

/-- The plugin data `plugin_init` sets up before it loads the configuration
(`sftp-plugin.c`, lines 51-64). -/
def initial_plugin : SFTPPluginData :=
  { connections := [], num_connections := 0, sessions := [], current_connection := -1,
    current_remote_path := ".", show_hidden_files := false }

/-- The name in slot `i` of the array `connections`. -/
def name_at (plugin_data : SFTPPluginData) (i : Nat) : String :=
  (plugin_data.connections.getD i zero_connection).name

/-- The names of the first `num_connections` profiles. -/
def profile_names (plugin_data : SFTPPluginData) : List String :=
  (List.range plugin_data.num_connections.toNat).map (name_at plugin_data)

/-- No two of the first `num_connections` profiles have the same name. -/
def names_unique (plugin_data : SFTPPluginData) : Prop :=
  (profile_names plugin_data).Nodup

instance (plugin_data : SFTPPluginData) : Decidable (names_unique plugin_data) := by
  unfold names_unique; infer_instance

/-- The first `count` slots of the array `connections`. -/
def filled (connections : List SFTPConnection) (count : Nat) : List SFTPConnection :=
  (List.range count).map fun i => connections.getD i zero_connection

/-- The names `config_load_connections` takes from the array `connections`: those of
the first `MAX_CONNECTIONS` elements that `parse_connection_object` accepts. -/
def loaded_names (arr : List JsonObject) : List String :=
  (((arr.map parse_connection_object).filter fun r => r.1).take MAX_CONNECTIONS).map
    fun r => r.2.name

/-- One of the four operations that change the connection set. -/
inductive ProfileChange where
  | load (file : ConnectionsFile)
  | add (input : DialogInput)
  | edit (conn_index : Int) (input : DialogInput)
  | delete (conn_index : Int)

/-- The plugin data after a change. -/
def apply_change (plugin_data : SFTPPluginData) : ProfileChange → SFTPPluginData
  | .load file => (config_load_connections plugin_data file).2
  | .add input => show_add_connection_dialog plugin_data input
  | .edit conn_index input => show_edit_connection_dialog plugin_data conn_index input
  | .delete conn_index => delete_connection plugin_data conn_index

/-- The names a change brings in are new: a loaded array names no profile twice; the
name entered in the add dialog, cut to 127 characters, is not in use; the name entered
in the edit dialog, cut to 127 characters, is not in use by another profile. -/
def brings_new_names (plugin_data : SFTPPluginData) : ProfileChange → Prop
  | .load (.connections arr) => (loaded_names arr).Nodup
  | .load _ => True
  | .add input => strncpy input.name (NAME_LEN - 1) ∉ profile_names plugin_data
  | .edit conn_index input =>
    ∀ j : Nat, j < plugin_data.num_connections.toNat → (j : Int) ≠ conn_index →
      name_at plugin_data j ≠ strncpy input.name (NAME_LEN - 1)
  | .delete _ => True

instance (plugin_data : SFTPPluginData) (change : ProfileChange) :
    Decidable (brings_new_names plugin_data change) := by
  cases change with
  | load file => cases file <;> unfold brings_new_names <;> infer_instance
  | add input => unfold brings_new_names; infer_instance
  | edit conn_index input => unfold brings_new_names; infer_instance
  | delete conn_index => unfold brings_new_names; infer_instance

/-- The plugin data after a sequence of changes. -/
def apply_changes (plugin_data : SFTPPluginData) : List ProfileChange → SFTPPluginData
  | [] => plugin_data
  | change :: changes => apply_changes (apply_change plugin_data change) changes

/-- Every change of a sequence brings new names into the state it is applied to. -/
def changes_bring_new_names (plugin_data : SFTPPluginData) : List ProfileChange → Prop
  | [] => True
  | change :: changes =>
    brings_new_names plugin_data change ∧
      changes_bring_new_names (apply_change plugin_data change) changes

instance (changes : List ProfileChange) :
    ∀ plugin_data : SFTPPluginData, Decidable (changes_bring_new_names plugin_data changes) := by
  induction changes with
  | nil => intro plugin_data; unfold changes_bring_new_names; infer_instance
  | cons change changes ih =>
    intro plugin_data
    unfold changes_bring_new_names
    have := ih (apply_change plugin_data change)
    infer_instance

/-- A JSON object with the string members `name` and `hostname`. -/
def profile_object (name hostname : String) : JsonObject :=
  { member := fun key =>
      if key = "name" then some (.str name)
      else if key = "hostname" then some (.str hostname)
      else none }

/-- A connections file that lists the name `a` twice, for two hosts. -/
def duplicate_file : ConnectionsFile :=
  .connections [profile_object "a" "h1", profile_object "a" "h2"]

/-- A session of changes: a file with the profiles `a` and `b` is loaded, `c` is added,
`a` is renamed to `d`, and `b` is deleted. -/
def distinct_changes : List ProfileChange :=
  [.load (.connections [profile_object "a" "h1", profile_object "b" "h2"]),
   .add { response_ok := true, name := "c", hostname := "h3", port := 22, username := "u",
          password := "", private_key := "", remote_dir := "." },
   .edit 0 { response_ok := true, name := "d", hostname := "h1", port := 22,
             username := "u", password := "", private_key := "", remote_dir := "." },
   .delete 1]

/-- The entries of a dialog closed with OK: name `a`, host `h1`, port 22. -/
def dialog_entries : DialogInput :=
  { response_ok := true, name := "a", hostname := "h1", port := 22, username := "u",
    password := "", private_key := "", remote_dir := "." }

/-! ## Vocabulary for the termination of an upload -/

/-- Every remote write returns an error or a byte count between 0 and the number
submitted, and of any `k` calls in a row for the same number of bytes at least one does
not return 0. -/
def WritesEventuallyProgress (env : UploadEnv) (k : Nat) : Prop :=
  ∀ i n, 0 < n → env.write_rc i n ≤ n ∧ ∃ j, j < k ∧ env.write_rc (i + j) n ≠ 0

/-- An upload of `content` to a server whose every write accepts 0 bytes; the cancelled
flag is never set. -/
def stalled_upload (content : List Byte) : UploadEnv :=
  { local_file := some content, remote_open_ok := true, write_rc := fun _ _ => 0,
    cancelled := fun _ => false }

/-- An upload of `content` to a server that accepts nothing on every call with an even
number and one byte on every call with an odd number. -/
def halting_upload (content : List Byte) : UploadEnv :=
  { local_file := some content, remote_open_ok := true,
    write_rc := fun i _ => if i % 2 = 0 then 0 else 1,
    cancelled := fun _ => false }

/-! ## Vocabulary for the size of the connection set -/

/-- The bound `0 <= num_connections <= MAX_CONNECTIONS`. -/
def num_connections_in_range (plugin_data : SFTPPluginData) : Prop :=
  0 ≤ plugin_data.num_connections ∧ plugin_data.num_connections ≤ MAX_CONNECTIONS

instance (plugin_data : SFTPPluginData) : Decidable (num_connections_in_range plugin_data) := by
  unfold num_connections_in_range; infer_instance

/-- The profiles `parse_connection_object` accepts among the elements of an array, in
order. -/
def valid_profiles (arr : List JsonObject) : List SFTPConnection :=
  ((arr.map parse_connection_object).filter fun r => r.1).map fun r => r.2

/-! ## Saving a profile (`src/config.c`, lines 78-92) -/

/-- The function `connection_to_node` (lines 78-92): the object held by the node. -/
def connection_to_node (conn : SFTPConnection) : JsonObject :=
  { member := fun key =>
      if key = "name" then some (.str conn.name)
      else if key = "hostname" then some (.str conn.hostname)
      else if key = "port" then some (.int conn.port)
      else if key = "username" then some (.str conn.username)
      else if key = "password" then some (.str conn.password)
      else if key = "private_key" then some (.str conn.private_key)
      else if key = "remote_dir" then some (.str conn.remote_dir)
      else none }

/-- The values a C `SFTPConnection` can hold: every string is shorter than its buffer
and the port is a `gint`. -/
def fits_buffers (conn : SFTPConnection) : Prop :=
  conn.name.length < NAME_LEN ∧ conn.hostname.length < MAX_HOSTNAME_LEN ∧
  conn.username.length < MAX_USERNAME_LEN ∧ conn.password.length < MAX_PASSWORD_LEN ∧
  conn.private_key.length < MAX_PATH_LEN ∧ conn.remote_dir.length < MAX_PATH_LEN ∧
  -2 ^ 31 ≤ conn.port ∧ conn.port < 2 ^ 31

/-- The string member `key` of an object is missing (absent, or not a string) or is the
empty string. -/
def missing_or_empty (obj : JsonObject) (key : String) : Prop :=
  json_object_get_string_member obj key = none ∨
    json_object_get_string_member obj key = some ""

instance (conn : SFTPConnection) : Decidable (fits_buffers conn) := by
  unfold fits_buffers; infer_instance

/-! ## Entry types (`src/connection.c`, lines 172-205; `src/ui.c`, lines 846-856) -/

/-- The value of `LIBSSH2_SFTP_S_IFMT` in `libssh2_sftp.h`, the mask of the file-type
field. -/
def LIBSSH2_SFTP_S_IFMT : Nat := 0o170000

/-- The expression `(attrs.flags & LIBSSH2_SFTP_ATTR_PERMISSIONS) &&
(attrs.permissions & LIBSSH2_SFTP_S_IFDIR) ? "DIR" : "FILE"` of `sftp_list_directory`
(lines 196-197). -/
def entry_type (attrs : SftpAttributes) : String :=
  if attrs.flags &&& LIBSSH2_SFTP_ATTR_PERMISSIONS ≠ 0 ∧
      attrs.permissions &&& LIBSSH2_SFTP_S_IFDIR ≠ 0 then "DIR"
  else "FILE"

/-- The loop of `sftp_list_directory` (lines 193-200): the lines it prints, each a type
and a file name. -/
def list_lines : List ReaddirAnswer → List (String × String)
  | [] => []
  | a :: rest =>
    if 0 < a.rc then (entry_type a.attrs, a.filename) :: list_lines rest else []

/-- The function `sftp_list_directory` (lines 172-205): its return value and the lines
it prints for the entries. -/
def sftp_list_directory (session : Option SFTPSession) (env : ListEnv) :
    Bool × List (String × String) :=
  if not_connected session then (false, [])
  else if !env.opendir_ok then (false, [])
  else (true, list_lines env.readdir)

/-- An entry is a directory: its permissions attribute is present and its file-type
field equals `S_IFDIR`. -/
def is_directory (attrs : SftpAttributes) : Prop :=
  attrs.flags &&& LIBSSH2_SFTP_ATTR_PERMISSIONS ≠ 0 ∧
    attrs.permissions &&& LIBSSH2_SFTP_S_IFMT = LIBSSH2_SFTP_S_IFDIR

instance (attrs : SftpAttributes) : Decidable (is_directory attrs) := by
  unfold is_directory; infer_instance

/-- A directory that holds a block device `sda` (mode 060660), a socket `agent.sock`
(mode 140755), a symbolic link, a regular file, a sub-directory and an entry without
permissions attribute. -/
def device_directory : List ReaddirAnswer :=
  [⟨3, "sda", ⟨0x4, 0, 0o060660, 0⟩⟩,
   ⟨10, "agent.sock", ⟨0x4, 0, 0o140755, 0⟩⟩,
   ⟨4, "link", ⟨0x4, 9, 0o120777, 0⟩⟩,
   ⟨5, "a.txt", ⟨0x4, 100, 0o100644, 0⟩⟩,
   ⟨3, "sub", ⟨0x4, 4096, 0o040755, 0⟩⟩,
   ⟨4, "bare", ⟨0x0, 0, 0o040755, 0⟩⟩]

/-! ## Navigation (`src/ui.c`, lines 292-314) -/

/-- The scan behind `strrchr`: `i` is the index of the head of the list and `last` the
last match found so far. -/
def strrchr_from (c : Char) : List Char → Nat → Option Nat → Option Nat
  | [], _, last => last
  | x :: xs, i, last => strrchr_from c xs (i + 1) (if x = c then some i else last)

/-- The function `strrchr(s, c)` for a `c` other than the terminator: the index of the
last occurrence of `c` in `s`, `none` for NULL. -/
def strrchr (s : String) (c : Char) : Option Nat :=
  strrchr_from c s.toList 0 none

/-- The function `navigate_to_directory` (lines 292-314): the plugin data after it.  The
call of `ui_update_file_list` at its end changes the list store only. -/
def navigate_to_directory (plugin_data : SFTPPluginData) (dirname : String) :
    SFTPPluginData :=
  if dirname = ".." then
    match strrchr plugin_data.current_remote_path '/' with
    | some last_slash =>
      if last_slash ≠ 0 then
        { plugin_data with
          current_remote_path :=
            String.mk (plugin_data.current_remote_path.toList.take last_slash) }
      else { plugin_data with current_remote_path := "/" }
    | none => { plugin_data with current_remote_path := "/" }
  else if dirname ≠ "." then
    let new_path :=
      if plugin_data.current_remote_path = "/" then g_strlcpy ("/" ++ dirname) MAX_PATH_LEN
      else g_strlcpy (plugin_data.current_remote_path ++ "/" ++ dirname) MAX_PATH_LEN
    { plugin_data with current_remote_path := g_strlcpy new_path MAX_PATH_LEN }
  else plugin_data

/-- The path is "/" or is absolute and has no trailing slash. -/
def rooted_path (p : String) : Prop :=
  p = "/" ∨ (p.toList.head? = some '/' ∧ p.toList.getLast? ≠ some '/')

instance (p : String) : Decidable (rooted_path p) := by
  unfold rooted_path; infer_instance

/-- A directory name that can be entered: non-empty, without '/', neither "." nor "..". -/
def plain_name (d : String) : Prop :=
  d ≠ "" ∧ '/' ∉ d.toList ∧ d ≠ "." ∧ d ≠ ".."

instance (d : String) : Decidable (plain_name d) := by
  unfold plain_name; infer_instance

/-! ## Sessions and their profiles (`src/ui.c`, lines 120-208) -/

/-- The assignment `config->state = st` through a pointer to slot `i` of the array
`connections`. -/
def set_profile_state (connections : List SFTPConnection) (i : Nat) (st : ConnectionState) :
    List SFTPConnection :=
  array_set connections i { connections.getD i zero_connection with state := st }
    zero_connection

/-- The function `on_connection_changed` (lines 120-138); `active` is the row the combo
box reports. -/
def on_connection_changed (plugin_data : SFTPPluginData) (active : Int) : SFTPPluginData :=
  if active ≥ 0 ∧ active < plugin_data.num_connections then
    { plugin_data with current_connection := active }
  else plugin_data

/-- What `on_connect_clicked` gets from outside the plugin: the answers to the connection
attempt, the directory `g_get_tmp_dir` returns and the value of `time(NULL)`. -/
structure ClickEnv where
  connect : ConnectEnv
  tmp_dir : String
  now : Int
deriving DecidableEq, Repr

/-- The function `on_connect_clicked` (lines 144-208): the plugin data after it, `none`
when the connection attempt does not return.  The widgets are left out, and so is the
listing that follows a successful connect. -/
def on_connect_clicked (plugin_data : SFTPPluginData) (env : ClickEnv) :
    Option SFTPPluginData :=
  if plugin_data.current_connection < 0 then some plugin_data
  else
    let slot := plugin_data.current_connection.toNat
    let conn := plugin_data.connections.getD slot zero_connection
    match plugin_data.sessions.getD slot none with
    | some { active := true, config := config, config_index := config_index, .. } =>
      let connections :=
        match config with
        | some _ => set_profile_state plugin_data.connections config_index .CONN_DISCONNECTED
        | none => plugin_data.connections
      some { plugin_data with
        connections := connections,
        sessions := array_set plugin_data.sessions slot none none,
        current_remote_path := "/" }
    | _ =>
      let session : SFTPSession := { fresh_session (some conn) with config_index := slot }
      match sftp_connection_connect session env.connect with
      | none => none
      | some r =>
        let state :=
          match r.session.config with
          | some c => c.state
          | none => conn.state
        let connections := set_profile_state plugin_data.connections slot state
        if r.ret then
          let session : SFTPSession :=
            { r.session with
              temp_dir :=
                g_strlcpy
                  (env.tmp_dir ++ "/geany_sftp_" ++ conn.name ++ "_" ++ toString (to_gint env.now))
                  MAX_PATH_LEN }
          some { plugin_data with
            connections := connections,
            sessions := array_set plugin_data.sessions slot (some session) none,
            current_remote_path := conn.remote_dir }
        else some { plugin_data with connections := connections }

/-- The session in slot `j`, if there is one, has its `config` pointer on slot `j` of
`connections`. -/
def session_bound_at (plugin_data : SFTPPluginData) (j : Nat) : Bool :=
  match plugin_data.sessions.getD j none with
  | some s => s.config_index == j
  | none => true

/-- Every session in the first `n` slots has its `config` pointer on its own slot. -/
def sessions_bound (plugin_data : SFTPPluginData) (n : Nat) : Prop :=
  ∀ j, j < n → session_bound_at plugin_data j = true

instance (plugin_data : SFTPPluginData) (n : Nat) : Decidable (sessions_bound plugin_data n) := by
  unfold sessions_bound; infer_instance

/-- The profile a session reaches through its `config` pointer. -/
def profile_of (plugin_data : SFTPPluginData) (s : SFTPSession) : SFTPConnection :=
  plugin_data.connections.getD s.config_index zero_connection

/-- A connections file with the profiles `a`, `b` and `c`. -/
def three_profiles_file : ConnectionsFile :=
  .connections [profile_object "a" "h1", profile_object "b" "h2", profile_object "c" "h3"]

/-- The answers to a click on the connect button: every step of the attempt succeeds. -/
def click_env : ClickEnv :=
  { connect := reachable_env, tmp_dir := "/tmp", now := 1700000000 }

/-- The plugin after the three profiles are loaded, `b` is selected and connected. -/
def plugin_connected_to_b : Option SFTPPluginData :=
  on_connect_clicked
    (on_connection_changed (config_load_connections initial_plugin three_profiles_file).2 1)
    click_env

/-- The plugin data of `plugin_connected_to_b`. -/
def connected_to_b : SFTPPluginData :=
  plugin_connected_to_b.getD initial_plugin

/-! ## Downloaded files and auto-upload (`src/ui.c`, lines 53-70 and 358-393;
`src/sftp-plugin.c`, lines 92-119) -/

/-- The function `g_hash_table_lookup` on a table with string keys: `none` is NULL. -/
def g_hash_table_lookup (table : List (String × String)) (key : String) : Option String :=
  match table with
  | [] => none
  | (k, v) :: rest => if k = key then some v else g_hash_table_lookup rest key

/-- The function `g_hash_table_insert` on a table with string keys: an entry with the
same key is replaced. -/
def g_hash_table_insert (table : List (String × String)) (key value : String) :
    List (String × String) :=
  (key, value) :: table.filter fun e => decide (e.1 ≠ key)

/-- The struct `DownloadOpenCtx` without the plugin data pointer. -/
structure DownloadOpenCtx where
  local_path : String
  remote_path : String
  filename : String
deriving DecidableEq, Repr

/-- The function pointer `on_download_open_complete`, as the number that stands for it in
a task. -/
def ON_DOWNLOAD_OPEN_COMPLETE : Nat := 1

/-- The function `download_and_open_file` (lines 358-393): the task it starts and the
context it hands to the completion callback (the task's `user_data` is left 0); `none`
when it returns at the guard.  The `g_snprintf` calls into `MAX_PATH_LEN` buffers are
`g_strlcpy` of the formatted text. -/
def download_and_open_file (plugin_data : SFTPPluginData) (filename : String) :
    Option (AsyncOperation × DownloadOpenCtx) :=
  match current_session plugin_data with
  | none => none
  | some session =>
    let remote_path :=
      if plugin_data.current_remote_path = "/" then g_strlcpy ("/" ++ filename) MAX_PATH_LEN
      else g_strlcpy (plugin_data.current_remote_path ++ "/" ++ filename) MAX_PATH_LEN
    let local_path := g_strlcpy (session.temp_dir ++ "/" ++ filename) MAX_PATH_LEN
    let ctx : DownloadOpenCtx :=
      { local_path := g_strlcpy local_path MAX_PATH_LEN,
        remote_path := g_strlcpy remote_path MAX_PATH_LEN,
        filename := g_strlcpy filename MAX_PATH_LEN }
    some (transfer_async session local_path remote_path false
      (some ON_DOWNLOAD_OPEN_COMPLETE) 0, ctx)

/-- The function `on_download_open_complete` (lines 53-70): the plugin data after it.
Opening the document, the message box and the widgets are left out. -/
def on_download_open_complete (plugin_data : SFTPPluginData) (ctx : DownloadOpenCtx)
    (success : Bool) : SFTPPluginData :=
  if success then
    { plugin_data with
      downloaded_files :=
        g_hash_table_insert plugin_data.downloaded_files ctx.local_path ctx.remote_path }
  else plugin_data

/-- The function `on_document_save` (lines 92-119): the task it starts with
`transfer_async`, `none` when it returns without starting one.  `file_name` is
`doc->file_name`, `none` when `doc` or the name is NULL. -/
def on_document_save (pdata : SFTPPluginData) (file_name : Option String) :
    Option AsyncOperation :=
  if !pdata.auto_upload then none
  else
    match file_name with
    | none => none
    | some file_name =>
      if pdata.current_connection < 0 then none
      else
        match pdata.sessions.getD pdata.current_connection.toNat none with
        | none => none
        | some session =>
          if !session.active then none
          else
            match g_hash_table_lookup pdata.downloaded_files file_name with
            | none => none
            | some remote_path =>
              some (transfer_async session file_name remote_path true none 0)

/-- A connections file with the profiles `a` and `b`. -/
def two_profiles_file : ConnectionsFile :=
  .connections [profile_object "a" "h1", profile_object "b" "h2"]

/-- The answers to a second click on the connect button, for another server: other
socket and handles. -/
def second_click_env : ClickEnv :=
  { connect := { reachable_env with socket_ret := 6, ssh_init := some 3, sftp_init := some 4 },
    tmp_dir := "/tmp", now := 1700000100 }

/-- The plugin with auto-upload on after the profiles `a` and `b` are loaded and both
are connected, `a` being selected again at the end. -/
def plugin_with_two_sessions : Option SFTPPluginData :=
  (on_connect_clicked
    (on_connection_changed
      { (config_load_connections initial_plugin two_profiles_file).2 with auto_upload := true }
      0) click_env).bind fun plugin_data =>
  (on_connect_clicked (on_connection_changed plugin_data 1) second_click_env).map
    fun plugin_data => on_connection_changed plugin_data 0

/-- The plugin data of `plugin_with_two_sessions`. -/
def two_sessions : SFTPPluginData :=
  plugin_with_two_sessions.getD initial_plugin

/-- The download of `notes.txt` started on connection `a`. -/
def notes_download : Option (AsyncOperation × DownloadOpenCtx) :=
  download_and_open_file two_sessions "notes.txt"

/-- The plugin data after the download of `notes.txt` from `a` has succeeded and the
user has selected connection `b`. -/
def after_download_on_b : SFTPPluginData :=
  match notes_download with
  | some (_, ctx) => on_connection_changed (on_download_open_complete two_sessions ctx true) 1
  | none => two_sessions

/-! ## The SFTP handle on the main thread (`src/ui.c`, lines 217-230, 500-580 and
787-875) -/

/-- A call into the SFTP handle of the session made by a function that runs on the main
thread.  None of these functions calls `g_mutex_lock`: the only lock and unlock calls of
the sources are those of `transfer_thread_func`. -/
inductive SftpCall where
  /-- The call `libssh2_sftp_opendir`. -/
  | opendir
  /-- The call `libssh2_sftp_readdir`. -/
  | readdir
  /-- The call `libssh2_sftp_closedir`. -/
  | closedir
  /-- The call `libssh2_sftp_rmdir`. -/
  | rmdir
  /-- The call `libssh2_sftp_unlink`. -/
  | unlink
  /-- The call `libssh2_sftp_mkdir`. -/
  | mkdir
deriving DecidableEq, Repr

/-- The `libssh2_sftp_readdir` calls of the loop of `ui_update_file_list` (line 821): one
for each answer up to and including the first that is not positive. -/
def readdir_calls : List ReaddirAnswer → List SftpCall
  | [] => [.readdir]
  | a :: rest => if 0 < a.rc then .readdir :: readdir_calls rest else [.readdir]

/-- The calls `ui_update_file_list` (lines 787-875) makes into the SFTP handle. -/
def ui_update_file_list_calls (plugin_data : SFTPPluginData) (env : ListEnv) :
    List SftpCall :=
  match current_session plugin_data with
  | none => []
  | some _ =>
    if !env.opendir_ok then [.opendir]
    else [.opendir] ++ readdir_calls env.readdir ++ [.closedir]

/-- The calls `on_refresh_clicked` (lines 217-230) makes into the SFTP handle. -/
def on_refresh_clicked_calls (plugin_data : SFTPPluginData) (env : ListEnv) :
    List SftpCall :=
  match current_session plugin_data with
  | none => []
  | some _ => ui_update_file_list_calls plugin_data env

/-- The calls `on_menu_mkdir` (lines 544-580) makes into the SFTP handle, from the point
where the name dialog has returned the non-empty name; `mkdir_rc` is the result of
`libssh2_sftp_mkdir`. -/
def on_menu_mkdir_calls (plugin_data : SFTPPluginData) (mkdir_rc : Int) (env : ListEnv) :
    List SftpCall :=
  if mkdir_rc = 0 then [.mkdir] ++ ui_update_file_list_calls plugin_data env else [.mkdir]

/-- The calls `on_menu_delete` (lines 500-542) makes into the SFTP handle, from the point
where the question dialog has been confirmed; `type` is the type column of the selected
row and `rc` the result of the removal. -/
def on_menu_delete_calls (plugin_data : SFTPPluginData) (type : String) (rc : Int)
    (env : ListEnv) : List SftpCall :=
  let call := if type = "DIR" then SftpCall.rmdir else SftpCall.unlink
  if rc = 0 then [call] ++ ui_update_file_list_calls plugin_data env else [call]

/-- The worker threads of a session together with the main thread: the calls into the
SFTP handle the main thread still has to make, and whether it is inside the first of
them. -/
structure SharedState where
  pool : PoolState
  main_calls : List SftpCall
  main_inside : Bool
deriving DecidableEq, Repr

/-- The thread the scheduler runs next: a worker (with the value its transfer returns if
it returns at this step) or the main thread. -/
inductive Turn where
  | worker (i : Nat) (transfer_ret : Bool)
  | main
deriving DecidableEq, Repr

/-- One step of the main thread: it enters its next call into the SFTP handle, or
returns from the call it is in.  It never looks at the lock. -/
def main_step (st : SharedState) : SharedState :=
  match st.main_calls with
  | [] => st
  | _ :: rest =>
    if st.main_inside then { st with main_calls := rest, main_inside := false }
    else { st with main_inside := true }

/-- One step of the thread whose turn it is. -/
def shared_step (st : SharedState) : Turn → SharedState
  | .worker i transfer_ret => { st with pool := worker_step st.pool i transfer_ret }
  | .main => main_step st

/-- The state after a schedule. -/
def run_shared (st : SharedState) : List Turn → SharedState
  | [] => st
  | turn :: schedule => run_shared (shared_step st turn) schedule

/-- The auto-upload that saving `notes.txt` starts on the connected session, and the
refresh of the file list the user asks for while it runs. -/
def upload_and_refresh : SharedState :=
  { pool := start_pool [transfer_async connected_session "/tmp/notes.txt" "/notes.txt" true
      none 0],
    main_calls := on_refresh_clicked_calls one_session_plugin scenario_listing,
    main_inside := false }

/-! ## SSH config hosts (`src/config.c`, lines 276-348) -/

/-- The struct `SSHConfigHost`. -/
structure SSHConfigHost where
  name : String
  hostname : String
  port : Int
  username : String
  identity_file : String
deriving DecidableEq, Repr

/-- A zero-initialised `SSHConfigHost` (`memset`). -/
def zero_host : SSHConfigHost :=
  { name := "", hostname := "", port := 0, username := "", identity_file := "" }

/-- The function `g_ascii_isspace`: space, tab, line feed, form feed, carriage return. -/
def g_ascii_isspace (c : Char) : Bool :=
  c = ' ' || c = '\t' || c = '\n' || c = '\x0c' || c = '\r'

/-- The function `g_strstrip`: leading and trailing white space removed. -/
def g_strstrip (s : List Char) : List Char :=
  ((s.dropWhile g_ascii_isspace).reverse.dropWhile g_ascii_isspace).reverse

/-- The part of `g_strsplit(contents, "\n", -1)` that cuts at every line feed. -/
def split_at_newlines : List Char → List (List Char)
  | [] => [[]]
  | c :: cs =>
    if c = '\n' then [] :: split_at_newlines cs
    else
      match split_at_newlines cs with
      | [] => [[c]]
      | line :: lines => (c :: line) :: lines

/-- The function `g_strsplit(contents, "\n", -1)`: the empty string gives no line at
all. -/
def g_strsplit_lines (contents : String) : List (List Char) :=
  if contents.toList = [] then [] else split_at_newlines contents.toList

/-- The test `g_ascii_strncasecmp(line, keyword, n) == 0` where `n` is the length of
`keyword`: the line has at least `n` characters and its first `n` are those of the
keyword up to the case of ASCII letters. -/
def has_keyword (line : List Char) (keyword : String) : Bool :=
  (line.take keyword.length).map Char.toLower == keyword.toList.map Char.toLower

/-- The digits read by `atoi`, added to the value read so far. -/
def atoi_digits : List Char → Int → Int
  | [], acc => acc
  | c :: cs, acc =>
    if '0' ≤ c ∧ c ≤ '9' then atoi_digits cs (acc * 10 + (c.toNat - 48 : Nat)) else acc

/-- The function `isspace` in the C locale: the characters of `g_ascii_isspace` and the
vertical tab. -/
def isspace (c : Char) : Bool :=
  g_ascii_isspace c || c = '\x0b'

/-- The function `atoi`, as `(int) strtol(s, NULL, 10)` for values a `long` can hold. -/
def atoi (s : List Char) : Int :=
  match s.dropWhile isspace with
  | '-' :: rest => to_gint (- atoi_digits rest 0)
  | '+' :: rest => to_gint (atoi_digits rest 0)
  | rest => to_gint (atoi_digits rest 0)

/-- The local variables `hosts` (the caller's array), `count` and `current` of
`config_load_ssh_hosts`; `current` is the index of the entry the pointer addresses,
`none` for NULL. -/
structure HostsState where
  hosts : List SSHConfigHost
  count : Nat
  current : Option Nat
deriving DecidableEq, Repr

/-- The entry `*current` replaced by `host`. -/
def set_current (st : HostsState) (cur : Nat) (host : SSHConfigHost) : HostsState :=
  { st with hosts := array_set st.hosts cur host zero_host }

/-- The body of the loop of `config_load_ssh_hosts` (lines 305-339) for the line `raw`;
`expand_home` is `g_build_filename(g_get_home_dir(), path + 1, NULL)` as a function of
`path + 1`. -/
def ssh_config_line (expand_home : List Char → List Char) (st : HostsState)
    (raw : List Char) : HostsState :=
  let line := g_strstrip raw
  if line.head? = some '#' ∨ line = [] then st
  else if has_keyword line "Host " then
    let host_value := g_strstrip (line.drop 5)
    if '*' ∉ host_value ∧ '?' ∉ host_value then
      let entry : SSHConfigHost :=
        { zero_host with name := g_strlcpy (String.mk host_value) NAME_LEN, port := 22 }
      { hosts := array_set st.hosts st.count entry zero_host, count := st.count + 1,
        current := some st.count }
    else { st with current := none }
  else
    match st.current with
    | none => st
    | some cur =>
      let host := st.hosts.getD cur zero_host
      if has_keyword line "HostName " then
        set_current st cur
          { host with
            hostname := g_strlcpy (String.mk (g_strstrip (line.drop 9))) MAX_HOSTNAME_LEN }
      else if has_keyword line "Hostname " then
        set_current st cur
          { host with
            hostname := g_strlcpy (String.mk (g_strstrip (line.drop 9))) MAX_HOSTNAME_LEN }
      else if has_keyword line "Port " then
        set_current st cur { host with port := atoi (g_strstrip (line.drop 5)) }
      else if has_keyword line "User " then
        set_current st cur
          { host with
            username := g_strlcpy (String.mk (g_strstrip (line.drop 5))) MAX_USERNAME_LEN }
      else if has_keyword line "IdentityFile " then
        let path := g_strstrip (line.drop 13)
        if path.head? = some '~' then
          set_current st cur
            { host with
              identity_file :=
                g_strlcpy (String.mk (expand_home (path.drop 1))) MAX_PATH_LEN }
        else
          set_current st cur
            { host with identity_file := g_strlcpy (String.mk path) MAX_PATH_LEN }
      else st

/-- The loop `for (i = 0; lines[i] != NULL && count < max_hosts; i++)` (line 305) over
the lines not yet visited. -/
def ssh_hosts_loop (expand_home : List Char → List Char) (max_hosts : Int) :
    List (List Char) → HostsState → HostsState
  | [], st => st
  | raw :: rest, st =>
    if (st.count : Int) < max_hosts then
      ssh_hosts_loop expand_home max_hosts rest (ssh_config_line expand_home st raw)
    else st

/-- What `config_load_ssh_hosts` finds at `~/.ssh/config`. -/
inductive SshConfigFile where
  /-- The call `g_file_test(ssh_config_path, G_FILE_TEST_EXISTS)` fails. -/
  | missing
  /-- The call `g_file_get_contents` fails. -/
  | unreadable
  /-- The text of the file, up to its first zero byte. -/
  | contents (text : String)

/-- The function `config_load_ssh_hosts` (lines 276-348): its return value and the
caller's array after it. -/
def config_load_ssh_hosts (hosts : List SSHConfigHost) (max_hosts : Int)
    (file : SshConfigFile) (expand_home : List Char → List Char) :
    Int × List SSHConfigHost :=
  match file with
  | .missing => (0, hosts)
  | .unreadable => (0, hosts)
  | .contents text =>
    let st := ssh_hosts_loop expand_home max_hosts (g_strsplit_lines text) ⟨hosts, 0, none⟩
    (st.count, st.hosts)

/-- The value of a line that starts a host entry: the line is no comment, starts with
the keyword `Host` and a space in any case of letters, and its value has neither '*' nor
'?'. -/
def host_line_value (raw : List Char) : Option (List Char) :=
  let line := g_strstrip raw
  if line.head? = some '#' ∨ line = [] then none
  else if has_keyword line "Host " then
    if '*' ∉ g_strstrip (line.drop 5) ∧ '?' ∉ g_strstrip (line.drop 5) then
      some (g_strstrip (line.drop 5))
    else none
  else none

/-- The values of the lines of a file that start a host entry, in order. -/
def host_values (text : String) : List (List Char) :=
  (g_strsplit_lines text).filterMap host_line_value

/-- The home directory expansion used in the examples: `/home/u` before the rest. -/
def example_home (rest : List Char) : List Char :=
  "/home/u".toList ++ rest

/-- An SSH config with one host entry and three settings for it. -/
def one_host_config : SshConfigFile :=
  .contents "# servers\n\nHOST web\n  HostName web.example.org\n  Port 2222\n  User deploy\n"

/-- An SSH config with a host whose name has 128 characters. -/
def long_host_config : SshConfigFile :=
  .contents (String.mk ("Host ".toList ++ List.replicate 128 'a'))

/-- The pointer `current`, when set, addresses an entry below `count`. -/
def current_below_count (st : HostsState) : Prop :=
  ∀ c, st.current = some c → c < st.count

/-- The entry a host line with the value `v` creates. -/
def new_host (v : List Char) : SSHConfigHost :=
  { zero_host with name := g_strlcpy (String.mk v) NAME_LEN, port := 22 }

/-- The text of an SSH config whose three host lines spell the keyword in different
cases, between a comment, a blank line and a wildcard entry. -/
def mixed_case_text : String :=
  "# hosts\nHOST a\n\nhost b\nHost *\n  User nobody\nhOsT c\n"

/-! ## Lemmas on the connection endpoint -/

theorem sockets_opened_append (a b : List ConnEvent) :
    sockets_opened (a ++ b) = sockets_opened a ++ sockets_opened b := by
  induction a with
  | nil => rfl
  | cons e a ih => cases e <;> simp [sockets_opened, ih]

theorem sockets_closed_append (a b : List ConnEvent) :
    sockets_closed (a ++ b) = sockets_closed a ++ sockets_closed b := by
  induction a with
  | nil => rfl
  | cons e a ih => cases e <;> simp [sockets_closed, ih]

theorem ssh_created_append (a b : List ConnEvent) :
    ssh_created (a ++ b) = ssh_created a ++ ssh_created b := by
  induction a with
  | nil => rfl
  | cons e a ih => cases e <;> simp [ssh_created, ih]

theorem ssh_freed_append (a b : List ConnEvent) :
    ssh_freed (a ++ b) = ssh_freed a ++ ssh_freed b := by
  induction a with
  | nil => rfl
  | cons e a ih => cases e <;> simp [ssh_freed, ih]

/-- The handshake loop returns as soon as the script holds an answer other than EAGAIN. -/
theorem handshake_loop_returns (l : List Int) (h : ∃ rc ∈ l, rc ≠ LIBSSH2_ERROR_EAGAIN) :
    ∃ rc waits, handshake_loop l = some (rc, waits) := by
  induction l with
  | nil => simp at h
  | cons a l ih =>
    by_cases ha : a = LIBSSH2_ERROR_EAGAIN
    · have h' : ∃ rc ∈ l, rc ≠ LIBSSH2_ERROR_EAGAIN := by
        obtain ⟨rc, hmem, hne⟩ := h
        rcases List.mem_cons.mp hmem with heq | hin
        · exact absurd (heq ▸ ha) hne
        · exact ⟨rc, hin, hne⟩
      obtain ⟨rc, waits, hl⟩ := ih h'
      exact ⟨rc, .select_wait :: waits, by simp [handshake_loop, ha, hl]⟩
    · exact ⟨a, [], by simp [handshake_loop, ha]⟩

/-- The handshake loop acquires and releases nothing: it only waits. -/
theorem handshake_loop_waits (l : List Int) (rc : Int) (waits : List ConnEvent)
    (h : handshake_loop l = some (rc, waits)) :
    sockets_opened waits = [] ∧ sockets_closed waits = [] ∧
    ssh_created waits = [] ∧ ssh_freed waits = [] := by
  induction l generalizing waits with
  | nil => simp [handshake_loop] at h
  | cons a l ih =>
    by_cases ha : a = LIBSSH2_ERROR_EAGAIN
    · simp only [handshake_loop, ha, if_true] at h
      cases hl : handshake_loop l with
      | none => simp [hl] at h
      | some p =>
        obtain ⟨rc', w'⟩ := p
        simp only [hl, Option.some.injEq, Prod.mk.injEq] at h
        obtain ⟨rfl, rfl⟩ := h
        have := ih w' hl
        simpa [sockets_opened, sockets_closed, ssh_created, ssh_freed] using this
    · simp only [handshake_loop, ha, if_false, Option.some.injEq, Prod.mk.injEq] at h
      obtain ⟨-, rfl⟩ := h
      simp [sockets_opened, sockets_closed, ssh_created, ssh_freed]

/-- A connection attempt either stores both handles and sets the active flag, or leaves
the three fields as they were. -/
theorem connect_handles (s : SFTPSession) (env : ConnectEnv) (r : ConnectResult)
    (h : sftp_connection_connect s env = some r) :
    (r.session.active = true ∧ r.session.ssh_session.isSome = true ∧
      r.session.sftp_session.isSome = true) ∨
    (r.session.active = s.active ∧ r.session.ssh_session = s.ssh_session ∧
      r.session.sftp_session = s.sftp_session) := by
  unfold sftp_connection_connect at h
  cases hc : s.config with
  | none => simp only [hc, Option.some.injEq] at h; subst h; exact Or.inr ⟨rfl, rfl, rfl⟩
  | some c =>
    simp only [hc] at h
    by_cases h1 : env.socket_ret < 0
    · simp only [h1, if_true, Option.some.injEq] at h; subst h; exact Or.inr ⟨rfl, rfl, rfl⟩
    simp only [h1, if_false] at h
    by_cases h2 : env.host_found = true
    swap
    · have h2' : env.host_found = false := by simpa using h2
      simp only [h2', Bool.not_false, if_true, Option.some.injEq] at h
      subst h; exact Or.inr ⟨rfl, rfl, rfl⟩
    simp only [h2, Bool.not_true, Bool.false_eq_true, if_false] at h
    by_cases h3 : env.connect_ret < 0
    · simp only [h3, if_true, Option.some.injEq] at h; subst h; exact Or.inr ⟨rfl, rfl, rfl⟩
    simp only [h3, if_false] at h
    cases h4 : env.ssh_init with
    | none => simp only [h4, Option.some.injEq] at h; subst h; exact Or.inr ⟨rfl, rfl, rfl⟩
    | some ssh =>
      simp only [h4] at h
      cases hl : handshake_loop env.handshake with
      | none => simp [hl] at h
      | some p =>
        obtain ⟨rc, waits⟩ := p
        simp only [hl] at h
        by_cases h5 : rc = 0
        swap
        · simp only [ne_eq, h5, not_false_eq_true, if_true, Option.some.injEq] at h
          subst h; exact Or.inr ⟨rfl, rfl, rfl⟩
        subst h5
        simp only [ne_eq, not_true_eq_false, if_false] at h
        cases ha : authenticate c env with
        | mk arc aev =>
          simp only [ha] at h
          by_cases h6 : arc = 0
          swap
          · simp only [ne_eq, h6, not_false_eq_true, if_true, Option.some.injEq] at h
            subst h; exact Or.inr ⟨rfl, rfl, rfl⟩
          subst h6
          simp only [ne_eq, not_true_eq_false, if_false] at h
          cases h7 : env.sftp_init with
          | none =>
            simp only [h7, Option.some.injEq] at h; subst h; exact Or.inr ⟨rfl, rfl, rfl⟩
          | some sftp =>
            simp only [h7, Option.some.injEq] at h; subst h; exact Or.inl ⟨rfl, rfl, rfl⟩

/-- After a disconnect the session is inactive and holds no handle. -/
theorem disconnect_clears (s : SFTPSession) :
    ∃ s', (sftp_connection_disconnect (some s)).session = some s' ∧
      s'.active = false ∧ s'.ssh_session = none ∧ s'.sftp_session = none := by
  obtain ⟨config, ssh, sftp, sock, active⟩ := s
  by_cases hsock : 0 < sock <;> cases config <;> cases ssh <;> cases sftp <;>
    simp [sftp_connection_disconnect, hsock]

/-- The part of the Session invariant that the code does maintain: starting from a
state in which both handles are non-null exactly when the session is active, every
sequence of connect and disconnect calls ends in such a state. -/
theorem run_calls_handles (calls : List ConnCall) :
    ∀ (s s' : SFTPSession),
      s.sftp_session.isSome = s.active → s.ssh_session.isSome = s.active →
      run_calls calls s = some s' →
      s'.sftp_session.isSome = s'.active ∧ s'.ssh_session.isSome = s'.active := by
  induction calls with
  | nil =>
    intro s s' h1 h2 h
    simp only [run_calls, Option.some.injEq] at h
    subst h
    exact ⟨h1, h2⟩
  | cons c calls ih =>
    intro s s' h1 h2 h
    cases c with
    | connect env =>
      simp only [run_calls] at h
      cases hr : sftp_connection_connect s env with
      | none => simp [hr] at h
      | some r =>
        simp only [hr] at h
        rcases connect_handles s env r hr with ⟨a, b, c⟩ | ⟨a, b, c⟩
        · exact ih _ _ (by rw [c, a]) (by rw [b, a]) h
        · exact ih _ _ (by rw [c, a]; exact h1) (by rw [b, a]; exact h2) h
    | disconnect =>
      simp only [run_calls] at h
      obtain ⟨s1, hs1, a, b, c⟩ := disconnect_clears s
      simp only [hs1] at h
      exact ih _ _ (by rw [c, a]; rfl) (by rw [b, a]; rfl) h

/-! ## Lemmas on the transfer engine -/

theorem remote_written_append (a b : List XferEvent) :
    remote_written (a ++ b) = remote_written a ++ remote_written b := by
  induction a with
  | nil => rfl
  | cons e a ih => cases e <;> simp [remote_written, ih]

theorem local_written_append (a b : List XferEvent) :
    local_written (a ++ b) = local_written a ++ local_written b := by
  induction a with
  | nil => rfl
  | cons e a ih => cases e <;> simp [local_written, ih]

theorem check_values_append (a b : List XferEvent) :
    check_values (a ++ b) = check_values a ++ check_values b := by
  induction a with
  | nil => rfl
  | cons e a ih => cases e <;> simp [check_values, ih]

/-- Unfolding of one iteration of the inner write loop. -/
theorem upload_chunk_succ (env : UploadEnv) (buf : List Byte) (fuel written : Nat)
    (st : XferState) :
    upload_chunk env buf (fuel + 1) written st =
      if written < buf.length then
        if (check_cancelled env.cancelled st).1 = true then
          some (.returned (abort (check_cancelled env.cancelled st).2))
        else
          if env.write_rc (check_cancelled env.cancelled st).2.calls (buf.length - written) < 0
          then
            some (.returned (abort (log_remote_write (check_cancelled env.cancelled st).2
              (buf.drop written)
              (env.write_rc (check_cancelled env.cancelled st).2.calls
                (buf.length - written)))))
          else
            upload_chunk env buf fuel
              (written + (env.write_rc (check_cancelled env.cancelled st).2.calls
                (buf.length - written)).toNat)
              (progress (log_remote_write (check_cancelled env.cancelled st).2
                (buf.drop written)
                (env.write_rc (check_cancelled env.cancelled st).2.calls
                  (buf.length - written)))
                (env.write_rc (check_cancelled env.cancelled st).2.calls
                  (buf.length - written)).toNat)
      else some (.done st) := by
  rfl

/-- Reading the flag does not touch the remote file. -/
theorem check_cancelled_remote_written (cancelled : Nat → Bool) (st : XferState) :
    remote_written (check_cancelled cancelled st).2.events = remote_written st.events := by
  unfold check_cancelled
  cases st.op <;> simp [remote_written_append, remote_written]

/-- What the remote file gains while one buffer is written out completely. -/
theorem upload_chunk_done_written (env : UploadEnv) (buf : List Byte)
    (hb : ∀ i n, 0 < n → env.write_rc i n ≤ n) :
    ∀ (fuel written : Nat) (st st' : XferState), written ≤ buf.length →
      upload_chunk env buf fuel written st = some (.done st') →
      remote_written st'.events = remote_written st.events ++ buf.drop written := by
  intro fuel
  induction fuel with
  | zero => intro written st st' _ h; simp [upload_chunk] at h
  | succ fuel ih =>
    intro written st st' hw h
    rw [upload_chunk_succ] at h
    by_cases hlt : written < buf.length
    · simp only [hlt, if_true] at h
      by_cases hflag : (check_cancelled env.cancelled st).1 = true
      · simp [hflag] at h
      simp only [hflag, Bool.false_eq_true, if_false] at h
      generalize hrc : env.write_rc (check_cancelled env.cancelled st).2.calls
        (buf.length - written) = rc at h
      by_cases hneg : rc < 0
      · simp [hneg] at h
      simp only [hneg, if_false] at h
      have hle : rc ≤ ((buf.length - written : Nat) : Int) := by
        rw [← hrc]; exact hb _ _ (by omega)
      have hle' : written + rc.toNat ≤ buf.length := by omega
      have := ih _ _ _ hle' h
      rw [this]
      simp only [progress, log_remote_write, remote_written_append,
        check_cancelled_remote_written, remote_written, List.append_nil, List.append_assoc]
      congr 1
      rw [← List.drop_drop]
      exact List.take_append_drop _ _
    · simp only [hlt, if_false, Option.some.injEq, LoopExit.done.injEq] at h
      subst h
      have : buf.drop written = [] := List.drop_eq_nil_of_le (by omega)
      simp [this]

theorem remote_writes_append (a b : List XferEvent) :
    remote_writes (a ++ b) = remote_writes a ++ remote_writes b := by
  induction a with
  | nil => rfl
  | cons e a ih => cases e <;> simp [remote_writes, ih]

/-- Unfolding of one iteration of the outer read loop. -/
theorem upload_loop_succ (env : UploadEnv) (fuel : Nat) (rest : List Byte) (st : XferState) :
    upload_loop env (fuel + 1) rest st =
      if 0 < (rest.take BUF_SIZE).length then
        match upload_chunk env (rest.take BUF_SIZE) fuel 0 st with
        | none => none
        | some (.returned r) => some r
        | some (.done st') => upload_loop env fuel (rest.drop BUF_SIZE) st'
      else some ⟨true, st.op, st.events ++ [.remote_close, .local_close]⟩ := by
  rfl

/-- A return from inside the write loop is a failure. -/
theorem upload_chunk_returned_ret (env : UploadEnv) (buf : List Byte) :
    ∀ (fuel written : Nat) (st : XferState) (r : XferResult),
      upload_chunk env buf fuel written st = some (.returned r) → r.ret = false := by
  intro fuel
  induction fuel with
  | zero => intro written st r h; simp [upload_chunk] at h
  | succ fuel ih =>
    intro written st r h
    rw [upload_chunk_succ] at h
    by_cases hlt : written < buf.length
    · simp only [hlt, if_true] at h
      by_cases hflag : (check_cancelled env.cancelled st).1 = true
      · simp only [hflag, if_true, Option.some.injEq, LoopExit.returned.injEq] at h
        subst h; rfl
      simp only [hflag, Bool.false_eq_true, if_false] at h
      by_cases hneg : env.write_rc (check_cancelled env.cancelled st).2.calls
          (buf.length - written) < 0
      · simp only [hneg, if_true, Option.some.injEq, LoopExit.returned.injEq] at h
        subst h; rfl
      · simp only [hneg, if_false] at h
        exact ih _ _ _ h
    · simp [hlt] at h

/-- What the remote file gains during a successful run of the read loop: the unread
part of the local file. -/
theorem upload_loop_written (env : UploadEnv)
    (hb : ∀ i n, 0 < n → env.write_rc i n ≤ n) :
    ∀ (fuel : Nat) (rest : List Byte) (st : XferState) (r : XferResult),
      upload_loop env fuel rest st = some r → r.ret = true →
      remote_written r.events = remote_written st.events ++ rest := by
  intro fuel
  induction fuel with
  | zero => intro rest st r h; simp [upload_loop] at h
  | succ fuel ih =>
    intro rest st r h hret
    rw [upload_loop_succ] at h
    by_cases hne : 0 < (rest.take BUF_SIZE).length
    · simp only [hne, if_true] at h
      cases hch : upload_chunk env (rest.take BUF_SIZE) fuel 0 st with
      | none => simp [hch] at h
      | some e =>
        cases e with
        | returned r' =>
          simp only [hch, Option.some.injEq] at h
          subst h
          have := upload_chunk_returned_ret _ _ _ _ _ _ hch
          simp [this] at hret
        | done st' =>
          simp only [hch] at h
          rw [ih _ _ _ h hret,
            upload_chunk_done_written env _ hb _ _ _ _ (Nat.zero_le _) hch]
          simp
    · simp only [hne, if_false, Option.some.injEq] at h
      subst h
      have hnil : rest = [] := by
        cases rest with
        | nil => rfl
        | cons a l => simp [BUF_SIZE] at hne
      simp [hnil, remote_written_append, remote_written]

/-- Reading the flag leaves the task pointer as it is. -/
theorem check_cancelled_op (cancelled : Nat → Bool) (st : XferState) :
    (check_cancelled cancelled st).2.op = st.op := by
  unfold check_cancelled
  cases h : st.op <;> simp [h]

/-- The flag is read as clear when no task is attached or it is never seen set. -/
theorem check_cancelled_never (cancelled : Nat → Bool) (st : XferState)
    (hc : st.op = none ∨ never_cancelled cancelled) :
    (check_cancelled cancelled st).1 = false := by
  unfold check_cancelled
  cases h : st.op with
  | none => rfl
  | some o =>
    rcases hc with hc | hc
    · rw [h] at hc; cases hc
    · exact hc _

/-- With accepting writes and no cancellation the write loop falls through. -/
theorem upload_chunk_completes (env : UploadEnv) (buf : List Byte)
    (hw : WritesAccept env) :
    ∀ (fuel written : Nat) (st : XferState),
      (st.op = none ∨ never_cancelled env.cancelled) → buf.length - written < fuel →
      ∃ st', upload_chunk env buf fuel written st = some (.done st') ∧
        (st.op = none → st'.op = none) := by
  intro fuel
  induction fuel with
  | zero => intro written st _ h; omega
  | succ fuel ih =>
    intro written st hc h
    rw [upload_chunk_succ]
    by_cases hlt : written < buf.length
    · simp only [hlt, if_true, check_cancelled_never _ _ hc, Bool.false_eq_true, if_false]
      obtain ⟨h1, h2⟩ := hw (check_cancelled env.cancelled st).2.calls
        (buf.length - written) (by omega)
      have hneg : ¬ env.write_rc (check_cancelled env.cancelled st).2.calls
          (buf.length - written) < 0 := by omega
      simp only [hneg, if_false]
      have hop : ∀ n, (progress (log_remote_write (check_cancelled env.cancelled st).2
          (buf.drop written) (env.write_rc (check_cancelled env.cancelled st).2.calls
            (buf.length - written))) n).op = add_transferred st.op n := by
        intro n
        simp only [progress, log_remote_write, check_cancelled_op]
      obtain ⟨st', hst', hnone⟩ := ih
        (written + (env.write_rc (check_cancelled env.cancelled st).2.calls
          (buf.length - written)).toNat)
        (progress (log_remote_write (check_cancelled env.cancelled st).2
          (buf.drop written) (env.write_rc (check_cancelled env.cancelled st).2.calls
            (buf.length - written)))
          (env.write_rc (check_cancelled env.cancelled st).2.calls
            (buf.length - written)).toNat)
        (by
          rcases hc with hc | hc
          · left; rw [hop, hc]; rfl
          · exact Or.inr hc)
        (by omega)
      refine ⟨st', hst', ?_⟩
      intro hn
      apply hnone
      rw [hop, hn]; rfl
    · exact ⟨st, by simp [hlt], fun h => h⟩

/-- With accepting writes and no cancellation the upload loop returns TRUE. -/
theorem upload_loop_completes (env : UploadEnv) (hw : WritesAccept env) :
    ∀ (fuel : Nat) (rest : List Byte) (st : XferState),
      (st.op = none ∨ never_cancelled env.cancelled) → rest.length + 2 ≤ fuel →
      ∃ r, upload_loop env fuel rest st = some r ∧ r.ret = true := by
  intro fuel
  induction fuel with
  | zero => intro rest st _ h; omega
  | succ fuel ih =>
    intro rest st hc h
    rw [upload_loop_succ]
    by_cases hne : 0 < (rest.take BUF_SIZE).length
    · simp only [hne, if_true]
      have hlen : (rest.take BUF_SIZE).length ≤ rest.length := by
        simp [List.length_take]
      obtain ⟨st', hst', hnone⟩ := upload_chunk_completes env (rest.take BUF_SIZE) hw
        fuel 0 st hc (by omega)
      simp only [hst']
      apply ih
      · rcases hc with hc | hc
        · exact Or.inl (hnone hc)
        · exact Or.inr hc
      · have : 0 < rest.length := by omega
        simp only [List.length_drop, BUF_SIZE]
        omega
    · simp only [hne, if_false]
      exact ⟨_, rfl, rfl⟩

/-- The two results of reading the flag: no task and nothing read, or a task and a
logged read. -/
theorem check_cancelled_cases (cancelled : Nat → Bool) (st : XferState) :
    (st.op = none ∧ check_cancelled cancelled st = (false, st)) ∨
    (∃ o, st.op = some o ∧
      check_cancelled cancelled st =
        (cancelled st.checks,
         { st with events := st.events ++ [.cancel_check o.transferred (cancelled st.checks)],
                   checks := st.checks + 1 })) := by
  unfold check_cancelled
  cases h : st.op with
  | none => exact Or.inl ⟨rfl, rfl⟩
  | some o => exact Or.inr ⟨o, rfl, rfl⟩

theorem check_cancelled_remote_writes (cancelled : Nat → Bool) (st : XferState) :
    remote_writes (check_cancelled cancelled st).2.events = remote_writes st.events := by
  rcases check_cancelled_cases cancelled st with ⟨-, h⟩ | ⟨o, -, h⟩ <;>
    simp [h, remote_writes_append, remote_writes]

theorem pending_remainder_nil (events : List XferEvent) (rest : List Byte)
    (h : pending_remainder events []) : pending_remainder events rest := by
  intro p hp hlt
  have := h p hp hlt
  have hlen := congrArg List.length this
  simp only [List.length_drop, List.length_nil] at hlen
  omega

/-- The write loop resubmits what was not accepted. -/
theorem upload_chunk_resubmits (env : UploadEnv) (buf : List Byte) :
    ∀ (fuel written : Nat) (st : XferState) (e : LoopExit),
      resubmits_remainder st.events → pending_remainder st.events (buf.drop written) →
      upload_chunk env buf fuel written st = some e →
      match e with
      | .done st' => resubmits_remainder st'.events ∧ pending_remainder st'.events []
      | .returned r => resubmits_remainder r.events := by
  intro fuel
  induction fuel with
  | zero => intro written st e _ _ h; simp [upload_chunk] at h
  | succ fuel ih =>
    intro written st e hres hpend h
    rw [upload_chunk_succ] at h
    by_cases hlt : written < buf.length
    · simp only [hlt, if_true] at h
      by_cases hflag : (check_cancelled env.cancelled st).1 = true
      · simp only [hflag, if_true, Option.some.injEq] at h
        subst h
        simpa [resubmits_remainder, abort, remote_writes_append, remote_writes,
          check_cancelled_remote_writes] using hres
      simp only [hflag, Bool.false_eq_true, if_false] at h
      generalize hrc : env.write_rc (check_cancelled env.cancelled st).2.calls
        (buf.length - written) = rc at h
      have hres' : resubmits_remainder
          (log_remote_write (check_cancelled env.cancelled st).2 (buf.drop written) rc).events := by
        simp only [resubmits_remainder, log_remote_write, remote_writes_append,
          check_cancelled_remote_writes, remote_writes]
        rw [List.chain'_append]
        refine ⟨hres, List.chain'_singleton _, ?_⟩
        intro x hx y hy hlt'
        simp only [List.head?_cons, Option.mem_def, Option.some.injEq] at hy
        subst hy
        exact (hpend x hx hlt').symm
      by_cases hneg : rc < 0
      · simp only [hneg, if_true, Option.some.injEq] at h
        subst h
        simpa [resubmits_remainder, abort, remote_writes_append, remote_writes] using hres'
      simp only [hneg, if_false] at h
      refine ih _ _ e ?_ ?_ h
      · simpa [progress] using hres'
      · intro p hp hlt'
        simp only [progress, log_remote_write, remote_writes_append,
          check_cancelled_remote_writes, remote_writes, List.getLast?_concat,
          Option.some.injEq] at hp
        subst hp
        simp [List.drop_drop, Nat.add_comm]
    · simp only [hlt, if_false, Option.some.injEq] at h
      subst h
      refine ⟨hres, ?_⟩
      have : buf.drop written = [] := List.drop_eq_nil_of_le (by omega)
      rw [this] at hpend
      exact hpend

/-- The read loop resubmits what was not accepted. -/
theorem upload_loop_resubmits (env : UploadEnv) :
    ∀ (fuel : Nat) (rest : List Byte) (st : XferState) (r : XferResult),
      resubmits_remainder st.events → pending_remainder st.events [] →
      upload_loop env fuel rest st = some r → resubmits_remainder r.events := by
  intro fuel
  induction fuel with
  | zero => intro rest st r _ _ h; simp [upload_loop] at h
  | succ fuel ih =>
    intro rest st r hres hpend h
    rw [upload_loop_succ] at h
    by_cases hne : 0 < (rest.take BUF_SIZE).length
    · simp only [hne, if_true] at h
      cases hch : upload_chunk env (rest.take BUF_SIZE) fuel 0 st with
      | none => simp [hch] at h
      | some e =>
        have := upload_chunk_resubmits env _ fuel 0 st e hres
          (pending_remainder_nil _ _ hpend) hch
        cases e with
        | returned r' =>
          simp only [hch, Option.some.injEq] at h
          subst h
          exact this
        | done st' =>
          simp only [hch] at h
          exact ih _ _ _ this.1 this.2 h
    · simp only [hne, if_false, Option.some.injEq] at h
      subst h
      simpa [resubmits_remainder, remote_writes_append, remote_writes] using hres

/-- With writes that fail or make progress the write loop ends. -/
theorem upload_chunk_returns (env : UploadEnv) (buf : List Byte) (hw : WritesProgress env) :
    ∀ (fuel written : Nat) (st : XferState), buf.length - written < fuel →
      ∃ e, upload_chunk env buf fuel written st = some e := by
  intro fuel
  induction fuel with
  | zero => intro written st h; omega
  | succ fuel ih =>
    intro written st h
    rw [upload_chunk_succ]
    by_cases hlt : written < buf.length
    · simp only [hlt, if_true]
      by_cases hflag : (check_cancelled env.cancelled st).1 = true
      · simp only [hflag, if_true]
        exact ⟨_, rfl⟩
      simp only [hflag, Bool.false_eq_true, if_false]
      obtain ⟨h1, h2⟩ := hw (check_cancelled env.cancelled st).2.calls
        (buf.length - written) (by omega)
      by_cases hneg : env.write_rc (check_cancelled env.cancelled st).2.calls
          (buf.length - written) < 0
      · simp only [hneg, if_true]
        exact ⟨_, rfl⟩
      simp only [hneg, if_false]
      apply ih
      omega
    · simp only [hlt, if_false]
      exact ⟨_, rfl⟩

/-- With writes that fail or make progress the upload loop returns. -/
theorem upload_loop_returns (env : UploadEnv) (hw : WritesProgress env) :
    ∀ (fuel : Nat) (rest : List Byte) (st : XferState), rest.length + 2 ≤ fuel →
      ∃ r, upload_loop env fuel rest st = some r := by
  intro fuel
  induction fuel with
  | zero => intro rest st h; omega
  | succ fuel ih =>
    intro rest st h
    rw [upload_loop_succ]
    by_cases hne : 0 < (rest.take BUF_SIZE).length
    · simp only [hne, if_true]
      have hlen : (rest.take BUF_SIZE).length ≤ rest.length := by
        simp [List.length_take]
      obtain ⟨e, he⟩ := upload_chunk_returns env (rest.take BUF_SIZE) hw fuel 0 st
        (by omega)
      cases e with
      | returned r => exact ⟨r, by simp only [he]⟩
      | done st' =>
        simp only [he]
        apply ih
        have : 0 < rest.length := by omega
        simp only [List.length_drop, BUF_SIZE]
        omega
    · simp only [hne, if_false]
      exact ⟨_, rfl⟩

/-- Unfolding of one iteration of the download loop. -/
theorem download_loop_succ (env : DownloadEnv) (content : List Byte)
    (fuel off writes : Nat) (st : XferState) :
    download_loop env content (fuel + 1) off writes st =
      let rd := sftp_read content off (env.read_choice st.calls)
      let st1 := log_remote_read st rd.1 rd.2
      if 0 < rd.1 then
        if (check_cancelled env.cancelled st1).1 = true then
          some (abort (check_cancelled env.cancelled st1).2)
        else
          let st2 := log_local_write (check_cancelled env.cancelled st1).2 rd.2
            (env.fwrite_ret writes rd.1.toNat)
          if env.fwrite_ret writes rd.1.toNat ≠ rd.1.toNat then some (abort st2)
          else
            download_loop env content fuel (off + rd.1.toNat) (writes + 1)
              (progress st2 rd.1.toNat)
      else some ⟨true, st1.op, st1.events ++ [.remote_close, .local_close]⟩ := by
  rfl

/-- A remote read that returns a positive count delivers that many bytes, at most one
buffer, taken from the file at the read offset. -/
theorem sftp_read_positive (content : List Byte) (off : Nat) (choice : Int)
    (h : 0 < (sftp_read content off choice).1) :
    (sftp_read content off choice).1.toNat = (sftp_read content off choice).2.length ∧
    (sftp_read content off choice).1.toNat ≤ BUF_SIZE ∧
    off + (sftp_read content off choice).1.toNat ≤ content.length ∧
    content.drop off = (sftp_read content off choice).2 ++
      content.drop (off + (sftp_read content off choice).1.toNat) := by
  unfold sftp_read at h ⊢
  by_cases hneg : choice < 0
  · simp only [hneg, if_true] at h; omega
  simp only [hneg, if_false] at h ⊢
  have hrc : ((((content.drop off).take BUF_SIZE).take choice.toNat).length : Int).toNat =
      (((content.drop off).take BUF_SIZE).take choice.toNat).length := Int.toNat_natCast _
  rw [hrc]
  have hpre : ((content.drop off).take BUF_SIZE).take choice.toNat <+: content.drop off :=
    (List.take_prefix _ _).trans (List.take_prefix _ _)
  have hlen : (((content.drop off).take BUF_SIZE).take choice.toNat).length ≤
      (content.drop off).length := hpre.length_le
  have hpos : 0 < (((content.drop off).take BUF_SIZE).take choice.toNat).length := by
    omega
  refine ⟨rfl, ?_, ?_, ?_⟩
  · exact (List.length_take_le' _ _).trans (List.length_take_le _ _)
  · simp only [List.length_drop] at hlen
    omega
  · rw [← List.drop_drop]
    conv_lhs => rw [← List.take_append_drop
      (((content.drop off).take BUF_SIZE).take choice.toNat).length (content.drop off)]
    rw [← List.prefix_iff_eq_take.mp hpre]

/-- The download loop returns: every read fails, ends the file or moves the offset. -/
theorem download_loop_returns (env : DownloadEnv) (content : List Byte) :
    ∀ (fuel off writes : Nat) (st : XferState), content.length - off < fuel →
      ∃ r, download_loop env content fuel off writes st = some r := by
  intro fuel
  induction fuel with
  | zero => intro off writes st h; omega
  | succ fuel ih =>
    intro off writes st h
    rw [download_loop_succ]
    simp only []
    have hspec := sftp_read_positive content off (env.read_choice st.calls)
    generalize sftp_read content off (env.read_choice st.calls) = rd at hspec
    by_cases hpos : 0 < rd.1
    · obtain ⟨h1, h2, h3, h4⟩ := hspec hpos
      simp only [hpos, if_true]
      by_cases hflag :
          (check_cancelled env.cancelled (log_remote_read st rd.1 rd.2)).1 = true
      · simp only [hflag, if_true]
        exact ⟨_, rfl⟩
      simp only [hflag, Bool.false_eq_true, if_false]
      by_cases hw : env.fwrite_ret writes rd.1.toNat = rd.1.toNat
      · simp only [hw, ne_eq, not_true_eq_false, if_false]
        apply ih
        omega
      · simp only [ne_eq, hw, not_false_eq_true, if_true]
        exact ⟨_, rfl⟩
    · simp only [hpos, if_false]
      exact ⟨_, rfl⟩

theorem check_cancelled_local_written (cancelled : Nat → Bool) (st : XferState) :
    local_written (check_cancelled cancelled st).2.events = local_written st.events := by
  rcases check_cancelled_cases cancelled st with ⟨-, h⟩ | ⟨o, -, h⟩ <;>
    simp [h, local_written_append, local_written]

/-- What the local file gains during a download that returns TRUE, when no remote read
fails and none ends the file early: the rest of the remote file. -/
theorem download_loop_written (env : DownloadEnv) (content : List Byte)
    (hreads : ∀ i, 0 < env.read_choice i) :
    ∀ (fuel off writes : Nat) (st : XferState) (r : XferResult),
      download_loop env content fuel off writes st = some r → r.ret = true →
      local_written r.events = local_written st.events ++ content.drop off := by
  intro fuel
  induction fuel with
  | zero => intro off writes st r h; simp [download_loop] at h
  | succ fuel ih =>
    intro off writes st r h hret
    rw [download_loop_succ] at h
    simp only [] at h
    have hspec := sftp_read_positive content off (env.read_choice st.calls)
    have hzero : ¬ 0 < (sftp_read content off (env.read_choice st.calls)).1 →
        content.drop off = [] := by
      intro hn
      have hc := hreads st.calls
      unfold sftp_read at hn
      have hneg : ¬ env.read_choice st.calls < 0 := by omega
      simp only [hneg, if_false] at hn
      have hlen : (((content.drop off).take BUF_SIZE).take
          (env.read_choice st.calls).toNat).length = 0 := by omega
      simp only [List.length_take, List.length_drop, BUF_SIZE] at hlen
      apply List.eq_nil_of_length_eq_zero
      simp only [List.length_drop]
      omega
    generalize sftp_read content off (env.read_choice st.calls) = rd at hspec h hzero
    by_cases hpos : 0 < rd.1
    · obtain ⟨h1, h2, h3, h4⟩ := hspec hpos
      simp only [hpos, if_true] at h
      by_cases hflag :
          (check_cancelled env.cancelled (log_remote_read st rd.1 rd.2)).1 = true
      · simp only [hflag, if_true, Option.some.injEq] at h
        subst h
        simp [abort] at hret
      simp only [hflag, Bool.false_eq_true, if_false] at h
      by_cases hw : env.fwrite_ret writes rd.1.toNat = rd.1.toNat
      · simp only [hw, ne_eq, not_true_eq_false, if_false] at h
        rw [ih _ _ _ _ h hret, h4]
        simp [progress, log_local_write, log_remote_read, local_written_append,
          check_cancelled_local_written, local_written, h1]
      · simp only [ne_eq, hw, not_false_eq_true, if_true, Option.some.injEq] at h
        subst h
        simp [abort] at hret
    · simp only [hpos, if_false, Option.some.injEq] at h
      subst h
      simp [hzero hpos, log_remote_read, local_written_append, local_written]

/-- A successful upload leaves the remote file equal to the local one, when no write
reports more bytes than it was given. -/
theorem upload_true_written (session : Option SFTPSession) (op : Option FileOperation)
    (env : UploadEnv) (content : List Byte) (fuel : Nat) (r : XferResult)
    (hb : ∀ i n, 0 < n → env.write_rc i n ≤ n)
    (hfile : env.local_file = some content)
    (h : sftp_upload_file session op env fuel = some r) (hret : r.ret = true) :
    remote_written r.events = content := by
  unfold sftp_upload_file at h
  by_cases hn : not_connected session = true
  · simp only [hn, if_true, Option.some.injEq] at h
    subst h; simp at hret
  simp only [hn, Bool.false_eq_true, if_false, hfile] at h
  by_cases ho : env.remote_open_ok = true
  · simp only [ho, Bool.not_true, Bool.false_eq_true, if_false] at h
    have := upload_loop_written env hb _ _ _ _ h hret
    simpa [remote_written] using this
  · have ho' : env.remote_open_ok = false := by simpa using ho
    simp only [ho', Bool.not_false, if_true, Option.some.injEq] at h
    subst h; simp at hret

/-- A download that returns TRUE leaves the local file equal to the remote one, when no
remote read fails or ends the file early. -/
theorem download_true_written (session : Option SFTPSession) (op : Option FileOperation)
    (env : DownloadEnv) (content : List Byte) (fuel : Nat) (r : XferResult)
    (hreads : ∀ i, 0 < env.read_choice i)
    (hfile : env.remote_file = some content)
    (h : sftp_download_file session op env fuel = some r) (hret : r.ret = true) :
    local_written r.events = content := by
  unfold sftp_download_file at h
  by_cases hn : not_connected session = true
  · simp only [hn, if_true, Option.some.injEq] at h
    subst h; simp at hret
  simp only [hn, Bool.false_eq_true, if_false, hfile] at h
  by_cases ho : env.local_open_ok = true
  · simp only [ho, Bool.not_true, Bool.false_eq_true, if_false] at h
    have := download_loop_written env content hreads _ _ _ _ _ h hret
    simpa [local_written] using this
  · have ho' : env.local_open_ok = false := by simpa using ho
    simp only [ho', Bool.not_false, if_true, Option.some.injEq] at h
    subst h; simp at hret

/-- The round trip the code does provide: an upload that returns TRUE followed by a
download of the uploaded file that returns TRUE reproduces the original bytes, for every
pattern of partial writes, as long as no remote read fails or ends the file early. -/
theorem roundtrip_without_read_errors (session : Option SFTPSession)
    (op1 op2 : Option FileOperation) (uenv : UploadEnv) (denv : DownloadEnv)
    (content : List Byte) (fuel1 fuel2 : Nat) (up down : XferResult)
    (hb : ∀ i n, 0 < n → uenv.write_rc i n ≤ n)
    (hlocal : uenv.local_file = some content)
    (hup : sftp_upload_file session op1 uenv fuel1 = some up) (hupret : up.ret = true)
    (hreads : ∀ i, 0 < denv.read_choice i)
    (hremote : denv.remote_file = some (remote_written up.events))
    (hdown : sftp_download_file session op2 denv fuel2 = some down)
    (hdownret : down.ret = true) :
    local_written down.events = content := by
  rw [download_true_written session op2 denv _ fuel2 down hreads hremote hdown hdownret]
  exact upload_true_written session op1 uenv content fuel1 up hb hlocal hup hupret

/-! ## The claims -/

/-- C1 (code defect). The round trip "successful upload, then successful download of the
same path, gives back the original bytes" fails on the code: the three bytes 1, 2, 3 are
uploaded in partial writes and arrive intact; the download's first remote read delivers
two bytes and its second read fails with -1; `sftp_download_file` takes the negative
result for the end of the file and returns TRUE, leaving the local copy with the two
bytes 1, 2 only. -/
theorem roundtrip_broken_by_read_error :
    ∃ up down,
      sftp_upload_file (some connected_session) none (slow_upload [1, 2, 3]) 5 = some up ∧
      up.ret = true ∧ remote_written up.events = [1, 2, 3] ∧
      sftp_download_file (some connected_session) none
        (failing_download (remote_written up.events)) 5 = some down ∧
      down.ret = true ∧ local_written down.events = [1, 2] ∧
      local_written down.events ≠ [1, 2, 3] := by
  refine ⟨⟨true, none, [.local_open false true, .remote_open true true,
      .remote_write [1, 2, 3] 2, .remote_write [3] 1, .remote_close, .local_close]⟩,
    ⟨true, none, [.remote_open false true, .remote_stat true, .local_open true true,
      .remote_read 2 [1, 2], .local_write [1, 2] 2, .remote_read (-1) [],
      .remote_close, .local_close]⟩, ?_, rfl, ?_, ?_, rfl, ?_, ?_⟩
  · decide
  · decide
  · decide
  · decide
  · decide

/-- C2. For every local file and every behaviour of the remote write call in which each
call accepts between 1 and the requested number of bytes, `sftp_upload_file` on a
connected session, with the remote file created and no cancellation (no task attached,
or the flag never seen set), returns TRUE (any fuel of at least the file length plus 2
is enough), the bytes accepted by the remote writes, concatenated in call order, are the
content of the local file, and a write that accepted only part of its bytes is followed
by a write of exactly the part not accepted. -/
theorem upload_delivers_file (s : SFTPSession) (op : Option FileOperation)
    (env : UploadEnv) (content : List Byte) (fuel : Nat)
    (hactive : s.active = true) (hsftp : s.sftp_session.isSome = true)
    (hfile : env.local_file = some content) (hopen : env.remote_open_ok = true)
    (hw : WritesAccept env) (hc : op = none ∨ never_cancelled env.cancelled)
    (hfuel : content.length + 2 ≤ fuel) :
    ∃ r, sftp_upload_file (some s) op env fuel = some r ∧ r.ret = true ∧
      remote_written r.events = content ∧ resubmits_remainder r.events := by
  have hn : not_connected (some s) = false := by
    cases hs : s.sftp_session with
    | none => simp [hs] at hsftp
    | some h => simp [not_connected, hactive, hs]
  obtain ⟨r, hr, hret⟩ := upload_loop_completes env hw fuel content
    ⟨op.map fun (o : FileOperation) =>
        { o with total_size := content.length, transferred := 0 },
      [.local_open false true, .remote_open true env.remote_open_ok], 0, 0⟩
    (by
      rcases hc with hc | hc
      · left; simp [hc]
      · exact Or.inr hc)
    hfuel
  refine ⟨r, ?_, hret, ?_, ?_⟩
  · simp only [sftp_upload_file, hn, hfile, hopen]
    simpa [hopen] using hr
  · have := upload_loop_written env (fun i n hpos => (hw i n hpos).2) _ _ _ _ hr hret
    simpa [remote_written] using this
  · refine upload_loop_resubmits env _ _ _ _ ?_ ?_ hr
    · simp [resubmits_remainder, remote_writes]
    · intro p hp; simp [remote_writes] at hp

/-- Witness for C2: three bytes uploaded, with a task attached, to a server that accepts
two bytes per call. -/
theorem upload_delivers_file_witness :
    (connected_session.active = true ∧ connected_session.sftp_session.isSome = true ∧
      (slow_upload [1, 2, 3]).local_file = some [1, 2, 3] ∧
      (slow_upload [1, 2, 3]).remote_open_ok = true ∧
      WritesAccept (slow_upload [1, 2, 3]) ∧
      never_cancelled (slow_upload [1, 2, 3]).cancelled) ∧
    ∃ r, sftp_upload_file (some connected_session) (some ⟨0, 0⟩) (slow_upload [1, 2, 3]) 5 =
        some r ∧
      r.ret = true ∧ remote_written r.events = [1, 2, 3] ∧ resubmits_remainder r.events :=
  have hw : WritesAccept (slow_upload [1, 2, 3]) := fun i n hn => by
    simp only [slow_upload]; omega
  have hc : never_cancelled (slow_upload [1, 2, 3]).cancelled := fun _ => rfl
  ⟨⟨rfl, rfl, rfl, rfl, hw, hc⟩,
    upload_delivers_file connected_session (some ⟨0, 0⟩) (slow_upload [1, 2, 3]) [1, 2, 3] 5
      rfl rfl rfl rfl hw (Or.inr hc) (by decide)⟩

/-- C3. When a session exists and both the local and the remote stat succeed,
`sync_auto_sync` calls the download exactly when the local modification time is
strictly less than the remote one, calls the upload exactly when it is strictly greater,
and when the two are equal it returns TRUE having made the two stat calls and no
transfer. -/
theorem auto_sync_direction (plugin_data : SFTPPluginData) (env : SyncEnv)
    (session : SFTPSession) (local_mtime remote_mtime : Int)
    (hs : current_session plugin_data = some session)
    (hl : env.local_mtime = some local_mtime)
    (hr : env.remote_mtime = some remote_mtime) :
    ((sync_auto_sync plugin_data env).events.any SyncEvent.is_download = true ↔
      local_mtime < remote_mtime) ∧
    ((sync_auto_sync plugin_data env).events.any SyncEvent.is_upload = true ↔
      remote_mtime < local_mtime) ∧
    (local_mtime = remote_mtime →
      (sync_auto_sync plugin_data env).ret = true ∧
      (sync_auto_sync plugin_data env).events = [.stat_local true, .stat_remote true]) := by
  unfold sync_auto_sync
  simp only [hs, hl, hr, compare_file_time]
  rcases lt_trichotomy local_mtime remote_mtime with hlt | heq | hgt
  · have h1 : ¬ remote_mtime < local_mtime := by omega
    have h2 : local_mtime ≠ remote_mtime := by omega
    cases hd : env.download_ret <;>
      simp [hlt, h1, h2, sync_download_file, hs, hd, SyncEvent.is_download,
        SyncEvent.is_upload]
  · subst heq
    simp [SyncEvent.is_download, SyncEvent.is_upload]
  · have h1 : ¬ local_mtime < remote_mtime := by omega
    have h2 : local_mtime ≠ remote_mtime := by omega
    cases hu : env.upload_ret <;>
      simp [hgt, h1, h2, sync_upload_file, hs, hu, SyncEvent.is_download,
        SyncEvent.is_upload]

/-- Witness for C3: local time 100, remote time 200, one connected session. -/
theorem auto_sync_direction_witness :
    (current_session one_session_plugin = some connected_session) ∧
    (((sync_auto_sync one_session_plugin ⟨some 100, some 200, true, true⟩).events.any
        SyncEvent.is_download = true ↔ (100 : Int) < 200) ∧
      ((sync_auto_sync one_session_plugin ⟨some 100, some 200, true, true⟩).events.any
        SyncEvent.is_upload = true ↔ (200 : Int) < 100) ∧
      ((100 : Int) = 200 →
        (sync_auto_sync one_session_plugin ⟨some 100, some 200, true, true⟩).ret = true ∧
        (sync_auto_sync one_session_plugin ⟨some 100, some 200, true, true⟩).events =
          [.stat_local true, .stat_remote true])) :=
  ⟨rfl, auto_sync_direction one_session_plugin ⟨some 100, some 200, true, true⟩
    connected_session 100 200 rfl rfl rfl⟩

/-- C5. Whenever the handshake eventually answers, `sftp_connection_connect` returns,
and on every failing path each resource acquired by the call is released before it
returns: the descriptors closed are exactly the descriptors opened (at most one) and the
SSH handles freed are exactly the SSH handles created (at most one), so the numbers of
open sockets and of live SSH handles are what they were before the call; on the
successful path there is no close and no free. -/
theorem connect_releases_on_failure (s : SFTPSession) (env : ConnectEnv)
    (hs : handshake_settles env) :
    ∃ r, sftp_connection_connect s env = some r ∧
      (r.ret = false →
        sockets_closed r.events = sockets_opened r.events ∧
        ssh_freed r.events = ssh_created r.events ∧
        (sockets_opened r.events).length ≤ 1 ∧ (ssh_created r.events).length ≤ 1) ∧
      (r.ret = true → sockets_closed r.events = [] ∧ ssh_freed r.events = []) := by
  obtain ⟨rc, waits, hl⟩ := handshake_loop_returns _ hs
  obtain ⟨w1, w2, w3, w4⟩ := handshake_loop_waits _ _ _ hl
  unfold sftp_connection_connect
  cases hc : s.config with
  | none => simp [sockets_closed, sockets_opened, ssh_freed, ssh_created]
  | some c =>
    simp only [hl]
    by_cases h1 : env.socket_ret < 0
    · simp [h1, sockets_closed, sockets_opened, ssh_freed, ssh_created]
    simp only [h1, if_false]
    by_cases h2 : env.host_found = true
    swap
    · simp [h2, sockets_closed, sockets_opened, ssh_freed, ssh_created]
    simp only [h2, Bool.not_true, Bool.false_eq_true, if_false]
    by_cases h3 : env.connect_ret < 0
    · simp [h3, sockets_closed, sockets_opened, ssh_freed, ssh_created]
    simp only [h3, if_false]
    cases h4 : env.ssh_init with
    | none => simp [sockets_closed, sockets_opened, ssh_freed, ssh_created]
    | some ssh =>
      simp only []
      by_cases h5 : rc = 0
      swap
      · simp [h5, sockets_closed_append, sockets_opened_append, ssh_freed_append,
          ssh_created_append, w1, w2, w3, w4, sockets_closed, sockets_opened, ssh_freed,
          ssh_created]
      subst h5
      simp only [ne_eq, not_true_eq_false, if_false]
      cases ha : authenticate c env with
      | mk arc aev =>
        have haev : aev = .auth_publickey ∨ aev = .auth_password := by
          have h := congrArg Prod.snd ha
          simp only [authenticate] at h
          split at h
          · split at h
            · exact Or.inl h.symm
            · exact Or.inr h.symm
          · exact Or.inr h.symm
        simp only []
        by_cases h6 : arc = 0
        swap
        · rcases haev with rfl | rfl <;>
            simp [h6, sockets_closed_append, sockets_opened_append, ssh_freed_append,
              ssh_created_append, w1, w2, w3, w4, sockets_closed,
              sockets_opened, ssh_freed, ssh_created]
        subst h6
        simp only [ne_eq, not_true_eq_false, if_false]
        cases h7 : env.sftp_init with
        | none =>
          rcases haev with rfl | rfl <;>
            simp [sockets_closed_append, sockets_opened_append, ssh_freed_append,
              ssh_created_append, w1, w2, w3, w4, sockets_closed,
              sockets_opened, ssh_freed, ssh_created]
        | some sftp =>
          rcases haev with rfl | rfl <;>
            simp [sockets_closed_append, sockets_opened_append, ssh_freed_append,
              ssh_created_append, w1, w2, w3, w4, sockets_closed,
              sockets_opened, ssh_freed, ssh_created]

/-- Witness for C5: the fresh session of the specification scenario, handshake rejected. -/
theorem connect_releases_on_failure_witness :
    handshake_settles handshake_failure_env ∧
    ∃ r, sftp_connection_connect (fresh_session (some test_profile))
        handshake_failure_env = some r ∧
      (r.ret = false →
        sockets_closed r.events = sockets_opened r.events ∧
        ssh_freed r.events = ssh_created r.events ∧
        (sockets_opened r.events).length ≤ 1 ∧ (ssh_created r.events).length ≤ 1) ∧
      (r.ret = true → sockets_closed r.events = [] ∧ ssh_freed r.events = []) :=
  have hs : handshake_settles handshake_failure_env := ⟨-5, by decide, by decide⟩
  ⟨hs, connect_releases_on_failure (fresh_session (some test_profile))
    handshake_failure_env hs⟩

/-- C6 (code defect). Starting from a freshly created session, one
`sftp_connection_connect` call in which the TCP connection is made and the SSH handshake
is then rejected ends with `sock` still holding the descriptor 5, which the call has
closed, while both handles are null and the session is inactive: the Session invariant
"ssh handle non-null iff socket valid (sock > 0)" does not hold. -/
theorem failed_connect_breaks_session_invariant :
    ∃ s, run_calls [.connect handshake_failure_env] (fresh_session (some test_profile)) =
        some s ∧
      s.sock = 5 ∧ s.ssh_session = none ∧ s.sftp_session = none ∧ s.active = false ∧
      ¬ session_invariant s ∧
      (sftp_connection_connect (fresh_session (some test_profile))
        handshake_failure_env).map (fun r => sockets_closed r.events) = some [5] := by
  refine ⟨{ fresh_session (some { test_profile with state := .CONN_ERROR }) with sock := 5 },
    ?_, rfl, rfl, rfl, rfl, ?_, ?_⟩
  · decide
  · decide
  · decide

/-- C7. The function `sftp_connection_disconnect` is idempotent: for every session
state, a second call leaves the session (profile state included) as the first call left
it and makes no release call at all (no SFTP shutdown, no SSH disconnect or free, no
socket close); on a null session it does nothing. -/
theorem disconnect_idempotent (s : Option SFTPSession) :
    sftp_connection_disconnect (sftp_connection_disconnect s).session =
      ⟨(sftp_connection_disconnect s).session, []⟩ ∧
    sftp_connection_disconnect none = ⟨none, []⟩ := by
  refine ⟨?_, rfl⟩
  cases s with
  | none => rfl
  | some s =>
    obtain ⟨config, ssh, sftp, sock, active⟩ := s
    by_cases hsock : 0 < sock <;> cases config <;> cases ssh <;> cases sftp <;>
      simp [sftp_connection_disconnect, hsock]

/-- The field `sock` never becomes negative: a connection attempt on a session whose
`sock` is not negative (0 in the sessions the callers create) leaves it not negative. -/
theorem connect_keeps_sock_nonneg (s : SFTPSession) (env : ConnectEnv) (r : ConnectResult)
    (h0 : 0 ≤ s.sock) (h : sftp_connection_connect s env = some r) : 0 ≤ r.session.sock := by
  unfold sftp_connection_connect at h
  cases hc : s.config with
  | none =>
    rw [hc] at h
    simp only [Option.some.injEq] at h
    subst h
    exact h0
  | some c =>
    rw [hc] at h
    simp only [] at h
    by_cases h1 : env.socket_ret < 0
    · simp only [h1, if_true, Option.some.injEq] at h
      subst h; exact h0
    simp only [h1, if_false] at h
    have hs : 0 ≤ env.socket_ret := by omega
    by_cases h2 : env.host_found = true
    swap
    · simp only [h2, Bool.not_false, Bool.false_eq_true, not_false_eq_true, if_true,
        Bool.not_eq_true, Option.some.injEq] at h
      subst h; exact h0
    simp only [h2, Bool.not_true, Bool.false_eq_true, if_false] at h
    by_cases h3 : env.connect_ret < 0
    · simp only [h3, if_true, Option.some.injEq] at h
      subst h; exact h0
    simp only [h3, if_false] at h
    cases h4 : env.ssh_init with
    | none =>
      rw [h4] at h
      simp only [Option.some.injEq] at h
      subst h; exact hs
    | some ssh =>
      rw [h4] at h
      simp only [] at h
      cases h5 : handshake_loop env.handshake with
      | none => rw [h5] at h; cases h
      | some p =>
        obtain ⟨rc, waits⟩ := p
        rw [h5] at h
        simp only [] at h
        by_cases h6 : rc = 0
        swap
        · simp only [ne_eq, h6, not_false_eq_true, if_true, Option.some.injEq] at h
          subst h; exact hs
        simp only [ne_eq, h6, not_true_eq_false, if_false] at h
        by_cases h7 : (authenticate c env).1 = 0
        swap
        · simp only [h7, not_false_eq_true, if_true, Option.some.injEq] at h
          subst h; exact hs
        simp only [h7, not_true_eq_false, if_false] at h
        cases h8 : env.sftp_init with
        | none =>
          rw [h8] at h
          simp only [Option.some.injEq] at h
          subst h; exact hs
        | some sftp =>
          rw [h8] at h
          simp only [Option.some.injEq] at h
          subst h; exact hs

/-- C8. For every non-null session (its `sock` is 0 or a descriptor, never negative:
the field is written only with 0 and with a result of `socket()` that passed the test
`sock < 0`), `sftp_connection_disconnect` releases in the order SFTP handle, then SSH
handle (disconnect notice, then free), then socket, skipping each one that is already
null / zero, and afterwards the profile state (if a profile is attached) is
CONN_DISCONNECTED, active is FALSE, both handles are null and `sock` is 0. -/
theorem disconnect_releases_in_order (s : SFTPSession) (h : 0 ≤ s.sock) :
    ∃ s', sftp_connection_disconnect (some s) = ⟨some s', release_order s⟩ ∧
      profile_state s' = s.config.map (fun _ => ConnectionState.CONN_DISCONNECTED) ∧
      s'.active = false ∧ s'.ssh_session = none ∧ s'.sftp_session = none ∧
      s'.sock = 0 := by
  obtain ⟨config, ssh, sftp, sock, active⟩ := s
  simp only at h
  by_cases hsock : 0 < sock
  · have hne : sock ≠ 0 := by omega
    cases config <;> cases ssh <;> cases sftp <;>
      simp [sftp_connection_disconnect, release_order, profile_state, hsock, hne]
  · have h0 : sock = 0 := by omega
    subst h0
    cases config <;> cases ssh <;> cases sftp <;>
      simp [sftp_connection_disconnect, release_order, profile_state]

/-- Witness for C8: the connected session on socket 5. -/
theorem disconnect_releases_in_order_witness :
    0 ≤ connected_session.sock ∧
    ∃ s', sftp_connection_disconnect (some connected_session) =
        ⟨some s', release_order connected_session⟩ ∧
      profile_state s' =
        connected_session.config.map (fun _ => ConnectionState.CONN_DISCONNECTED) ∧
      s'.active = false ∧ s'.ssh_session = none ∧ s'.sftp_session = none ∧
      s'.sock = 0 :=
  ⟨by decide, disconnect_releases_in_order connected_session (by decide)⟩

/-- C9. Called with a null session, a session whose active flag is FALSE, or a session
whose SFTP handle is null, `sftp_upload_file` and `sftp_download_file` return FALSE
having made no call at all (no local open, no remote open or create) and leave the
attached task as it was (`total_size` and `transferred` unchanged). -/
theorem transfer_requires_connection (session : Option SFTPSession)
    (op : Option FileOperation) (uenv : UploadEnv) (denv : DownloadEnv) (fuel : Nat)
    (h : session = none ∨
      ∃ s, session = some s ∧ (s.active = false ∨ s.sftp_session = none)) :
    sftp_upload_file session op uenv fuel = some ⟨false, op, []⟩ ∧
    sftp_download_file session op denv fuel = some ⟨false, op, []⟩ := by
  have hn : not_connected session = true := by
    rcases h with rfl | ⟨s, rfl, h | h⟩
    · rfl
    · simp [not_connected, h]
    · simp [not_connected, h]
  simp [sftp_upload_file, sftp_download_file, hn]

/-- Witness for C9: a session whose active flag has been cleared, task at 7 of 10 bytes. -/
theorem transfer_requires_connection_witness :
    sftp_upload_file (some { connected_session with active := false }) (some ⟨10, 7⟩)
        (slow_upload [1, 2, 3]) 0 = some ⟨false, some ⟨10, 7⟩, []⟩ ∧
    sftp_download_file (some { connected_session with active := false }) (some ⟨10, 7⟩)
        (failing_download [1, 2, 3]) 0 = some ⟨false, some ⟨10, 7⟩, []⟩ :=
  transfer_requires_connection (some { connected_session with active := false })
    (some ⟨10, 7⟩) (slow_upload [1, 2, 3]) (failing_download [1, 2, 3]) 0
    (Or.inr ⟨_, rfl, Or.inl rfl⟩)

theorem accepted_total_append (a b : List XferEvent) :
    accepted_total (a ++ b) = accepted_total a + accepted_total b := by
  induction a with
  | nil => simp [accepted_total]
  | cons e a ih => cases e <;> simp [accepted_total, ih, Nat.add_assoc]

/-- Reading the flag keeps the books balanced. -/
theorem check_cancelled_accounted (cancelled : Nat → Bool) (st : XferState)
    (remaining total : Nat) (h : accounted st remaining total) :
    accounted (check_cancelled cancelled st).2 remaining total := by
  rcases check_cancelled_cases cancelled st with ⟨-, hc⟩ | ⟨o, ho, hc⟩
  · rw [hc]; exact h
  · rw [hc]
    refine ⟨fun o' ho' => h.1 o' ho', ?_⟩
    intro t ht
    simp only [check_values_append, check_values, List.mem_append, List.mem_singleton] at ht
    rcases ht with ht | ht
    · exact h.2 t ht
    · subst ht
      have := (h.1 o ho).2
      omega

/-- The write loop keeps the books balanced. -/
theorem upload_chunk_accounted (env : UploadEnv) (buf : List Byte) (total : Nat)
    (hb : ∀ i n, 0 < n → env.write_rc i n ≤ n) :
    ∀ (fuel written : Nat) (st : XferState) (e : LoopExit) (after : Nat),
      written ≤ buf.length → accounted st (buf.length - written + after) total →
      upload_chunk env buf fuel written st = some e →
      match e with
      | .done st' => accounted st' after total
      | .returned r => result_within_total r total := by
  intro fuel
  induction fuel with
  | zero => intro written st e after _ _ h; simp [upload_chunk] at h
  | succ fuel ih =>
    intro written st e after hw hacc h
    rw [upload_chunk_succ] at h
    have hacc1 := check_cancelled_accounted env.cancelled st _ _ hacc
    by_cases hlt : written < buf.length
    · simp only [hlt, if_true] at h
      by_cases hflag : (check_cancelled env.cancelled st).1 = true
      · simp only [hflag, if_true, Option.some.injEq] at h
        subst h
        refine ⟨fun o ho => ?_, fun t ht => ?_⟩
        · have := hacc1.1 o ho
          exact ⟨this.1, by omega⟩
        · apply hacc1.2 t
          simpa [abort, check_values_append, check_values] using ht
      simp only [hflag, Bool.false_eq_true, if_false] at h
      generalize hrc : env.write_rc (check_cancelled env.cancelled st).2.calls
        (buf.length - written) = rc at h
      have hle : rc ≤ ((buf.length - written : Nat) : Int) := by
        rw [← hrc]; exact hb _ _ (by omega)
      by_cases hneg : rc < 0
      · simp only [hneg, if_true, Option.some.injEq] at h
        subst h
        refine ⟨fun o ho => ?_, fun t ht => ?_⟩
        · have := hacc1.1 o ho
          exact ⟨this.1, by omega⟩
        · apply hacc1.2 t
          simpa [abort, log_remote_write, check_values_append, check_values] using ht
      simp only [hneg, if_false] at h
      refine ih _ _ e after (by omega) ?_ h
      refine ⟨fun o ho => ?_, fun t ht => ?_⟩
      · simp only [progress, log_remote_write, add_transferred] at ho
        cases hop : (check_cancelled env.cancelled st).2.op with
        | none => simp [hop] at ho
        | some o0 =>
          simp only [hop, Option.map_some', Option.some.injEq] at ho
          subst ho
          have := hacc1.1 o0 hop
          refine ⟨this.1, ?_⟩
          simp only
          omega
      · apply hacc1.2 t
        simpa [progress, log_remote_write, check_values_append, check_values] using ht
    · simp only [hlt, if_false, Option.some.injEq] at h
      subst h
      have : buf.length - written = 0 := by omega
      rw [this, Nat.zero_add] at hacc
      exact hacc

/-- The upload loop keeps the books balanced, and a TRUE return leaves nothing to
transfer. -/
theorem upload_loop_accounted (env : UploadEnv) (total : Nat)
    (hb : ∀ i n, 0 < n → env.write_rc i n ≤ n) :
    ∀ (fuel : Nat) (rest : List Byte) (st : XferState) (r : XferResult),
      accounted st rest.length total → upload_loop env fuel rest st = some r →
      result_within_total r total ∧
      (r.ret = true → ∀ o, r.op = some o → o.transferred = total) := by
  intro fuel
  induction fuel with
  | zero => intro rest st r _ h; simp [upload_loop] at h
  | succ fuel ih =>
    intro rest st r hacc h
    rw [upload_loop_succ] at h
    by_cases hne : 0 < (rest.take BUF_SIZE).length
    · simp only [hne, if_true] at h
      have hsplit : (rest.take BUF_SIZE).length - 0 + (rest.drop BUF_SIZE).length =
          rest.length := by
        have := congrArg List.length (List.take_append_drop BUF_SIZE rest)
        simp only [List.length_append] at this
        omega
      cases hch : upload_chunk env (rest.take BUF_SIZE) fuel 0 st with
      | none => simp [hch] at h
      | some e =>
        have := upload_chunk_accounted env _ total hb fuel 0 st e
          (rest.drop BUF_SIZE).length (Nat.zero_le _) (by rw [hsplit]; exact hacc) hch
        cases e with
        | returned r' =>
          simp only [hch, Option.some.injEq] at h
          subst h
          refine ⟨this, fun hret => ?_⟩
          have := upload_chunk_returned_ret _ _ _ _ _ _ hch
          rw [this] at hret; cases hret
        | done st' =>
          simp only [hch] at h
          exact ih _ _ _ this h
    · simp only [hne, if_false, Option.some.injEq] at h
      subst h
      have hnil : rest = [] := by
        cases rest with
        | nil => rfl
        | cons a l => simp [BUF_SIZE] at hne
      subst hnil
      refine ⟨⟨fun o ho => ?_, fun t ht => ?_⟩, fun _ o ho => ?_⟩
      · have := hacc.1 o ho
        exact ⟨this.1, by simp at this; omega⟩
      · apply hacc.2 t
        simpa [check_values_append, check_values] using ht
      · have := hacc.1 o ho
        simpa using this.2

/-- Reading the flag accepts no byte. -/
theorem check_cancelled_accepted_total (cancelled : Nat → Bool) (st : XferState) :
    accepted_total (check_cancelled cancelled st).2.events = accepted_total st.events := by
  rcases check_cancelled_cases cancelled st with ⟨-, h⟩ | ⟨o, -, h⟩ <;>
    simp [h, accepted_total_append, accepted_total]

/-- The write loop keeps `transferred` equal to the sum of the accepted byte counts. -/
theorem upload_chunk_counts (env : UploadEnv) (buf : List Byte) :
    ∀ (fuel written : Nat) (st : XferState) (e : LoopExit),
      (∀ o, st.op = some o → o.transferred = accepted_total st.events) →
      upload_chunk env buf fuel written st = some e →
      match e with
      | .done st' => ∀ o, st'.op = some o → o.transferred = accepted_total st'.events
      | .returned r => ∀ o, r.op = some o → o.transferred = accepted_total r.events := by
  intro fuel
  induction fuel with
  | zero => intro written st e _ h; simp [upload_chunk] at h
  | succ fuel ih =>
    intro written st e hinv h
    rw [upload_chunk_succ] at h
    have hinv1 : ∀ o, (check_cancelled env.cancelled st).2.op = some o →
        o.transferred = accepted_total (check_cancelled env.cancelled st).2.events := by
      intro o ho
      rw [check_cancelled_op] at ho
      rw [check_cancelled_accepted_total]
      exact hinv o ho
    by_cases hlt : written < buf.length
    · simp only [hlt, if_true] at h
      by_cases hflag : (check_cancelled env.cancelled st).1 = true
      · simp only [hflag, if_true, Option.some.injEq] at h
        subst h
        intro o ho
        simpa [abort, accepted_total_append, accepted_total] using hinv1 o ho
      simp only [hflag, Bool.false_eq_true, if_false] at h
      generalize hrc : env.write_rc (check_cancelled env.cancelled st).2.calls
        (buf.length - written) = rc at h
      by_cases hneg : rc < 0
      · simp only [hneg, if_true, Option.some.injEq] at h
        subst h
        intro o ho
        have h0 : rc.toNat = 0 := by omega
        simpa [abort, log_remote_write, accepted_total_append, accepted_total, h0]
          using hinv1 o ho
      simp only [hneg, if_false] at h
      refine ih _ _ e ?_ h
      intro o ho
      simp only [progress, log_remote_write, add_transferred] at ho
      cases hop : (check_cancelled env.cancelled st).2.op with
      | none => simp [hop] at ho
      | some o0 =>
        simp only [hop, Option.map_some', Option.some.injEq] at ho
        subst ho
        have := hinv1 o0 hop
        simp [progress, log_remote_write, accepted_total_append, accepted_total, this]
    · simp only [hlt, if_false, Option.some.injEq] at h
      subst h
      exact hinv

/-- The upload loop keeps `transferred` equal to the sum of the accepted byte counts. -/
theorem upload_loop_counts (env : UploadEnv) :
    ∀ (fuel : Nat) (rest : List Byte) (st : XferState) (r : XferResult),
      (∀ o, st.op = some o → o.transferred = accepted_total st.events) →
      upload_loop env fuel rest st = some r →
      ∀ o, r.op = some o → o.transferred = accepted_total r.events := by
  intro fuel
  induction fuel with
  | zero => intro rest st r _ h; simp [upload_loop] at h
  | succ fuel ih =>
    intro rest st r hinv h
    rw [upload_loop_succ] at h
    by_cases hne : 0 < (rest.take BUF_SIZE).length
    · simp only [hne, if_true] at h
      cases hch : upload_chunk env (rest.take BUF_SIZE) fuel 0 st with
      | none => simp [hch] at h
      | some e =>
        have := upload_chunk_counts env _ fuel 0 st e hinv hch
        cases e with
        | returned r' =>
          simp only [hch, Option.some.injEq] at h
          subst h
          exact this
        | done st' =>
          simp only [hch] at h
          exact ih _ _ _ this h
    · simp only [hne, if_false, Option.some.injEq] at h
      subst h
      intro o ho
      simpa [accepted_total_append, accepted_total] using hinv o ho

/-- The download loop keeps the books balanced. -/
theorem download_loop_accounted (env : DownloadEnv) (content : List Byte) (total : Nat) :
    ∀ (fuel off writes : Nat) (st : XferState) (r : XferResult),
      off ≤ content.length → accounted st (content.length - off) total →
      download_loop env content fuel off writes st = some r →
      result_within_total r total := by
  intro fuel
  induction fuel with
  | zero => intro off writes st r _ _ h; simp [download_loop] at h
  | succ fuel ih =>
    intro off writes st r hoff hacc h
    rw [download_loop_succ] at h
    simp only [] at h
    have hspec := sftp_read_positive content off (env.read_choice st.calls)
    generalize sftp_read content off (env.read_choice st.calls) = rd at hspec h
    have hacc1 : accounted (log_remote_read st rd.1 rd.2) (content.length - off) total := by
      refine ⟨fun o ho => hacc.1 o ho, fun t ht => ?_⟩
      apply hacc.2 t
      simpa [log_remote_read, check_values_append, check_values] using ht
    have hacc2 := check_cancelled_accounted env.cancelled _ _ _ hacc1
    by_cases hpos : 0 < rd.1
    · obtain ⟨h1, h2, h3, h4⟩ := hspec hpos
      simp only [hpos, if_true] at h
      by_cases hflag :
          (check_cancelled env.cancelled (log_remote_read st rd.1 rd.2)).1 = true
      · simp only [hflag, if_true, Option.some.injEq] at h
        subst h
        refine ⟨fun o ho => ?_, fun t ht => ?_⟩
        · have := hacc2.1 o ho
          exact ⟨this.1, by omega⟩
        · apply hacc2.2 t
          simpa [abort, check_values_append, check_values] using ht
      simp only [hflag, Bool.false_eq_true, if_false] at h
      by_cases hw : env.fwrite_ret writes rd.1.toNat = rd.1.toNat
      · simp only [hw, ne_eq, not_true_eq_false, if_false] at h
        refine ih _ _ _ r (by omega) ?_ h
        refine ⟨fun o ho => ?_, fun t ht => ?_⟩
        · simp only [progress, log_local_write, add_transferred] at ho
          cases hop : (check_cancelled env.cancelled (log_remote_read st rd.1 rd.2)).2.op with
          | none => simp [hop] at ho
          | some o0 =>
            simp only [hop, Option.map_some', Option.some.injEq] at ho
            subst ho
            have := hacc2.1 o0 hop
            refine ⟨this.1, ?_⟩
            simp only
            omega
        · apply hacc2.2 t
          simpa [progress, log_local_write, check_values_append, check_values] using ht
      · simp only [ne_eq, hw, not_false_eq_true, if_true, Option.some.injEq] at h
        subst h
        refine ⟨fun o ho => ?_, fun t ht => ?_⟩
        · have := hacc2.1 o ho
          exact ⟨this.1, by omega⟩
        · apply hacc2.2 t
          simpa [abort, log_local_write, check_values_append, check_values] using ht
    · simp only [hpos, if_false, Option.some.injEq] at h
      subst h
      refine ⟨fun o ho => ?_, fun t ht => ?_⟩
      · have := hacc1.1 o ho
        exact ⟨this.1, by omega⟩
      · apply hacc1.2 t
        simpa [check_values_append, check_values] using ht

/-- The write loop leaves the task pointer null or non-null as it was. -/
theorem upload_chunk_op_isSome (env : UploadEnv) (buf : List Byte) :
    ∀ (fuel written : Nat) (st : XferState) (e : LoopExit),
      upload_chunk env buf fuel written st = some e →
      match e with
      | .done st' => st'.op.isSome = st.op.isSome
      | .returned r => r.op.isSome = st.op.isSome := by
  intro fuel
  induction fuel with
  | zero => intro written st e h; simp [upload_chunk] at h
  | succ fuel ih =>
    intro written st e h
    rw [upload_chunk_succ] at h
    by_cases hlt : written < buf.length
    · simp only [hlt, if_true] at h
      by_cases hflag : (check_cancelled env.cancelled st).1 = true
      · simp only [hflag, if_true, Option.some.injEq] at h
        subst h
        simp [abort, check_cancelled_op]
      simp only [hflag, Bool.false_eq_true, if_false] at h
      by_cases hneg : env.write_rc (check_cancelled env.cancelled st).2.calls
          (buf.length - written) < 0
      · simp only [hneg, if_true, Option.some.injEq] at h
        subst h
        simp [abort, log_remote_write, check_cancelled_op]
      simp only [hneg, if_false] at h
      have := ih _ _ e h
      cases e <;>
        simpa [progress, log_remote_write, add_transferred, check_cancelled_op] using this
    · simp only [hlt, if_false, Option.some.injEq] at h
      subst h
      rfl

/-- The upload loop leaves the task pointer null or non-null as it was. -/
theorem upload_loop_op_isSome (env : UploadEnv) :
    ∀ (fuel : Nat) (rest : List Byte) (st : XferState) (r : XferResult),
      upload_loop env fuel rest st = some r → r.op.isSome = st.op.isSome := by
  intro fuel
  induction fuel with
  | zero => intro rest st r h; simp [upload_loop] at h
  | succ fuel ih =>
    intro rest st r h
    rw [upload_loop_succ] at h
    by_cases hne : 0 < (rest.take BUF_SIZE).length
    · simp only [hne, if_true] at h
      cases hch : upload_chunk env (rest.take BUF_SIZE) fuel 0 st with
      | none => simp [hch] at h
      | some e =>
        have := upload_chunk_op_isSome env _ fuel 0 st e hch
        cases e with
        | returned r' =>
          simp only [hch, Option.some.injEq] at h
          subst h
          exact this
        | done st' =>
          simp only [hch] at h
          rw [ih _ _ _ h]
          exact this
    · simp only [hne, if_false, Option.some.injEq] at h
      subst h
      rfl

/-- An upload that got past the guard with a task attached and the local file open:
what it calls after the two opens, seen from the loop. -/
theorem upload_started (session : Option SFTPSession) (op : FileOperation)
    (env : UploadEnv) (content : List Byte) (fuel : Nat) (r : XferResult)
    (hconn : not_connected session = false) (hfile : env.local_file = some content)
    (h : sftp_upload_file session (some op) env fuel = some r) :
    (env.remote_open_ok = false ∧
      r = ⟨false, some { op with total_size := content.length, transferred := 0 },
        [.local_open false true, .remote_open true false, .local_close]⟩) ∨
    (env.remote_open_ok = true ∧
      upload_loop env fuel content
        ⟨some { op with total_size := content.length, transferred := 0 },
          [.local_open false true, .remote_open true true], 0, 0⟩ = some r) := by
  unfold sftp_upload_file at h
  simp only [hconn, Bool.false_eq_true, if_false, hfile] at h
  by_cases ho : env.remote_open_ok = true
  · right
    simp only [ho, Bool.not_true, Bool.false_eq_true, if_false] at h
    exact ⟨ho, by simpa using h⟩
  · have ho' : env.remote_open_ok = false := by simpa using ho
    left
    simp only [ho', Bool.not_false, if_true, Option.some.injEq] at h
    exact ⟨ho', by rw [← h]; rfl⟩

/-- A download that got past the guard with a task attached, the remote file open and
its size known: what it calls after the opens, seen from the loop. -/
theorem download_started (session : Option SFTPSession) (op : FileOperation)
    (env : DownloadEnv) (content : List Byte) (size fuel : Nat) (r : XferResult)
    (hconn : not_connected session = false) (hfile : env.remote_file = some content)
    (hstat : env.stat_size = some size)
    (h : sftp_download_file session (some op) env fuel = some r) :
    (env.local_open_ok = false ∧
      r = ⟨false, some { op with total_size := size, transferred := 0 },
        [.remote_open false true, .remote_stat true, .local_open true false,
         .remote_close]⟩) ∨
    (env.local_open_ok = true ∧
      download_loop env content fuel 0 0
        ⟨some { op with total_size := size, transferred := 0 },
          [.remote_open false true, .remote_stat true, .local_open true true], 0, 0⟩ =
        some r) := by
  unfold sftp_download_file at h
  simp only [hconn, Bool.false_eq_true, if_false, hfile, hstat] at h
  by_cases ho : env.local_open_ok = true
  · right
    simp only [ho, Bool.not_true, Bool.false_eq_true, if_false] at h
    exact ⟨ho, by simpa using h⟩
  · have ho' : env.local_open_ok = false := by simpa using ho
    left
    simp only [ho', Bool.not_false, if_true, Option.some.injEq] at h
    exact ⟨ho', by rw [← h]; rfl⟩

/-! ## Lemmas on the sync reconciler -/

/-- What `sync_auto_sync` does once a session exists and both stats succeeded. -/
theorem sync_auto_sync_cases (plugin_data : SFTPPluginData) (env : SyncEnv)
    (session : SFTPSession) (tl tr : Int)
    (hs : current_session plugin_data = some session)
    (hl : env.local_mtime = some tl) (hr : env.remote_mtime = some tr) :
    (tl < tr → sync_auto_sync plugin_data env =
      ⟨env.download_ret, [.stat_local true, .stat_remote true,
        .download session env.download_ret, .msgbox (!env.download_ret)]⟩) ∧
    (tr < tl → sync_auto_sync plugin_data env =
      ⟨env.upload_ret, [.stat_local true, .stat_remote true,
        .upload session env.upload_ret, .msgbox (!env.upload_ret)]⟩) ∧
    (tl = tr → sync_auto_sync plugin_data env =
      ⟨true, [.stat_local true, .stat_remote true]⟩) := by
  unfold sync_auto_sync
  simp only [hs, hl, hr, compare_file_time]
  refine ⟨fun hlt => ?_, fun hgt => ?_, fun heq => ?_⟩
  · cases hd : env.download_ret <;> simp [hlt, sync_download_file, hs, hd]
  · have h1 : ¬ tl < tr := by omega
    cases hu : env.upload_ret <;> simp [hgt, h1, sync_upload_file, hs, hu]
  · subst heq
    simp

/-! ## Lemmas on the directory listing -/

theorem store_insert_perm (compare : FileRow → FileRow → Int) (row : FileRow) :
    ∀ rows : List FileRow, (store_insert compare row rows).Perm (rows ++ [row]) := by
  intro rows
  induction rows with
  | nil => exact List.Perm.refl _
  | cons r rest ih =>
    unfold store_insert
    split
    · exact (List.perm_append_comm : ([row] ++ (r :: rest)).Perm ((r :: rest) ++ [row]))
    · exact List.Perm.cons r ih

theorem store_insert_mem (compare : FileRow → FileRow → Int) (row x : FileRow)
    (rows : List FileRow) : x ∈ store_insert compare row rows ↔ x = row ∨ x ∈ rows := by
  rw [(store_insert_perm compare row rows).mem_iff]
  simp only [List.mem_append, List.mem_singleton]
  exact or_comm

/-- A row placed in a sorted store leaves the store sorted. -/
theorem store_insert_sorted (compare : FileRow → FileRow → Int)
    (hc : compare_consistent compare) (row : FileRow) :
    ∀ rows : List FileRow, rows_sorted compare rows →
      rows_sorted compare (store_insert compare row rows) := by
  intro rows
  induction rows with
  | nil => intro _; exact List.pairwise_singleton _ _
  | cons r rest ih =>
    intro h
    have hr := List.pairwise_cons.mp h
    unfold store_insert
    by_cases hlt : compare row r < 0
    · rw [if_pos hlt]
      refine List.pairwise_cons.mpr ⟨?_, h⟩
      intro x hx
      rcases List.mem_cons.mp hx with hx | hx
      · rw [hx]; omega
      · exact hc.2 row r x (by omega) (hr.1 x hx)
    · rw [if_neg hlt]
      refine List.pairwise_cons.mpr ⟨?_, ih hr.2⟩
      intro x hx
      rcases (store_insert_mem compare row x rest).mp hx with hx | hx
      · rw [hx]
        by_contra hgt
        have h5 : 0 < compare r row := by omega
        exact hlt ((hc.1 row r).mpr h5)
      · exact hr.1 x hx

/-- The read loop adds to the store the rows of the listed entries, and nothing else. -/
theorem read_entries_perm (show_hidden_files : Bool) (format_time : Nat → String) :
    ∀ (answers : List ReaddirAnswer) (store : FileStore),
      (∀ a ∈ answers, 0 < a.rc) →
      (read_entries show_hidden_files format_time answers store).rows.Perm
        (store.rows ++
          (answers.filter (listed show_hidden_files)).map (file_row format_time)) := by
  intro answers
  induction answers with
  | nil => intro store _; simp [read_entries]
  | cons a rest ih =>
    intro store h
    have ha : 0 < a.rc := h a (List.mem_cons_self _ _)
    have hrest : ∀ b ∈ rest, 0 < b.rc := fun b hb => h b (List.mem_cons_of_mem _ hb)
    have hadd : (read_entries show_hidden_files format_time rest
        (store_append_set store (file_row format_time a))).rows.Perm
        (store.rows ++ file_row format_time a ::
          (rest.filter (listed show_hidden_files)).map (file_row format_time)) := by
      refine (ih _ hrest).trans ?_
      have h1 := store_insert_perm (store_compare store) (file_row format_time a) store.rows
      have h2 := h1.append_right
        ((rest.filter (listed show_hidden_files)).map (file_row format_time))
      simpa [store_append_set] using h2
    simp only [read_entries, ha, if_true]
    by_cases h1 : a.filename = "."
    · simpa [h1, listed] using ih store hrest
    by_cases h2 : a.filename = ".."
    · simpa [h2, listed] using ih store hrest
    by_cases h3 : a.filename.data.head? = some '.'
    · cases show_hidden_files
      · simpa [h1, h2, h3, listed, List.filter_cons, String.toList] using ih store hrest
      · simpa [h1, h2, h3, listed, List.filter_cons, String.toList] using hadd
    · simpa [h1, h2, h3, listed, List.filter_cons, String.toList] using hadd

/-- The read loop keeps the sort setting of the store. -/
theorem read_entries_setting (show_hidden_files : Bool) (format_time : Nat → String) :
    ∀ (answers : List ReaddirAnswer) (store : FileStore),
      store_compare (read_entries show_hidden_files format_time answers store) =
        store_compare store := by
  intro answers
  induction answers with
  | nil => intro store; rfl
  | cons a rest ih =>
    intro store
    unfold read_entries
    split
    · split
      · exact ih store
      · split
        · exact ih store
        · rw [ih]; rfl
    · rfl

/-- The read loop keeps a sorted store sorted. -/
theorem read_entries_sorted (show_hidden_files : Bool) (format_time : Nat → String) :
    ∀ (answers : List ReaddirAnswer) (store : FileStore),
      compare_consistent (store_compare store) →
      rows_sorted (store_compare store) store.rows →
      rows_sorted (store_compare store)
        (read_entries show_hidden_files format_time answers store).rows := by
  intro answers
  induction answers with
  | nil => intro store _ h; exact h
  | cons a rest ih =>
    intro store hc h
    unfold read_entries
    split
    · split
      · exact ih store hc h
      · split
        · exact ih store hc h
        · have hsame : store_compare (store_append_set store (file_row format_time a)) =
              store_compare store := rfl
          have := ih (store_append_set store (file_row format_time a))
            (by rw [hsame]; exact hc)
            (by rw [hsame]; exact store_insert_sorted _ hc _ _ h)
          rw [hsame] at this
          exact this
    · exact h

theorem compare_bytes_swap : ∀ a b : List Char, compare_bytes b a = - compare_bytes a b := by
  intro a
  induction a with
  | nil => intro b; cases b <;> rfl
  | cons x xs ih =>
    intro b
    cases b with
    | nil => rfl
    | cons y ys =>
      unfold compare_bytes
      by_cases h1 : x.toNat < y.toNat
      · have h2 : ¬ y.toNat < x.toNat := by omega
        simp only [h1, h2, if_true, if_false]
        rfl
      · by_cases h2 : y.toNat < x.toNat
        · simp only [h1, h2, if_true, if_false, neg_neg]
        · simp only [h1, h2, if_false]
          exact ih ys

theorem compare_bytes_trans : ∀ a b c : List Char,
    compare_bytes a b ≤ 0 → compare_bytes b c ≤ 0 → compare_bytes a c ≤ 0 := by
  intro a
  induction a with
  | nil => intro b c _ _; cases c <;> simp [compare_bytes]
  | cons x xs ih =>
    intro b c hab hbc
    cases b with
    | nil => simp [compare_bytes] at hab
    | cons y ys =>
      cases c with
      | nil => simp [compare_bytes] at hbc
      | cons z zs =>
        unfold compare_bytes at hab hbc ⊢
        by_cases h1 : x.toNat < y.toNat
        · by_cases h3 : y.toNat < z.toNat
          · have : x.toNat < z.toNat := by omega
            simp only [this, if_true]; omega
          · by_cases h4 : z.toNat < y.toNat
            · simp only [h3, h4, if_true, if_false] at hbc; omega
            · have : x.toNat < z.toNat := by omega
              simp only [this, if_true]; omega
        · by_cases h2 : y.toNat < x.toNat
          · simp only [h1, h2, if_true, if_false] at hab; omega
          · simp only [h1, h2, if_false] at hab
            by_cases h3 : y.toNat < z.toNat
            · have : x.toNat < z.toNat := by omega
              simp only [this, if_true]; omega
            · by_cases h4 : z.toNat < y.toNat
              · simp only [h3, h4, if_true, if_false] at hbc; omega
              · simp only [h3, h4, if_false] at hbc
                have h5 : ¬ x.toNat < z.toNat := by omega
                have h6 : ¬ z.toNat < x.toNat := by omega
                simp only [h5, h6, if_false]
                exact ih ys zs hab hbc

/-- A store sorted by name with the collation of the C locale compares consistently. -/
theorem c_locale_store_consistent :
    compare_consistent (store_compare (new_file_store c_locale_collate)) := by
  constructor
  · intro a b
    show compare_bytes a.name.toList b.name.toList < 0 ↔
      0 < compare_bytes b.name.toList a.name.toList
    rw [compare_bytes_swap a.name.toList b.name.toList]
    omega
  · intro a b c h1 h2
    exact compare_bytes_trans _ _ _ h1 h2

/-! ## Lemmas on the async transfer scheduler -/

/-- A path shorter than the buffer is copied whole. -/
theorem g_strlcpy_short (src : String) (size : Nat) (h : src.length < size) :
    g_strlcpy src size = src := by
  unfold g_strlcpy
  have hlen : src.toList.length ≤ size - 1 := by
    have : src.toList.length = src.length := rfl
    omega
  rw [List.take_of_length_le hlen]
  rfl

/-- A path that fills the buffer or more loses its tail. -/
theorem g_strlcpy_long (src : String) (size : Nat) (h : size ≤ src.length) (hs : 0 < size) :
    (g_strlcpy src size).length = size - 1 := by
  unfold g_strlcpy
  have hl : src.toList.length = src.length := rfl
  show (src.toList.take (size - 1)).length = size - 1
  rw [List.length_take]
  omega

/-- The calls of a whole asynchronous transfer, for whatever paths the task holds. -/
theorem run_transfer_async_events (session : SFTPSession) (local_path remote_path : String)
    (is_upload : Bool) (callback : Option Nat) (user_data : Nat) (ret : Bool)
    (rounds : Nat) (hr : 0 < rounds) :
    ∃ task, run_transfer_async session local_path remote_path is_upload callback user_data
        ret rounds =
      (task,
        [.mutex_lock,
          expected_transfer session (g_strlcpy local_path MAX_PATH_LEN)
            (g_strlcpy remote_path MAX_PATH_LEN) is_upload ret,
          .mutex_unlock, .set_completed, .idle_add] ++
        expected_callback task ret user_data callback) ∧
      task.completed = true ∧ task.success = ret := by
  obtain ⟨n, rfl⟩ : ∃ n, rounds = n + 1 := ⟨rounds - 1, by omega⟩
  cases is_upload <;> cases callback <;>
    simp [run_transfer_async, transfer_async, transfer_thread_func, transfer_complete_idle,
      dispatch_idle, expected_transfer, expected_callback]

/-! ## Lemmas on the file comparison -/

theorem verdicts_append (a b : List CompareEvent) :
    verdicts (a ++ b) = verdicts a ++ verdicts b := by
  induction a with
  | nil => rfl
  | cons e a ih => cases e <;> simp [verdicts, ih]

/-- The tool loop shows no verdict, and fails exactly when it finds no tool or the tool
it finds exits with a non-zero status. -/
theorem run_external_diff_from_spec (env : CompareEnv) :
    ∀ tools : List String,
      verdicts (run_external_diff_from env tools).events = [] ∧
      ((run_external_diff_from env tools).ret = false ↔
        match tools.find? (fun tool => decide (env.which_status tool = 0)) with
        | none => True
        | some tool => env.tool_status tool ≠ 0) := by
  intro tools
  induction tools with
  | nil => simp [run_external_diff_from, verdicts]
  | cons tool rest ih =>
    by_cases hw : env.which_status tool = 0
    · simp [run_external_diff_from, hw, verdicts, List.find?]
    · simp only [run_external_diff_from, hw, if_false, verdicts, List.find?,
        decide_False]
      exact ih

theorem download_remote_file_verdicts (env : CompareEnv) :
    verdicts (download_remote_file env).events = [] := by
  unfold download_remote_file
  split
  · rfl
  · split
    · rfl
    · split <;> rfl

/-! ## Lemmas on worker threads sharing one session -/

theorem workers_set_get (l : List Worker) (i j : Nat) (w w' : Worker)
    (h : l[i]? = some w) :
    (l.set i w')[j]? = if j = i then some w' else l[j]? := by
  have hi : i < l.length := by
    rcases Nat.lt_or_ge i l.length with h1 | h1
    · exact h1
    · rw [List.getElem?_eq_none h1] at h; cases h
  by_cases hj : j = i
  · subst hj
    simp [hi]
  · have hne : i ≠ j := fun e => hj e.symm
    simp [hj, List.getElem?_set_ne hne]

theorem workers_set_self (l : List Worker) (i : Nat) (w w' : Worker)
    (h : l[i]? = some w) : (l.set i w')[i]? = some w' := by
  rw [workers_set_get l i i w w' h, if_pos rfl]

theorem start_pool_invariant (tasks : List AsyncOperation) :
    lock_invariant (start_pool tasks) := by
  constructor
  · rintro i ⟨w, hw, hpc⟩
    simp only [start_pool, List.getElem?_map] at hw
    cases ht : tasks[i]? with
    | none => rw [ht] at hw; cases hw
    | some op =>
      rw [ht] at hw
      simp only [Option.map_some', Option.some.injEq] at hw
      subst hw
      rcases hpc with hpc | hpc <;> cases hpc
  · intro i h
    cases h

theorem worker_step_invariant (st : PoolState) (i : Nat) (ret : Bool)
    (h : lock_invariant st) : lock_invariant (worker_step st i ret) := by
  obtain ⟨h1, h2⟩ := h
  unfold worker_step
  cases hw : st.workers[i]? with
  | none => exact ⟨h1, h2⟩
  | some w =>
    simp only []
    cases hpc : w.pc with
    | at_lock =>
      simp only []
      cases hl : st.lock with
      | some k => exact ⟨h1, h2⟩
      | none =>
        simp only []
        constructor
        · rintro j ⟨wj, hwj, hj⟩
          simp only [workers_set_get _ i j w _ hw] at hwj
          by_cases hji : j = i
          · subst hji; rfl
          · simp only [hji, if_false] at hwj
            have := h1 j ⟨wj, hwj, hj⟩
            rw [hl] at this; cases this
        · intro j hj
          simp only [Option.some.injEq] at hj
          subst hj
          exact ⟨_, workers_set_self _ i w _ hw, Or.inl rfl⟩
    | in_transfer =>
      simp only []
      have hli : st.lock = some i := h1 i ⟨w, hw, Or.inl hpc⟩
      constructor
      · rintro j ⟨wj, hwj, hj⟩
        simp only [workers_set_get _ i j w _ hw] at hwj
        by_cases hji : j = i
        · subst hji; exact hli
        · simp only [hji, if_false] at hwj
          exact h1 j ⟨wj, hwj, hj⟩
      · intro j hj
        have hji : j = i := by
          simp only [hli, Option.some.injEq] at hj; exact hj.symm
        subst hji
        exact ⟨_, workers_set_self _ j w _ hw, Or.inr rfl⟩
    | at_unlock =>
      simp only []
      have hli : st.lock = some i := h1 i ⟨w, hw, Or.inr hpc⟩
      constructor
      · rintro j ⟨wj, hwj, hj⟩
        simp only [workers_set_get _ i j w _ hw] at hwj
        by_cases hji : j = i
        · subst hji
          simp only [if_true, Option.some.injEq] at hwj
          subst hwj
          rcases hj with hj | hj <;> cases hj
        · simp only [hji, if_false] at hwj
          have := h1 j ⟨wj, hwj, hj⟩
          rw [hli] at this
          exact absurd (Option.some.inj this).symm hji
      · intro j hj
        cases hj
    | at_completed =>
      simp only []
      constructor
      · rintro j ⟨wj, hwj, hj⟩
        simp only [workers_set_get _ i j w _ hw] at hwj
        by_cases hji : j = i
        · subst hji
          simp only [if_true, Option.some.injEq] at hwj
          subst hwj
          rcases hj with hj | hj <;> cases hj
        · simp only [hji, if_false] at hwj
          exact h1 j ⟨wj, hwj, hj⟩
      · intro j hj
        obtain ⟨wj, hwj, hpj⟩ := h2 j hj
        have hji : j ≠ i := by
          rintro rfl
          rw [hw] at hwj
          cases hwj
          rw [hpc] at hpj
          rcases hpj with hpj | hpj <;> cases hpj
        exact ⟨wj, by simp only [workers_set_get _ i j w _ hw, hji, if_false]; exact hwj, hpj⟩
    | at_idle_add =>
      simp only []
      constructor
      · rintro j ⟨wj, hwj, hj⟩
        simp only [workers_set_get _ i j w _ hw] at hwj
        by_cases hji : j = i
        · subst hji
          simp only [if_true, Option.some.injEq] at hwj
          subst hwj
          rcases hj with hj | hj <;> cases hj
        · simp only [hji, if_false] at hwj
          exact h1 j ⟨wj, hwj, hj⟩
      · intro j hj
        obtain ⟨wj, hwj, hpj⟩ := h2 j hj
        have hji : j ≠ i := by
          rintro rfl
          rw [hw] at hwj
          cases hwj
          rw [hpc] at hpj
          rcases hpj with hpj | hpj <;> cases hpj
        exact ⟨wj, by simp only [workers_set_get _ i j w _ hw, hji, if_false]; exact hwj, hpj⟩
    | finished => exact ⟨h1, h2⟩

theorem run_workers_invariant (schedule : List (Nat × Bool)) :
    ∀ st, lock_invariant st → lock_invariant (run_workers st schedule) := by
  induction schedule with
  | nil => intro st h; exact h
  | cons s schedule ih =>
    intro st h
    obtain ⟨i, ret⟩ := s
    exact ih _ (worker_step_invariant st i ret h)

/-- A worker inside its transfer leaves it and releases the lock in its next two steps,
whatever the transfer returns. -/
theorem transfer_return_releases (st : PoolState) (i : Nat) (ret ret2 : Bool)
    (h : transferring st i) :
    (worker_step (worker_step st i ret) i ret2).lock = none := by
  obtain ⟨w, hw, hpc⟩ := h
  have h1 : worker_step st i ret =
      { st with workers :=
          st.workers.set i { op := { w.op with success := ret }, pc := .at_unlock } } := by
    simp only [worker_step, hw, hpc]
  rw [h1]
  simp only [worker_step, workers_set_get _ i i w _ hw, if_true]

/-- A pool in which the lock invariant holds is never stuck: unless every worker has
returned, some worker can take a step that changes the state. -/
theorem worker_can_step (st : PoolState) (h : lock_invariant st) (hf : ¬ all_finished st) :
    ∃ i ret, worker_step st i ret ≠ st := by
  obtain ⟨h1, h2⟩ := h
  have hchange : ∀ (i : Nat) (w w' : Worker) (lock : Option Nat),
      st.workers[i]? = some w → w'.pc ≠ w.pc →
      ({ lock := lock, workers := st.workers.set i w' } : PoolState) ≠ st := by
    intro i w w' lock hw hne heq
    have hws : st.workers.set i w' = st.workers := congrArg PoolState.workers heq
    have := workers_set_get st.workers i i w w' hw
    rw [hws, hw] at this
    simp only [if_true, Option.some.injEq] at this
    exact hne (by rw [this])
  cases hl : st.lock with
  | some j =>
    obtain ⟨w, hw, hpc⟩ := h2 j hl
    refine ⟨j, true, ?_⟩
    rcases hpc with hpc | hpc
    · simp only [worker_step, hw, hpc]
      refine hchange j w _ _ hw ?_
      rw [hpc]; intro hc; cases hc
    · simp only [worker_step, hw, hpc]
      refine hchange j w _ _ hw ?_
      rw [hpc]; intro hc; cases hc
  | none =>
    unfold all_finished at hf
    push_neg at hf
    obtain ⟨i, w, hw, hpc⟩ := hf
    refine ⟨i, true, ?_⟩
    cases hp : w.pc with
    | at_lock =>
      simp only [worker_step, hw, hp, hl]
      intro heq
      have := congrArg PoolState.lock heq
      rw [hl] at this
      cases this
    | in_transfer =>
      have := h1 i ⟨w, hw, Or.inl hp⟩
      rw [hl] at this; cases this
    | at_unlock =>
      have := h1 i ⟨w, hw, Or.inr hp⟩
      rw [hl] at this; cases this
    | at_completed =>
      simp only [worker_step, hw, hp]
      refine hchange i w _ _ hw ?_
      rw [hp]; intro hc; cases hc
    | at_idle_add =>
      simp only [worker_step, hw, hp]
      refine hchange i w _ _ hw ?_
      rw [hp]; intro hc; cases hc
    | finished => exact absurd hp hpc

/-- Three workers interleaved: worker 1 is scheduled first while worker 0 holds the
lock and waits; each worker gets the lock in turn and all three return. -/
theorem three_tasks_interleaved :
    ((run_workers (start_pool three_tasks) [(0, true), (1, true), (1, true)]).workers.map
        fun w => w.pc) = [.in_transfer, .at_lock, .at_lock] ∧
    (run_workers (start_pool three_tasks) [(0, true), (1, true), (1, true)]).lock = some 0 ∧
    ((run_workers (start_pool three_tasks)
        [(0, true), (1, true), (0, false), (2, true), (0, true), (2, true), (0, true),
         (2, false), (1, true), (2, true), (1, true), (0, true), (1, true), (2, true),
         (2, true), (1, true), (1, true), (1, true)]).workers.map
        fun w => (w.pc, w.op.success, w.op.completed)) =
      [(.finished, false, true), (.finished, true, true), (.finished, false, true)] ∧
    (run_workers (start_pool three_tasks)
        [(0, true), (1, true), (0, false), (2, true), (0, true), (2, true), (0, true),
         (2, false), (1, true), (2, true), (1, true), (0, true), (1, true), (2, true),
         (2, true), (1, true), (1, true), (1, true)]).lock = none := by
  decide

/-! ## Lemmas on connection profiles -/

theorem array_set_getD {α : Type} (a : List α) (i j : Nat) (v zero : α) :
    (array_set a i v zero).getD j zero = if j = i then v else a.getD j zero := by
  unfold array_set
  by_cases hi : i < a.length
  · simp only [hi, if_true, List.getD_eq_getElem?_getD]
    by_cases hj : j = i
    · subst hj
      simp [hi]
    · have hne : i ≠ j := fun e => hj e.symm
      simp [hj, List.getElem?_set_ne hne]
  · simp only [hi, if_false, List.getD_eq_getElem?_getD]
    have hlen : a.length ≤ i := Nat.le_of_not_lt hi
    by_cases hj : j = i
    · subst hj
      have h1 : (a ++ List.replicate (j - a.length) zero).length = j := by
        simp only [List.length_append, List.length_replicate]; omega
      rw [List.getElem?_append_right (by omega)]
      simp [h1]
    · simp only [hj, if_false]
      rcases Nat.lt_or_ge j a.length with h1 | h1
      · rw [List.append_assoc, List.getElem?_append_left h1]
      · rw [List.getElem?_eq_none h1]
        rcases Nat.lt_or_ge j i with h2 | h2
        · rw [List.append_assoc, List.getElem?_append_right h1,
            List.getElem?_append_left (by simp only [List.length_replicate]; omega)]
          simp only [List.getElem?_replicate]
          have : j - a.length < i - a.length := by omega
          simp [this]
        · rw [List.getElem?_eq_none]
          simp only [List.length_append, List.length_replicate, List.length_singleton]
          omega

/-- Name uniqueness, slot by slot. -/
theorem names_unique_iff (plugin_data : SFTPPluginData) :
    names_unique plugin_data ↔
      ∀ i j : Nat, i < plugin_data.num_connections.toNat →
        j < plugin_data.num_connections.toNat →
        name_at plugin_data i = name_at plugin_data j → i = j := by
  unfold names_unique profile_names
  rw [List.nodup_map_iff_inj_on (List.nodup_range _)]
  simp only [List.mem_range]
  constructor
  · intro h i j hi hj he
    exact h i hi j hj he
  · intro h i hi j hj he
    exact h i j hi hj he

theorem filled_array_set (connections : List SFTPConnection) (count : Nat)
    (conn : SFTPConnection) :
    filled (array_set connections count conn zero_connection) (count + 1) =
      filled connections count ++ [conn] := by
  unfold filled
  rw [List.range_succ, List.map_append]
  congr 1
  · apply List.map_congr_left
    intro i hi
    have : i ≠ count := Nat.ne_of_lt (List.mem_range.mp hi)
    rw [array_set_getD, if_neg this]
  · simp only [List.map_cons, List.map_nil, array_set_getD, if_true]

/-- The loading loop appends, to the slots filled so far, the profiles of the accepted
elements, as many as fit. -/
theorem load_loop_filled (arr : List JsonObject) :
    ∀ (connections : List SFTPConnection) (count : Nat),
      filled (load_loop connections count arr).1 (load_loop connections count arr).2 =
        filled connections count ++
          ((((arr.map parse_connection_object).filter fun r => r.1).take
            (MAX_CONNECTIONS - count)).map fun r => r.2) := by
  induction arr with
  | nil => intro connections count; simp [load_loop]
  | cons obj rest ih =>
    intro connections count
    by_cases hc : count < MAX_CONNECTIONS
    · by_cases hok : (parse_connection_object obj).1 = true
      · simp only [load_loop, hc, hok, if_true]
        rw [ih, filled_array_set]
        obtain ⟨k, hk⟩ : ∃ k, MAX_CONNECTIONS - count = k + 1 :=
          ⟨MAX_CONNECTIONS - count - 1, by omega⟩
        have hk2 : MAX_CONNECTIONS - (count + 1) = k := by omega
        rw [hk, hk2]
        simp [List.filter_cons, hok]
      · simp only [load_loop, hc, hok, if_true, if_false, Bool.false_eq_true]
        rw [ih]
        simp [List.filter_cons, hok]
    · have h0 : MAX_CONNECTIONS - count = 0 := by omega
      simp [load_loop, hc, h0]

theorem load_names (plugin_data : SFTPPluginData) (arr : List JsonObject) :
    profile_names (config_load_connections plugin_data (.connections arr)).2 =
      loaded_names arr := by
  have h := load_loop_filled arr plugin_data.connections 0
  unfold profile_names loaded_names
  simp only [config_load_connections, Int.toNat_ofNat]
  have hn : name_at
      { plugin_data with
        connections := (load_loop plugin_data.connections 0 arr).1,
        num_connections := ((load_loop plugin_data.connections 0 arr).2 : Int) } =
      (fun c : SFTPConnection => c.name) ∘
        (fun i => (load_loop plugin_data.connections 0 arr).1.getD i zero_connection) := by
    funext i; rfl
  rw [hn, ← List.map_map]
  have h2 : List.map (fun i => (load_loop plugin_data.connections 0 arr).1.getD i zero_connection)
      (List.range (load_loop plugin_data.connections 0 arr).2) =
      filled (load_loop plugin_data.connections 0 arr).1
        (load_loop plugin_data.connections 0 arr).2 := rfl
  rw [h2, h]
  simp [filled, List.map_take]
  rfl

/-- The shifting loop, slot by slot. -/
theorem shift_loop_spec (fuel : Nat) :
    ∀ (plugin_data : SFTPPluginData) (i : Nat),
      plugin_data.num_connections - 1 - i ≤ fuel →
      (shift_loop plugin_data i fuel).num_connections = plugin_data.num_connections ∧
      (shift_loop plugin_data i fuel).current_connection = plugin_data.current_connection ∧
      ∀ j : Nat, (shift_loop plugin_data i fuel).connections.getD j zero_connection =
        if i ≤ j ∧ (j : Int) < plugin_data.num_connections - 1 then
          plugin_data.connections.getD (j + 1) zero_connection
        else plugin_data.connections.getD j zero_connection := by
  induction fuel with
  | zero =>
    intro plugin_data i hf
    refine ⟨rfl, rfl, fun j => ?_⟩
    have : ¬ (i ≤ j ∧ (j : Int) < plugin_data.num_connections - 1) := by omega
    simp only [shift_loop, this, if_false]
  | succ fuel ih =>
    intro plugin_data i hf
    by_cases hc : (i : Int) < plugin_data.num_connections - 1
    · simp only [shift_loop, hc, if_true]
      obtain ⟨h1, h2, h3⟩ := ih
        { plugin_data with
          connections :=
            array_set plugin_data.connections i
              (plugin_data.connections.getD (i + 1) zero_connection) zero_connection,
          sessions :=
            array_set plugin_data.sessions i (plugin_data.sessions.getD (i + 1) none) none }
        (i + 1) (by simp only; omega)
      refine ⟨h1, h2, fun j => ?_⟩
      rw [h3 j]
      simp only [array_set_getD]
      by_cases hj : i + 1 ≤ j ∧ (j : Int) < plugin_data.num_connections - 1
      · have hj2 : i ≤ j ∧ (j : Int) < plugin_data.num_connections - 1 := ⟨by omega, hj.2⟩
        have hj3 : j + 1 ≠ i := by omega
        simp only [hj, hj2, hj3, if_true, if_false, and_self]
      · simp only [hj, if_false]
        by_cases hji : j = i
        · subst hji
          simp only [if_true, hc, le_refl, and_self]
        · have hj2 : ¬ (i ≤ j ∧ (j : Int) < plugin_data.num_connections - 1) := by omega
          simp only [hji, hj2, if_false]
    · refine ⟨by simp only [shift_loop, hc, if_false], by simp only [shift_loop, hc, if_false],
        fun j => ?_⟩
      have : ¬ (i ≤ j ∧ (j : Int) < plugin_data.num_connections - 1) := by omega
      simp only [shift_loop, hc, this, if_false]

/-- What `delete_connection` leaves when its guard lets it through: one profile fewer,
the slots from the deleted one on taken from their right neighbour. -/
theorem delete_connection_spec (plugin_data : SFTPPluginData) (conn_index : Int)
    (h0 : 0 ≤ conn_index) (h1 : conn_index < plugin_data.num_connections) :
    (delete_connection plugin_data conn_index).num_connections =
      plugin_data.num_connections - 1 ∧
    ∀ j : Nat, (j : Int) < plugin_data.num_connections - 1 →
      name_at (delete_connection plugin_data conn_index) j =
        if conn_index.toNat ≤ j then name_at plugin_data (j + 1) else name_at plugin_data j := by
  have hg : ¬ (conn_index < 0 ∨ conn_index ≥ plugin_data.num_connections) := by omega
  have key : ∀ pd : SFTPPluginData, pd.num_connections = plugin_data.num_connections →
      pd.connections = plugin_data.connections →
      (shift_loop pd conn_index.toNat pd.num_connections.toNat).num_connections =
        plugin_data.num_connections ∧
      ∀ j : Nat, (j : Int) < plugin_data.num_connections - 1 →
        ((shift_loop pd conn_index.toNat pd.num_connections.toNat).connections.getD j
          zero_connection).name =
          if conn_index.toNat ≤ j then name_at plugin_data (j + 1)
          else name_at plugin_data j := by
    intro pd hn hcs
    obtain ⟨a, _, c⟩ := shift_loop_spec pd.num_connections.toNat pd conn_index.toNat (by omega)
    refine ⟨a.trans hn, fun j hj => ?_⟩
    rw [c j, hn, hcs]
    by_cases hij : conn_index.toNat ≤ j
    · simp only [hij, hj, and_self, if_true, name_at]
    · simp only [hij, false_and, if_false, name_at]
  unfold delete_connection
  simp only [hg, if_false]
  cases hs : plugin_data.sessions.getD conn_index.toNat none with
  | none =>
    obtain ⟨a, b⟩ := key plugin_data rfl rfl
    simp only []
    constructor
    · split <;> simp only [a]
    · intro j hj
      split <;> exact b j hj
  | some s =>
    obtain ⟨a, b⟩ := key
      { plugin_data with
        sessions := array_set plugin_data.sessions conn_index.toNat none none } rfl rfl
    simp only []
    constructor
    · split <;> simp only [a]
    · intro j hj
      split <;> exact b j hj

theorem delete_keeps_unique (plugin_data : SFTPPluginData) (conn_index : Int)
    (hu : names_unique plugin_data) :
    names_unique (delete_connection plugin_data conn_index) := by
  by_cases hg : conn_index < 0 ∨ conn_index ≥ plugin_data.num_connections
  · simp only [delete_connection, hg, if_true]; exact hu
  · obtain ⟨hn, hname⟩ := delete_connection_spec plugin_data conn_index (by omega) (by omega)
    rw [names_unique_iff] at hu ⊢
    rw [hn]
    intro i j hi hj he
    rw [hname i (by omega), hname j (by omega)] at he
    by_cases h1 : conn_index.toNat ≤ i <;> by_cases h2 : conn_index.toNat ≤ j <;>
      simp only [h1, h2, if_true, if_false] at he
    · have := hu (i + 1) (j + 1) (by omega) (by omega) he; omega
    · have := hu (i + 1) j (by omega) (by omega) he; omega
    · have := hu i (j + 1) (by omega) (by omega) he; omega
    · exact hu i j (by omega) (by omega) he

theorem add_keeps_unique (plugin_data : SFTPPluginData) (input : DialogInput)
    (hu : names_unique plugin_data)
    (hnew : strncpy input.name (NAME_LEN - 1) ∉ profile_names plugin_data) :
    names_unique (show_add_connection_dialog plugin_data input) := by
  unfold show_add_connection_dialog
  by_cases hg : input.response_ok = true ∧ plugin_data.num_connections < (MAX_CONNECTIONS : Int)
  · simp only [hg, and_self, if_true]
    rw [names_unique_iff] at hu ⊢
    have hname : ∀ j : Nat, name_at
        { plugin_data with
          connections := array_set plugin_data.connections plugin_data.num_connections.toNat
            { store_entries (plugin_data.connections.getD plugin_data.num_connections.toNat
                zero_connection) input with state := .CONN_DISCONNECTED } zero_connection,
          num_connections := plugin_data.num_connections + 1 } j =
        if j = plugin_data.num_connections.toNat then strncpy input.name (NAME_LEN - 1)
        else name_at plugin_data j := by
      intro j
      simp only [name_at, array_set_getD]
      split
      · rfl
      · rfl
    have hfresh : ∀ j : Nat, j < plugin_data.num_connections.toNat →
        name_at plugin_data j ≠ strncpy input.name (NAME_LEN - 1) := by
      intro j hj he
      apply hnew
      unfold profile_names
      exact List.mem_map.mpr ⟨j, List.mem_range.mpr hj, he⟩
    intro i j hi hj he
    simp only [] at hi hj
    rw [hname i, hname j] at he
    by_cases h1 : i = plugin_data.num_connections.toNat <;>
      by_cases h2 : j = plugin_data.num_connections.toNat <;>
      simp only [h1, h2, if_true, if_false] at he
    · omega
    · exact absurd he.symm (hfresh j (by omega))
    · exact absurd he (hfresh i (by omega))
    · exact hu i j (by omega) (by omega) he
  · simp only [hg, if_false]; exact hu

theorem edit_keeps_unique (plugin_data : SFTPPluginData) (conn_index : Int)
    (input : DialogInput) (hu : names_unique plugin_data)
    (hnew : ∀ j : Nat, j < plugin_data.num_connections.toNat → (j : Int) ≠ conn_index →
      name_at plugin_data j ≠ strncpy input.name (NAME_LEN - 1)) :
    names_unique (show_edit_connection_dialog plugin_data conn_index input) := by
  unfold show_edit_connection_dialog
  by_cases hg : conn_index < 0 ∨ conn_index ≥ plugin_data.num_connections
  · simp only [hg, if_true]; exact hu
  · simp only [hg, if_false]
    by_cases hr : input.response_ok = true
    · simp only [hr, if_true]
      rw [names_unique_iff] at hu ⊢
      have hname : ∀ j : Nat, name_at
          { plugin_data with
            connections := array_set plugin_data.connections conn_index.toNat
              (store_entries (plugin_data.connections.getD conn_index.toNat zero_connection)
                input) zero_connection } j =
          if j = conn_index.toNat then strncpy input.name (NAME_LEN - 1)
          else name_at plugin_data j := by
        intro j
        simp only [name_at, array_set_getD]
        split
        · rfl
        · rfl
      intro i j hi hj he
      simp only [] at hi hj
      rw [hname i, hname j] at he
      by_cases h1 : i = conn_index.toNat <;> by_cases h2 : j = conn_index.toNat <;>
        simp only [h1, h2, if_true, if_false] at he
      · omega
      · exact absurd he.symm (hnew j (by omega) (by omega))
      · exact absurd he (hnew i (by omega) (by omega))
      · exact hu i j hi hj he
    · simp only [hr, if_false, Bool.false_eq_true]; exact hu

/-- A change that brings new names keeps the names unique. -/
theorem change_keeps_unique (plugin_data : SFTPPluginData) (change : ProfileChange)
    (hu : names_unique plugin_data) (hnew : brings_new_names plugin_data change) :
    names_unique (apply_change plugin_data change) := by
  cases change with
  | load file =>
    cases file with
    | missing => exact hu
    | unparsable => exact hu
    | no_connections => exact hu
    | connections arr =>
      show (profile_names (config_load_connections plugin_data (.connections arr)).2).Nodup
      rw [load_names]
      exact hnew
  | add input => exact add_keeps_unique plugin_data input hu hnew
  | edit conn_index input => exact edit_keeps_unique plugin_data conn_index input hu hnew
  | delete conn_index => exact delete_keeps_unique plugin_data conn_index hu

theorem changes_keep_unique (changes : List ProfileChange) :
    ∀ plugin_data : SFTPPluginData, names_unique plugin_data →
      changes_bring_new_names plugin_data changes →
      names_unique (apply_changes plugin_data changes) := by
  induction changes with
  | nil => intro plugin_data hu _; exact hu
  | cons change changes ih =>
    intro plugin_data hu hnew
    exact ih _ (change_keeps_unique plugin_data change hu hnew.1) hnew.2

/-! ## The claims, continued -/

/-- C11. With a task attached and the session connected, once `total_size` has been set
(to the length of the opened local file in `sftp_upload_file`, to the size a successful
remote stat reports in `sftp_download_file`), `transferred` never exceeds `total_size`:
not at any read of the cancelled flag, which follows each chunk, and not at the end,
provided each remote write accepts at most the number of bytes requested and the remote
file holds exactly the number of bytes the stat reported.  The download returns for any
fuel above the file length, the upload for any fuel of at least the file length plus 2
when every write fails or accepts at least one byte. -/
theorem transferred_within_total (session : Option SFTPSession) (op : FileOperation)
    (uenv : UploadEnv) (denv : DownloadEnv) (source remote : List Byte) (fuel : Nat)
    (hconn : not_connected session = false)
    (hb : ∀ i n, 0 < n → uenv.write_rc i n ≤ n)
    (hlocal : uenv.local_file = some source)
    (hremote : denv.remote_file = some remote)
    (hstat : denv.stat_size = some remote.length) :
    (∀ up, sftp_upload_file session (some op) uenv fuel = some up →
      result_within_total up source.length) ∧
    (∀ down, sftp_download_file session (some op) denv fuel = some down →
      result_within_total down remote.length) ∧
    (remote.length + 1 ≤ fuel →
      ∃ down, sftp_download_file session (some op) denv fuel = some down) ∧
    (WritesProgress uenv → source.length + 2 ≤ fuel →
      ∃ up, sftp_upload_file session (some op) uenv fuel = some up) := by
  have hinit : ∀ (evs : List XferEvent) (n : Nat), check_values evs = [] →
      accounted ⟨some { op with total_size := n, transferred := 0 }, evs, 0, 0⟩ n n := by
    intro evs n hevs
    refine ⟨fun o ho => ?_, fun t ht => ?_⟩
    · simp only [Option.some.injEq] at ho
      subst ho
      exact ⟨rfl, by simp⟩
    · simp only [hevs] at ht
      cases ht
  refine ⟨fun up hup => ?_, fun down hdown => ?_, fun hfuel => ?_, fun hw hfuel => ?_⟩
  · rcases upload_started session op uenv source fuel up hconn hlocal hup with
      ⟨-, rfl⟩ | ⟨-, hloop⟩
    · refine ⟨fun o ho => ?_, fun t ht => ?_⟩
      · simp only [Option.some.injEq] at ho
        subst ho
        exact ⟨rfl, Nat.zero_le _⟩
      · simp [check_values] at ht
    · exact (upload_loop_accounted uenv source.length hb fuel source _ up
        (hinit [.local_open false true, .remote_open true true] _ rfl) hloop).1
  · rcases download_started session op denv remote remote.length fuel down hconn hremote
      hstat hdown with ⟨-, rfl⟩ | ⟨-, hloop⟩
    · refine ⟨fun o ho => ?_, fun t ht => ?_⟩
      · simp only [Option.some.injEq] at ho
        subst ho
        exact ⟨rfl, Nat.zero_le _⟩
      · simp [check_values] at ht
    · exact download_loop_accounted denv remote remote.length fuel 0 0 _ down
        (Nat.zero_le _)
        (hinit [.remote_open false true, .remote_stat true, .local_open true true] _ rfl)
        hloop
  · unfold sftp_download_file
    simp only [hconn, Bool.false_eq_true, if_false, hremote]
    by_cases ho : denv.local_open_ok = true
    · simp only [ho, Bool.not_true, Bool.false_eq_true, if_false]
      exact download_loop_returns denv remote fuel 0 0 _ (by omega)
    · have ho' : denv.local_open_ok = false := by simpa using ho
      simp only [ho', Bool.not_false, if_true]
      exact ⟨_, rfl⟩
  · unfold sftp_upload_file
    simp only [hconn, Bool.false_eq_true, if_false, hlocal]
    by_cases ho : uenv.remote_open_ok = true
    · simp only [ho, Bool.not_true, Bool.false_eq_true, if_false]
      exact upload_loop_returns uenv hw fuel source _ hfuel
    · have ho' : uenv.remote_open_ok = false := by simpa using ho
      simp only [ho', Bool.not_false, if_true]
      exact ⟨_, rfl⟩

/-- Witness for C11: three bytes each way, two bytes per remote write, a stale task. -/
theorem transferred_within_total_witness :
    (not_connected (some connected_session) = false ∧
      (slow_upload [1, 2, 3]).local_file = some [1, 2, 3] ∧
      (plain_download [4, 5, 6] (fun _ => false)).remote_file = some [4, 5, 6] ∧
      (plain_download [4, 5, 6] (fun _ => false)).stat_size = some [4, 5, 6].length) ∧
    ((∀ up, sftp_upload_file (some connected_session) (some ⟨10, 70⟩)
        (slow_upload [1, 2, 3]) 5 = some up → result_within_total up [1, 2, 3].length) ∧
      (∀ down, sftp_download_file (some connected_session) (some ⟨10, 70⟩)
        (plain_download [4, 5, 6] (fun _ => false)) 5 = some down →
        result_within_total down [4, 5, 6].length) ∧
      ([4, 5, 6].length + 1 ≤ 5 →
        ∃ down, sftp_download_file (some connected_session) (some ⟨10, 70⟩)
          (plain_download [4, 5, 6] (fun _ => false)) 5 = some down) ∧
      (WritesProgress (slow_upload [1, 2, 3]) → [1, 2, 3].length + 2 ≤ 5 →
        ∃ up, sftp_upload_file (some connected_session) (some ⟨10, 70⟩)
          (slow_upload [1, 2, 3]) 5 = some up)) :=
  ⟨⟨rfl, rfl, rfl, rfl⟩,
    transferred_within_total (some connected_session) ⟨10, 70⟩ (slow_upload [1, 2, 3])
      (plain_download [4, 5, 6] (fun _ => false)) [1, 2, 3] [4, 5, 6] 5 rfl
      (fun i n hn => by simp only [slow_upload]; omega) rfl rfl rfl⟩

/-- C12. For every local file of length n, when no remote write reports more bytes than
it was given, a call of `sftp_upload_file` with a task attached that returns TRUE leaves
`total_size = n` and `transferred = n`, which is the sum of the byte counts accepted by
the remote writes; and on a connected session whose remote open succeeds, the upload of
a 0-byte file returns TRUE (any positive fuel) having created the remote file, written
nothing to it, and left `total_size = 0` and `transferred = 0`. -/
theorem upload_true_counts (session : Option SFTPSession) (op : FileOperation)
    (env : UploadEnv) (content : List Byte) (fuel : Nat)
    (hb : ∀ i n, 0 < n → env.write_rc i n ≤ n)
    (hfile : env.local_file = some content) :
    (∀ r, sftp_upload_file session (some op) env fuel = some r → r.ret = true →
      ∃ o, r.op = some o ∧ o.total_size = content.length ∧
        o.transferred = content.length ∧ accepted_total r.events = content.length) ∧
    (content = [] → not_connected session = false → env.remote_open_ok = true →
      0 < fuel →
      ∃ r o, sftp_upload_file session (some op) env fuel = some r ∧ r.ret = true ∧
        r.events = [.local_open false true, .remote_open true true, .remote_close,
          .local_close] ∧
        remote_written r.events = [] ∧
        r.op = some o ∧ o.total_size = 0 ∧ o.transferred = 0) := by
  constructor
  · intro r h hret
    have hconn : not_connected session = false := by
      by_contra hn
      have hn' : not_connected session = true := by simpa using hn
      simp only [sftp_upload_file, hn', if_true, Option.some.injEq] at h
      subst h
      cases hret
    rcases upload_started session op env content fuel r hconn hfile h with
      ⟨-, rfl⟩ | ⟨-, hloop⟩
    · cases hret
    · have hacc := upload_loop_accounted env content.length hb fuel content _ r
        ⟨fun o ho => by
            simp only [Option.some.injEq] at ho
            subst ho
            exact ⟨rfl, by simp⟩,
          fun t ht => by simp [check_values] at ht⟩ hloop
      have hcount := upload_loop_counts env fuel content _ r
        (fun o ho => by
          simp only [Option.some.injEq] at ho
          subst ho
          simp [accepted_total]) hloop
      have hsome := upload_loop_op_isSome env fuel content _ r hloop
      simp only [Option.isSome_some] at hsome
      obtain ⟨o, ho⟩ := Option.isSome_iff_exists.mp hsome
      have htr := hacc.2 hret o ho
      exact ⟨o, ho, (hacc.1.1 o ho).1, htr, by rw [← hcount o ho, htr]⟩
  · intro hnil hconn hopen hfuel
    subst hnil
    obtain ⟨f, rfl⟩ : ∃ f, fuel = f + 1 := ⟨fuel - 1, by omega⟩
    refine ⟨⟨true, some { op with total_size := 0, transferred := 0 },
      [.local_open false true, .remote_open true true, .remote_close, .local_close]⟩,
      { op with total_size := 0, transferred := 0 }, ?_, rfl, rfl, rfl, rfl, rfl, rfl⟩
    simp [sftp_upload_file, hconn, hfile, hopen, upload_loop_succ]

/-- Witness for C12: three bytes, two bytes per remote write. -/
theorem upload_true_counts_witness :
    ((slow_upload [1, 2, 3]).local_file = some [1, 2, 3]) ∧
    ((∀ r, sftp_upload_file (some connected_session) (some ⟨10, 70⟩)
        (slow_upload [1, 2, 3]) 5 = some r → r.ret = true →
        ∃ o, r.op = some o ∧ o.total_size = [1, 2, 3].length ∧
          o.transferred = [1, 2, 3].length ∧
          accepted_total r.events = [1, 2, 3].length) ∧
      (([1, 2, 3] : List Byte) = [] → not_connected (some connected_session) = false →
        (slow_upload [1, 2, 3]).remote_open_ok = true → 0 < 5 →
        ∃ r o, sftp_upload_file (some connected_session) (some ⟨10, 70⟩)
            (slow_upload [1, 2, 3]) 5 = some r ∧ r.ret = true ∧
          r.events = [.local_open false true, .remote_open true true, .remote_close,
            .local_close] ∧
          remote_written r.events = [] ∧
          r.op = some o ∧ o.total_size = 0 ∧ o.transferred = 0)) :=
  ⟨rfl, upload_true_counts (some connected_session) ⟨10, 70⟩ (slow_upload [1, 2, 3])
    [1, 2, 3] 5 (fun i n hn => by simp only [slow_upload]; omega) rfl⟩

/-- C13 (code defect). The first remote read of a download fails with -1: the loop
`while ((rc = libssh2_sftp_read(...)) > 0)` ends as it does at the end of the file, and
`sftp_download_file` returns TRUE with nothing written to the local file, although no
read returned 0 and the remote file holds three bytes. -/
theorem download_read_error_returns_true :
    sftp_download_file (some connected_session) (some ⟨0, 0⟩)
        (broken_download [1, 2, 3]) 3 =
      some ⟨true, some ⟨3, 0⟩,
        [.remote_open false true, .remote_stat true, .local_open true true,
         .remote_read (-1) [], .remote_close, .local_close]⟩ := by
  decide

/-- C14 (counterexample). The local file was modified at time 100, the remote one at time
200, and the first `sync_auto_sync` run downloads at time 300: the local copy now
carries time 300, the remote one still 200, and the second run, with nothing else having
touched either file, uploads.  Two transfers in two runs. -/
theorem second_sync_transfers_back :
    (sync_auto_sync one_session_plugin ⟨some 100, some 200, true, true⟩).events.any
      SyncEvent.is_download = true ∧
    env_after_sync ⟨some 100, some 200, true, true⟩
      (sync_auto_sync one_session_plugin ⟨some 100, some 200, true, true⟩) 300 =
      ⟨some 300, some 200, true, true⟩ ∧
    (sync_auto_sync one_session_plugin
      (env_after_sync ⟨some 100, some 200, true, true⟩
        (sync_auto_sync one_session_plugin ⟨some 100, some 200, true, true⟩) 300)).events.any
      SyncEvent.is_upload = true := by
  decide

/-- C14 (amended). Two `sync_auto_sync` runs in a row with no external modification in
between, the first of which transferred the file successfully and left the copy it wrote
with the modification time `write_time`: the second run transfers nothing and returns
TRUE exactly when `write_time` equals the modification time of the file that was copied;
when `write_time` is later, the second run transfers in the opposite direction, and when
it is earlier, in the same direction again. -/
theorem second_sync_run (plugin_data : SFTPPluginData) (env : SyncEnv)
    (session : SFTPSession) (local_mtime remote_mtime write_time : Int)
    (hs : current_session plugin_data = some session)
    (hl : env.local_mtime = some local_mtime)
    (hr : env.remote_mtime = some remote_mtime) :
    (local_mtime < remote_mtime → env.download_ret = true →
      (sync_noop (sync_auto_sync plugin_data
          (env_after_sync env (sync_auto_sync plugin_data env) write_time)) ↔
        write_time = remote_mtime) ∧
      (remote_mtime < write_time →
        (sync_auto_sync plugin_data
          (env_after_sync env (sync_auto_sync plugin_data env) write_time)).events.any
          SyncEvent.is_upload = true) ∧
      (write_time < remote_mtime →
        (sync_auto_sync plugin_data
          (env_after_sync env (sync_auto_sync plugin_data env) write_time)).events.any
          SyncEvent.is_download = true)) ∧
    (remote_mtime < local_mtime → env.upload_ret = true →
      (sync_noop (sync_auto_sync plugin_data
          (env_after_sync env (sync_auto_sync plugin_data env) write_time)) ↔
        write_time = local_mtime) ∧
      (local_mtime < write_time →
        (sync_auto_sync plugin_data
          (env_after_sync env (sync_auto_sync plugin_data env) write_time)).events.any
          SyncEvent.is_download = true) ∧
      (write_time < local_mtime →
        (sync_auto_sync plugin_data
          (env_after_sync env (sync_auto_sync plugin_data env) write_time)).events.any
          SyncEvent.is_upload = true)) := by
  obtain ⟨c1, c2, -⟩ := sync_auto_sync_cases plugin_data env session local_mtime
    remote_mtime hs hl hr
  constructor
  · intro hlt hd
    have henv : env_after_sync env (sync_auto_sync plugin_data env) write_time =
        { env with local_mtime := some write_time } := by
      rw [c1 hlt]
      simp [env_after_sync, SyncEvent.is_download, hd]
    rw [henv]
    obtain ⟨d1, d2, d3⟩ := sync_auto_sync_cases plugin_data
      { env with local_mtime := some write_time } session write_time remote_mtime hs rfl hr
    refine ⟨⟨fun hno => ?_, fun heq => ?_⟩, fun hgt => ?_, fun hlt' => ?_⟩
    · rcases lt_trichotomy write_time remote_mtime with h | h | h
      · rw [d1 h] at hno
        simp [sync_noop, SyncEvent.is_download] at hno
      · exact h
      · rw [d2 h] at hno
        simp [sync_noop, SyncEvent.is_upload, SyncEvent.is_download] at hno
    · rw [d3 heq]
      simp [sync_noop, SyncEvent.is_upload, SyncEvent.is_download]
    · rw [d2 hgt]
      simp [SyncEvent.is_upload]
    · rw [d1 hlt']
      simp [SyncEvent.is_download]
  · intro hgt hu
    have henv : env_after_sync env (sync_auto_sync plugin_data env) write_time =
        { env with remote_mtime := some write_time } := by
      rw [c2 hgt]
      simp [env_after_sync, SyncEvent.is_download, SyncEvent.is_upload, hu]
    rw [henv]
    obtain ⟨d1, d2, d3⟩ := sync_auto_sync_cases plugin_data
      { env with remote_mtime := some write_time } session local_mtime write_time hs hl rfl
    refine ⟨⟨fun hno => ?_, fun heq => ?_⟩, fun hgt' => ?_, fun hlt' => ?_⟩
    · rcases lt_trichotomy local_mtime write_time with h | h | h
      · rw [d1 h] at hno
        simp [sync_noop, SyncEvent.is_download] at hno
      · exact h.symm
      · rw [d2 h] at hno
        simp [sync_noop, SyncEvent.is_upload, SyncEvent.is_download] at hno
    · rw [d3 heq.symm]
      simp [sync_noop, SyncEvent.is_upload, SyncEvent.is_download]
    · rw [d1 hgt']
      simp [SyncEvent.is_download]
    · rw [d2 hlt']
      simp [SyncEvent.is_upload]

/-- Witness for C14: local time 100, remote time 200, download written at time 300. -/
theorem second_sync_run_witness :
    (current_session one_session_plugin = some connected_session) ∧
    (((100 : Int) < 200 → (⟨some 100, some 200, true, true⟩ : SyncEnv).download_ret = true →
      (sync_noop (sync_auto_sync one_session_plugin
          (env_after_sync ⟨some 100, some 200, true, true⟩
            (sync_auto_sync one_session_plugin ⟨some 100, some 200, true, true⟩) 300)) ↔
        (300 : Int) = 200) ∧
      ((200 : Int) < 300 →
        (sync_auto_sync one_session_plugin
          (env_after_sync ⟨some 100, some 200, true, true⟩
            (sync_auto_sync one_session_plugin ⟨some 100, some 200, true, true⟩) 300)).events.any
          SyncEvent.is_upload = true) ∧
      ((300 : Int) < 200 →
        (sync_auto_sync one_session_plugin
          (env_after_sync ⟨some 100, some 200, true, true⟩
            (sync_auto_sync one_session_plugin ⟨some 100, some 200, true, true⟩) 300)).events.any
          SyncEvent.is_download = true)) ∧
    ((200 : Int) < 100 → (⟨some 100, some 200, true, true⟩ : SyncEnv).upload_ret = true →
      (sync_noop (sync_auto_sync one_session_plugin
          (env_after_sync ⟨some 100, some 200, true, true⟩
            (sync_auto_sync one_session_plugin ⟨some 100, some 200, true, true⟩) 300)) ↔
        (300 : Int) = 100) ∧
      ((100 : Int) < 300 →
        (sync_auto_sync one_session_plugin
          (env_after_sync ⟨some 100, some 200, true, true⟩
            (sync_auto_sync one_session_plugin ⟨some 100, some 200, true, true⟩) 300)).events.any
          SyncEvent.is_download = true) ∧
      ((300 : Int) < 100 →
        (sync_auto_sync one_session_plugin
          (env_after_sync ⟨some 100, some 200, true, true⟩
            (sync_auto_sync one_session_plugin ⟨some 100, some 200, true, true⟩) 300)).events.any
          SyncEvent.is_upload = true))) :=
  ⟨rfl, second_sync_run one_session_plugin ⟨some 100, some 200, true, true⟩
    connected_session 100 200 300 rfl rfl rfl⟩

/-- C15 (counterexample). The server reports b.txt and then a.txt for "/": the list
store, sorted on the name column as `ui_create_sidebar` sets it up, holds a.txt above
b.txt after `ui_update_file_list`.  In the scenario of the specification with hidden
files shown, the server reports a.txt and then .hidden, and the store holds .hidden
above a.txt. -/
theorem file_list_not_in_server_order :
    (ui_update_file_list one_session_plugin (new_file_store c_locale_collate)
        ⟨true, unsorted_directory, fun t => toString t⟩).rows.map (fun r => r.name) =
      ["a.txt", "b.txt"] ∧
    unsorted_directory.map (fun a => a.filename) = ["b.txt", "a.txt"] ∧
    (ui_update_file_list { one_session_plugin with show_hidden_files := true }
        (new_file_store c_locale_collate) scenario_listing).rows.map (fun r => r.name) =
      [".hidden", "a.txt"] ∧
    scenario_listing.readdir.map (fun a => a.filename) = ["a.txt", ".hidden"] := by
  decide

/-- C15 (amended). With a session selected and the directory opened, for every sequence
of entries `libssh2_sftp_readdir` reports, the list store after `ui_update_file_list`
holds, each once, the synthetic ".." row when the current path is not "/" and one row
for each reported entry whose name is neither "." nor ".." and which, when
`show_hidden_files` is FALSE, does not start with '.'; each row carries the name of its
entry, and a FILE row carries the entry's size in decimal.  The rows are not in the
order reported but in the sort order of the store (on the name column, ascending, unless
the user has clicked a column header), the ".." row among them. -/
theorem file_list_rows (plugin_data : SFTPPluginData) (store : FileStore)
    (env : ListEnv) (session : SFTPSession)
    (hs : current_session plugin_data = some session) (hopen : env.opendir_ok = true)
    (hrc : ∀ a ∈ env.readdir, 0 < a.rc)
    (hcmp : compare_consistent (store_compare store)) :
    (ui_update_file_list plugin_data store env).rows.Perm
      ((if plugin_data.current_remote_path = "/" then [] else [parent_row]) ++
        (env.readdir.filter (listed plugin_data.show_hidden_files)).map
          (file_row env.format_time)) ∧
    rows_sorted (store_compare store) (ui_update_file_list plugin_data store env).rows ∧
    (∀ a : ReaddirAnswer,
      (file_row env.format_time a).name = a.filename ∧
      ((file_row env.format_time a).kind = "FILE" →
        (file_row env.format_time a).size_str = toString (to_long a.attrs.filesize)) ∧
      (a.attrs.filesize < 2 ^ 63 → to_long a.attrs.filesize = a.attrs.filesize)) := by
  refine ⟨?_, ?_, ?_⟩
  · unfold ui_update_file_list
    simp only [hs, hopen, Bool.not_true, Bool.false_eq_true, if_false]
    refine (read_entries_perm _ _ _ _ hrc).trans ?_
    by_cases hp : plugin_data.current_remote_path = "/"
    · simp [hp]
    · simp [hp, store_append_set, store_insert]
  · unfold ui_update_file_list
    simp only [hs, hopen, Bool.not_true, Bool.false_eq_true, if_false]
    by_cases hp : plugin_data.current_remote_path = "/"
    · simp only [hp, ne_eq, not_true_eq_false, if_false]
      exact read_entries_sorted _ _ _ { store with rows := [] } hcmp List.Pairwise.nil
    · simp only [hp, ne_eq, not_false_eq_true, if_true]
      exact read_entries_sorted _ _ _
        (store_append_set { store with rows := [] } parent_row) hcmp
        (List.pairwise_singleton _ _)
  · intro a
    refine ⟨?_, ?_, ?_⟩
    · unfold file_row
      simp only []
      split <;> rfl
    · unfold file_row
      simp only []
      split
      · intro h; simp at h
      · intro _; rfl
    · intro h
      unfold to_long
      have h1 : a.attrs.filesize % 2 ^ 64 = a.attrs.filesize :=
        Nat.mod_eq_of_lt (by omega)
      rw [h1, if_pos h]

/-- Witness for C15: the specification scenario, listing "/" holding a.txt (100 bytes)
and .hidden, in a store sorted by name with the collation of the C locale: one row with
hidden files off, two rows with hidden files on. -/
theorem file_list_rows_witness :
    (current_session one_session_plugin = some connected_session ∧
      scenario_listing.opendir_ok = true ∧ (∀ a ∈ scenario_listing.readdir, 0 < a.rc) ∧
      compare_consistent (store_compare (new_file_store c_locale_collate))) ∧
    (ui_update_file_list one_session_plugin (new_file_store c_locale_collate)
        scenario_listing).rows =
      [⟨"a.txt", "FILE", "100", "text-x-generic", "1700000000", 1700000000⟩] ∧
    (ui_update_file_list { one_session_plugin with show_hidden_files := true }
        (new_file_store c_locale_collate) scenario_listing).rows =
      [⟨".hidden", "FILE", "7", "text-x-generic", "1700000001", 1700000001⟩,
       ⟨"a.txt", "FILE", "100", "text-x-generic", "1700000000", 1700000000⟩] ∧
    ((ui_update_file_list one_session_plugin (new_file_store c_locale_collate)
        scenario_listing).rows.Perm
        ((if one_session_plugin.current_remote_path = "/" then [] else [parent_row]) ++
          (scenario_listing.readdir.filter
            (listed one_session_plugin.show_hidden_files)).map
            (file_row scenario_listing.format_time)) ∧
      rows_sorted (store_compare (new_file_store c_locale_collate))
        (ui_update_file_list one_session_plugin (new_file_store c_locale_collate)
          scenario_listing).rows ∧
      (∀ a : ReaddirAnswer,
        (file_row scenario_listing.format_time a).name = a.filename ∧
        ((file_row scenario_listing.format_time a).kind = "FILE" →
          (file_row scenario_listing.format_time a).size_str =
            toString (to_long a.attrs.filesize)) ∧
        (a.attrs.filesize < 2 ^ 63 → to_long a.attrs.filesize = a.attrs.filesize))) :=
  have hrc : ∀ a ∈ scenario_listing.readdir, 0 < a.rc := by decide
  ⟨⟨rfl, rfl, hrc, c_locale_store_consistent⟩, by decide, by decide,
    file_list_rows one_session_plugin (new_file_store c_locale_collate) scenario_listing
      connected_session rfl rfl hrc c_locale_store_consistent⟩

/-- C16. Once the socket is connected, the SSH session created and the handshake has
succeeded, `sftp_connection_connect` makes exactly one authentication call: the
public-key call when the server's method list is available, contains "publickey" and
the profile's private key path is non-empty, the password call in every other case; when
that one call fails, connect returns FALSE, the other method untried. -/
theorem one_authentication_attempt (s : SFTPSession) (c : SFTPConnection)
    (env : ConnectEnv) (ssh : Nat) (waits : List ConnEvent)
    (hc : s.config = some c) (h1 : 0 ≤ env.socket_ret) (h2 : env.host_found = true)
    (h3 : 0 ≤ env.connect_ret) (h4 : env.ssh_init = some ssh)
    (h5 : handshake_loop env.handshake = some (0, waits)) :
    ∃ r, sftp_connection_connect s env = some r ∧
      (publickey_offered c env →
        auth_attempts r.events = [.auth_publickey] ∧
        (env.publickey_ret ≠ 0 → r.ret = false)) ∧
      (¬ publickey_offered c env →
        auth_attempts r.events = [.auth_password] ∧
        (env.password_ret ≠ 0 → r.ret = false)) := by
  have hwaits : auth_attempts waits = [] := by
    clear h1 h2 h3 h4 hc
    generalize env.handshake = l at h5
    induction l generalizing waits with
    | nil => simp [handshake_loop] at h5
    | cons a l ih =>
      by_cases ha : a = LIBSSH2_ERROR_EAGAIN
      · simp only [handshake_loop, ha, if_true] at h5
        cases hl : handshake_loop l with
        | none => simp [hl] at h5
        | some p =>
          obtain ⟨rc', w'⟩ := p
          simp only [hl, Option.some.injEq, Prod.mk.injEq] at h5
          obtain ⟨rfl, rfl⟩ := h5
          simpa [auth_attempts] using ih w' hl
      · simp only [handshake_loop, ha, if_false, Option.some.injEq, Prod.mk.injEq] at h5
        obtain ⟨-, rfl⟩ := h5
        rfl
  have happ : ∀ a b, auth_attempts (a ++ b) = auth_attempts a ++ auth_attempts b := by
    intro a b
    induction a with
    | nil => rfl
    | cons e a ih => cases e <;> simp [auth_attempts, ih]
  have hn1 : ¬ env.socket_ret < 0 := by omega
  have hn3 : ¬ env.connect_ret < 0 := by omega
  have hauth : (publickey_offered c env →
        authenticate c env = (env.publickey_ret, .auth_publickey)) ∧
      (¬ publickey_offered c env →
        authenticate c env = (env.password_ret, .auth_password)) := by
    unfold publickey_offered authenticate strstr
    cases hm : env.auth_methods with
    | none => simp
    | some m =>
      by_cases hk : "publickey".toList <:+: m.toList
      · by_cases hp : c.private_key = ""
        · simp [hk, hp]
        · simp [hk, hp]
      · simp [hk]
  unfold sftp_connection_connect
  simp only [hc, hn1, if_false, h2, Bool.not_true, Bool.false_eq_true, hn3, h4, h5,
    ne_eq, not_true_eq_false]
  by_cases hoff : publickey_offered c env
  · simp only [hauth.1 hoff]
    by_cases hrc : env.publickey_ret = 0
    · cases h7 : env.sftp_init <;>
        simp [hrc, hoff, happ, hwaits, auth_attempts]
    · simp [hrc, hoff, happ, hwaits, auth_attempts]
  · simp only [hauth.2 hoff]
    by_cases hrc : env.password_ret = 0
    · cases h7 : env.sftp_init <;>
        simp [hrc, hoff, happ, hwaits, auth_attempts]
    · simp [hrc, hoff, happ, hwaits, auth_attempts]

/-- Witness for C16: the server offers "publickey,password", the profile has no key. -/
theorem one_authentication_attempt_witness :
    ((fresh_session (some test_profile)).config = some test_profile ∧
      0 ≤ reachable_env.socket_ret ∧ reachable_env.host_found = true ∧
      0 ≤ reachable_env.connect_ret ∧ reachable_env.ssh_init = some 1 ∧
      handshake_loop reachable_env.handshake = some (0, [.select_wait])) ∧
    ∃ r, sftp_connection_connect (fresh_session (some test_profile)) reachable_env =
        some r ∧
      (publickey_offered test_profile reachable_env →
        auth_attempts r.events = [.auth_publickey] ∧
        (reachable_env.publickey_ret ≠ 0 → r.ret = false)) ∧
      (¬ publickey_offered test_profile reachable_env →
        auth_attempts r.events = [.auth_password] ∧
        (reachable_env.password_ret ≠ 0 → r.ret = false)) :=
  ⟨⟨rfl, by decide, rfl, by decide, rfl, by decide⟩,
    one_authentication_attempt (fresh_session (some test_profile)) test_profile
      reachable_env 1 [.select_wait] rfl (by decide) rfl (by decide) rfl (by decide)⟩

/-- C17 (counterexample). The caller hands `transfer_async` a local path of 4096
characters: the task keeps its first 4095 characters, and the worker calls the upload
with that shorter path. -/
theorem async_transfer_truncates_path :
    long_path.length = 4096 ∧
    ∃ task ev, run_transfer_async connected_session long_path "/r" true none 0 true 1 =
        (task, ev) ∧
      task.local_path.length = 4095 ∧ task.local_path ≠ long_path ∧
      WorkerEvent.upload connected_session task.local_path "/r" true ∈ ev := by
  have hlen : long_path.length = 4096 := by
    show (List.replicate 4096 'a').length = 4096
    exact List.length_replicate _ _
  have hshort : (g_strlcpy long_path MAX_PATH_LEN).length = 4095 :=
    g_strlcpy_long long_path MAX_PATH_LEN (by rw [hlen]; decide) (by decide)
  obtain ⟨task, hrun, -, -⟩ := run_transfer_async_events connected_session long_path "/r"
    true none 0 true 1 (by decide)
  have htask : task.local_path = g_strlcpy long_path MAX_PATH_LEN := by
    have := congrArg (fun p => p.1.local_path) hrun
    simpa [run_transfer_async, transfer_async, transfer_thread_func] using this.symm
  have hr : g_strlcpy "/r" MAX_PATH_LEN = "/r" := by decide
  refine ⟨hlen, task, _, hrun, by rw [htask]; exact hshort, ?_, ?_⟩
  · intro h
    rw [htask] at h
    rw [h, hlen] at hshort
    cases hshort
  · rw [htask]
    simp [expected_transfer, hr]

/-- C17 (amended). For every task created by `transfer_async` with a local and a remote
path shorter than `MAX_PATH_LEN` (4096), the worker takes the session lock, calls the
upload exactly when `is_upload` is TRUE and the download otherwise, on the task's
session with the two paths given by the caller, releases the lock, and only then sets
`completed` to TRUE and queues the idle callback; the main loop then invokes the
completion callback, when non-null, exactly once, with the task, the boolean the
transfer returned, and the caller's context. -/
theorem async_transfer_calls (session : SFTPSession) (local_path remote_path : String)
    (is_upload : Bool) (callback : Option Nat) (user_data : Nat) (ret : Bool)
    (rounds : Nat) (hl : local_path.length < MAX_PATH_LEN)
    (hr : remote_path.length < MAX_PATH_LEN) (hrounds : 0 < rounds) :
    ∃ task, run_transfer_async session local_path remote_path is_upload callback user_data
        ret rounds =
      (task,
        [.mutex_lock, expected_transfer session local_path remote_path is_upload ret,
          .mutex_unlock, .set_completed, .idle_add] ++
        expected_callback task ret user_data callback) ∧
      task.completed = true ∧ task.success = ret := by
  have := run_transfer_async_events session local_path remote_path is_upload callback
    user_data ret rounds hrounds
  rw [g_strlcpy_short _ _ hl, g_strlcpy_short _ _ hr] at this
  exact this

/-- Witness for C17: a download with a callback, the transfer failing. -/
theorem async_transfer_calls_witness :
    ("/tmp/a.txt".length < MAX_PATH_LEN ∧ "/home/u/a.txt".length < MAX_PATH_LEN) ∧
    ∃ task, run_transfer_async connected_session "/tmp/a.txt" "/home/u/a.txt" false
        (some 7) 42 false 3 =
      (task,
        [.mutex_lock,
          expected_transfer connected_session "/tmp/a.txt" "/home/u/a.txt" false false,
          .mutex_unlock, .set_completed, .idle_add] ++
        expected_callback task false 42 (some 7)) ∧
      task.completed = true ∧ task.success = false :=
  ⟨⟨by decide, by decide⟩,
    async_transfer_calls connected_session "/tmp/a.txt" "/home/u/a.txt" false (some 7) 42
      false 3 (by decide) (by decide) (by decide)⟩

/-- C18. For any list of tasks started on one session and any schedule of their worker
threads: two workers are never inside their upload or download at the same time; a
worker inside its transfer holds the session lock, which it took before the transfer
began; whatever the transfer returns (success, failure or cancellation), that worker's
next two steps are the return and the release of the lock; and the pool is never stuck:
unless every worker has returned, some worker can take a step. -/
theorem transfers_never_overlap (tasks : List AsyncOperation)
    (schedule : List (Nat × Bool)) :
    (∀ i j, transferring (run_workers (start_pool tasks) schedule) i →
      transferring (run_workers (start_pool tasks) schedule) j → i = j) ∧
    (∀ i, transferring (run_workers (start_pool tasks) schedule) i →
      (run_workers (start_pool tasks) schedule).lock = some i ∧
      ∀ ret ret2,
        (worker_step (worker_step (run_workers (start_pool tasks) schedule) i ret) i
          ret2).lock = none) ∧
    (¬ all_finished (run_workers (start_pool tasks) schedule) →
      ∃ i ret, worker_step (run_workers (start_pool tasks) schedule) i ret ≠
        run_workers (start_pool tasks) schedule) := by
  have hinv := run_workers_invariant schedule _ (start_pool_invariant tasks)
  have hsec : ∀ i, transferring (run_workers (start_pool tasks) schedule) i →
      (run_workers (start_pool tasks) schedule).lock = some i := by
    rintro i ⟨w, hw, hpc⟩
    exact hinv.1 i ⟨w, hw, Or.inl hpc⟩
  refine ⟨fun i j hi hj => ?_, fun i hi => ⟨hsec i hi, fun ret ret2 => ?_⟩, fun hf => ?_⟩
  · have h1 := hsec i hi
    have h2 := hsec j hj
    rw [h1] at h2
    exact Option.some.inj h2
  · exact transfer_return_releases _ i ret ret2 hi
  · exact worker_can_step _ hinv hf

/-- C19 (counterexample). Meld is not installed, diff is; diff is run and exits with a
non-zero status because the files differ: `sync_compare_files` then shows the timestamp
verdict "local file is older", although a tool was found and run. -/
theorem verdict_shown_after_failed_tool :
    discoverable_tool differing_files_env = some "diff" ∧
    CompareEvent.run_tool "diff" 256 ∈
      (sync_compare_files one_session_plugin differing_files_env).events ∧
    verdicts (sync_compare_files one_session_plugin differing_files_env).events =
      [.local_older] := by
  decide

/-- C19 (amended). Once a session exists, both stats have succeeded and the remote file
has been copied to the temporary file, `sync_compare_files` returns TRUE and shows the
timestamp verdict (local older / local newer / same time, as the two modification times
compare) exactly when no tool among meld, diff and kdiff3 is discoverable or the first
discoverable one, which is then run, exits with a non-zero status; when that tool exits
with status 0 no verdict is shown. -/
theorem verdict_shown_iff_diff_fails (plugin_data : SFTPPluginData) (env : CompareEnv)
    (session : SFTPSession) (local_mtime remote_mtime : Int)
    (hs : current_session plugin_data = some session)
    (hl : env.local_mtime = some local_mtime)
    (hr : env.remote_mtime = some remote_mtime)
    (hd : (download_remote_file env).ret = true) :
    (sync_compare_files plugin_data env).ret = true ∧
    ((match discoverable_tool env with
      | none => True
      | some tool => env.tool_status tool ≠ 0) →
      verdicts (sync_compare_files plugin_data env).events =
        [verdict_for local_mtime remote_mtime]) ∧
    ((∃ tool, discoverable_tool env = some tool ∧ env.tool_status tool = 0) →
      verdicts (sync_compare_files plugin_data env).events = []) := by
  obtain ⟨hv, hret⟩ := run_external_diff_from_spec env diff_tools
  have hdv := download_remote_file_verdicts env
  unfold sync_compare_files
  simp only [hs, hl, hr, hd, Bool.not_true, Bool.false_eq_true, if_false]
  unfold run_external_diff
  by_cases hres : (run_external_diff_from env diff_tools).ret = true
  · have hnot : ¬ (match diff_tools.find? (fun tool => decide (env.which_status tool = 0)) with
        | none => True
        | some tool => env.tool_status tool ≠ 0) := by
      rw [← hret]; simp [hres]
    simp only [hres, Bool.not_true, Bool.false_eq_true, if_false]
    refine ⟨trivial, fun h => absurd h hnot, fun _ => ?_⟩
    simp [verdicts_append, hv, hdv, verdicts]
  · have hres' : (run_external_diff_from env diff_tools).ret = false := by simpa using hres
    have hyes := hret.mp hres'
    simp only [hres', Bool.not_false, if_true, compare_file_time]
    refine ⟨?_, fun _ => ?_, fun ⟨tool, ht, h0⟩ => ?_⟩
    · split
      · rfl
      · split <;> rfl
    · unfold verdict_for
      by_cases h1 : local_mtime < remote_mtime
      · simp [h1, verdicts_append, hv, hdv, verdicts]
      · by_cases h2 : remote_mtime < local_mtime
        · simp [h1, h2, verdicts_append, hv, hdv, verdicts]
        · simp [h1, h2, verdicts_append, hv, hdv, verdicts]
    · unfold discoverable_tool at ht
      rw [ht] at hyes
      exact absurd h0 hyes

/-- Witness for C19: no tool is installed; local time 100, remote time 200. -/
theorem verdict_shown_iff_diff_fails_witness :
    (current_session one_session_plugin = some connected_session ∧
      (download_remote_file { differing_files_env with which_status := fun _ => 256 }).ret =
        true) ∧
    ((sync_compare_files one_session_plugin
        { differing_files_env with which_status := fun _ => 256 }).ret = true ∧
      ((match discoverable_tool { differing_files_env with which_status := fun _ => 256 } with
        | none => True
        | some tool =>
          ({ differing_files_env with which_status := fun _ => 256 } : CompareEnv).tool_status
            tool ≠ 0) →
        verdicts (sync_compare_files one_session_plugin
            { differing_files_env with which_status := fun _ => 256 }).events =
          [verdict_for 100 200]) ∧
      ((∃ tool, discoverable_tool { differing_files_env with which_status := fun _ => 256 } =
            some tool ∧
          ({ differing_files_env with which_status := fun _ => 256 } : CompareEnv).tool_status
            tool = 0) →
        verdicts (sync_compare_files one_session_plugin
            { differing_files_env with which_status := fun _ => 256 }).events = [])) :=
  ⟨⟨rfl, rfl⟩,
    verdict_shown_iff_diff_fails one_session_plugin
      { differing_files_env with which_status := fun _ => 256 } connected_session 100 200
      rfl rfl rfl rfl⟩

/-- C20 (counterexample). A connections file that lists the name `a` twice is loaded
into the freshly initialised plugin: both entries are stored, `num_connections` is 2 and
the first two profiles have the same name.  The add dialog confirmed twice with the name
`a` gives the same. -/
theorem duplicate_names_kept :
    (config_load_connections initial_plugin duplicate_file).2.num_connections = 2 ∧
    profile_names (config_load_connections initial_plugin duplicate_file).2 = ["a", "a"] ∧
    ¬ names_unique (config_load_connections initial_plugin duplicate_file).2 ∧
    profile_names
        (show_add_connection_dialog (show_add_connection_dialog initial_plugin dialog_entries)
          dialog_entries) = ["a", "a"] ∧
    ¬ names_unique
        (show_add_connection_dialog (show_add_connection_dialog initial_plugin dialog_entries)
          dialog_entries) := by
  decide

/-- C20 (amended). In every plugin state reached from the initial one by loading
connections files, adding, editing and deleting connections, no two of the first
`num_connections` profiles have the same name, provided every change brought new names:
a loaded array named no accepted profile twice, and the name entered in a dialog, cut to
127 characters, was not in use by another profile.  Deleting needs no condition. -/
theorem names_stay_unique (changes : List ProfileChange)
    (hnew : changes_bring_new_names initial_plugin changes) :
    names_unique (apply_changes initial_plugin changes) :=
  changes_keep_unique changes initial_plugin (by decide) hnew

/-- Witness for C20: load `a` and `b`, add `c`, rename `a` to `d`, delete `b`. -/
theorem names_stay_unique_witness :
    changes_bring_new_names initial_plugin distinct_changes ∧
    profile_names (apply_changes initial_plugin distinct_changes) = ["d", "c"] ∧
    names_unique (apply_changes initial_plugin distinct_changes) :=
  ⟨by decide, by decide, names_stay_unique distinct_changes (by decide)⟩

/-! ## Lemmas on the termination of an upload -/

theorem check_cancelled_calls (cancelled : Nat → Bool) (st : XferState) :
    (check_cancelled cancelled st).2.calls = st.calls := by
  rcases check_cancelled_cases cancelled st with ⟨-, h⟩ | ⟨o, -, h⟩ <;> rw [h]

/-- While every write accepts 0 bytes and the flag stays clear, the write loop does not
end, whatever the fuel. -/
theorem upload_chunk_stalls (content buf : List Byte) (hb : 0 < buf.length) :
    ∀ (fuel : Nat) (st : XferState),
      upload_chunk (stalled_upload content) buf fuel 0 st = none := by
  intro fuel
  induction fuel with
  | zero => intro st; rfl
  | succ fuel ih =>
    intro st
    rw [upload_chunk_succ]
    have hflag : (check_cancelled (stalled_upload content).cancelled st).1 = false := by
      rcases check_cancelled_cases (stalled_upload content).cancelled st with
        ⟨-, h⟩ | ⟨o, -, h⟩ <;> (rw [h]; try rfl)
    simp only [hb, if_true, hflag, Bool.false_eq_true, if_false]
    have hrc : ∀ i n, (stalled_upload content).write_rc i n = 0 := fun _ _ => rfl
    simp only [hrc, lt_self_iff_false, if_false, Int.toNat_zero, Nat.add_zero]
    exact ih _

/-- The write loop ends when zero-byte writes do not go on for ever. -/
theorem upload_chunk_returns_eventually (env : UploadEnv) (buf : List Byte) (k : Nat)
    (hw : WritesEventuallyProgress env k) :
    ∀ (r fuel written : Nat) (st : XferState), buf.length - written = r → r * k < fuel →
      ∃ e, upload_chunk env buf fuel written st = some e := by
  intro r
  induction r using Nat.strong_induction_on with
  | _ r ihr =>
    have inner : ∀ (j fuel written : Nat) (st : XferState), buf.length - written = r →
        0 < r → env.write_rc (st.calls + j) r ≠ 0 → j + 1 + (r - 1) * k < fuel →
        ∃ e, upload_chunk env buf fuel written st = some e := by
      intro j
      induction j with
      | zero =>
        intro fuel written st hr hpos hnz hfuel
        obtain ⟨f, rfl⟩ : ∃ f, fuel = f + 1 := ⟨fuel - 1, by omega⟩
        rw [upload_chunk_succ]
        have hlt : written < buf.length := by omega
        simp only [hlt, if_true]
        by_cases hflag : (check_cancelled env.cancelled st).1 = true
        · simp only [hflag, if_true]; exact ⟨_, rfl⟩
        simp only [hflag, Bool.false_eq_true, if_false]
        rw [check_cancelled_calls, hr]
        rw [Nat.add_zero] at hnz
        by_cases hneg : env.write_rc st.calls r < 0
        · simp only [hneg, if_true]; exact ⟨_, rfl⟩
        simp only [hneg, if_false]
        have hle := (hw st.calls r hpos).1
        have hposrc : 0 < (env.write_rc st.calls r).toNat := by omega
        have hlerc : (env.write_rc st.calls r).toNat ≤ r := by omega
        refine ihr (r - (env.write_rc st.calls r).toNat) (by omega) f _ _ (by omega) ?_
        have hm : (r - (env.write_rc st.calls r).toNat) * k ≤ (r - 1) * k :=
          Nat.mul_le_mul_right k (by omega)
        omega
      | succ j ihj =>
        intro fuel written st hr hpos hnz hfuel
        obtain ⟨f, rfl⟩ : ∃ f, fuel = f + 1 := ⟨fuel - 1, by omega⟩
        rw [upload_chunk_succ]
        have hlt : written < buf.length := by omega
        simp only [hlt, if_true]
        by_cases hflag : (check_cancelled env.cancelled st).1 = true
        · simp only [hflag, if_true]; exact ⟨_, rfl⟩
        simp only [hflag, Bool.false_eq_true, if_false]
        rw [check_cancelled_calls, hr]
        by_cases hneg : env.write_rc st.calls r < 0
        · simp only [hneg, if_true]; exact ⟨_, rfl⟩
        simp only [hneg, if_false]
        have hle := (hw st.calls r hpos).1
        by_cases hz : env.write_rc st.calls r = 0
        · rw [hz]
          simp only [Int.toNat_zero, Nat.add_zero]
          refine ihj f written _ hr hpos ?_ (by omega)
          have hc : (progress (log_remote_write (check_cancelled env.cancelled st).2
              (buf.drop written) 0) 0).calls = st.calls + 1 := by
            show (check_cancelled env.cancelled st).2.calls + 1 = st.calls + 1
            rw [check_cancelled_calls]
          rw [hc]
          have : st.calls + 1 + j = st.calls + (j + 1) := by omega
          rw [this]
          exact hnz
        · have hposrc : 0 < (env.write_rc st.calls r).toNat := by omega
          have hlerc : (env.write_rc st.calls r).toNat ≤ r := by omega
          refine ihr (r - (env.write_rc st.calls r).toNat) (by omega) f _ _ (by omega) ?_
          have hm : (r - (env.write_rc st.calls r).toNat) * k ≤ (r - 1) * k :=
            Nat.mul_le_mul_right k (by omega)
          omega
    intro fuel written st hr hfuel
    by_cases hpos : 0 < r
    · obtain ⟨-, j, hj, hnz⟩ := hw st.calls r hpos
      refine inner j fuel written st hr hpos hnz ?_
      have hk : (r - 1) * k + k = r * k := by
        obtain ⟨q, rfl⟩ : ∃ q, r = q + 1 := ⟨r - 1, by omega⟩
        rw [Nat.add_sub_cancel, Nat.succ_mul]
      omega
    · obtain ⟨f, rfl⟩ : ∃ f, fuel = f + 1 := ⟨fuel - 1, by omega⟩
      rw [upload_chunk_succ]
      have hlt : ¬ written < buf.length := by omega
      simp only [hlt, if_false]
      exact ⟨_, rfl⟩

/-- The upload loop returns when zero-byte writes do not go on for ever. -/
theorem upload_loop_returns_eventually (env : UploadEnv) (k : Nat)
    (hw : WritesEventuallyProgress env k) :
    ∀ (fuel : Nat) (rest : List Byte) (st : XferState),
      rest.length * (k + 1) + 2 ≤ fuel → ∃ r, upload_loop env fuel rest st = some r := by
  intro fuel
  induction fuel with
  | zero => intro rest st h; omega
  | succ fuel ih =>
    intro rest st h
    rw [upload_loop_succ]
    by_cases hne : 0 < (rest.take BUF_SIZE).length
    · simp only [hne, if_true]
      have hlen : (rest.take BUF_SIZE).length ≤ rest.length := by
        simp [List.length_take]
      have hmul : rest.length * (k + 1) = rest.length * k + rest.length := Nat.mul_succ _ _
      have hm : (rest.take BUF_SIZE).length * k ≤ rest.length * k :=
        Nat.mul_le_mul_right k hlen
      obtain ⟨e, he⟩ := upload_chunk_returns_eventually env (rest.take BUF_SIZE) k hw
        (rest.take BUF_SIZE).length fuel 0 st rfl (by omega)
      cases e with
      | returned r => exact ⟨r, by simp only [he]⟩
      | done st' =>
        simp only [he]
        apply ih
        have hpos : 0 < rest.length := by omega
        have hd : (rest.drop BUF_SIZE).length + 1 ≤ rest.length := by
          simp only [List.length_drop, BUF_SIZE]; omega
        have hm2 : ((rest.drop BUF_SIZE).length + 1) * (k + 1) ≤ rest.length * (k + 1) :=
          Nat.mul_le_mul_right (k + 1) hd
        rw [Nat.succ_mul] at hm2
        omega
    · simp only [hne, if_false]
      exact ⟨_, rfl⟩

/-! ## Lemmas on the size of the connection set -/

theorem filled_length (connections : List SFTPConnection) (count : Nat) :
    (filled connections count).length = count := by
  simp [filled]

/-- The loading loop keeps the first `MAX_CONNECTIONS` accepted profiles, in order. -/
theorem load_keeps_first_valid (plugin_data : SFTPPluginData) (arr : List JsonObject) :
    filled (config_load_connections plugin_data (.connections arr)).2.connections
        (config_load_connections plugin_data (.connections arr)).2.num_connections.toNat =
      (valid_profiles arr).take MAX_CONNECTIONS ∧
    (config_load_connections plugin_data (.connections arr)).2.num_connections =
      (min MAX_CONNECTIONS (valid_profiles arr).length : Nat) := by
  have h := load_loop_filled arr plugin_data.connections 0
  have h1 : filled (load_loop plugin_data.connections 0 arr).1
      (load_loop plugin_data.connections 0 arr).2 =
      (valid_profiles arr).take MAX_CONNECTIONS := by
    rw [h]
    simp [filled, valid_profiles, List.map_take]
  have h2 := congrArg List.length h1
  rw [filled_length, List.length_take] at h2
  constructor
  · simp only [config_load_connections, Int.toNat_ofNat]
    exact h1
  · simp only [config_load_connections]
    rw [h2]

theorem delete_out_of_range (plugin_data : SFTPPluginData) (conn_index : Int)
    (h : conn_index < 0 ∨ plugin_data.num_connections ≤ conn_index) :
    delete_connection plugin_data conn_index = plugin_data := by
  have hg : conn_index < 0 ∨ conn_index ≥ plugin_data.num_connections := h
  simp only [delete_connection, hg, if_true]

/-- Every change keeps `num_connections` between 0 and `MAX_CONNECTIONS`. -/
theorem change_keeps_range (plugin_data : SFTPPluginData) (change : ProfileChange)
    (h : num_connections_in_range plugin_data) :
    num_connections_in_range (apply_change plugin_data change) := by
  obtain ⟨h0, h1⟩ := h
  cases change with
  | load file =>
    cases file with
    | missing => exact ⟨h0, h1⟩
    | unparsable => exact ⟨h0, h1⟩
    | no_connections => exact ⟨h0, h1⟩
    | connections arr =>
      have := (load_keeps_first_valid plugin_data arr).2
      show 0 ≤ (config_load_connections plugin_data (.connections arr)).2.num_connections ∧
        (config_load_connections plugin_data (.connections arr)).2.num_connections ≤
          MAX_CONNECTIONS
      rw [this]
      constructor
      · exact Int.ofNat_nonneg _
      · exact Int.ofNat_le.mpr (Nat.min_le_left _ _)
  | add input =>
    show num_connections_in_range (show_add_connection_dialog plugin_data input)
    unfold show_add_connection_dialog
    by_cases hg : input.response_ok = true ∧ plugin_data.num_connections < (MAX_CONNECTIONS : Int)
    · simp only [hg, and_self, if_true]
      exact ⟨by show 0 ≤ plugin_data.num_connections + 1; omega,
        by show plugin_data.num_connections + 1 ≤ (MAX_CONNECTIONS : Int); omega⟩
    · simp only [hg, if_false]; exact ⟨h0, h1⟩
  | edit conn_index input =>
    show num_connections_in_range (show_edit_connection_dialog plugin_data conn_index input)
    unfold show_edit_connection_dialog
    split
    · exact ⟨h0, h1⟩
    · split
      · exact ⟨h0, h1⟩
      · exact ⟨h0, h1⟩
  | delete conn_index =>
    show num_connections_in_range (delete_connection plugin_data conn_index)
    by_cases hg : conn_index < 0 ∨ plugin_data.num_connections ≤ conn_index
    · rw [delete_out_of_range plugin_data conn_index hg]; exact ⟨h0, h1⟩
    · obtain ⟨hn, -⟩ := delete_connection_spec plugin_data conn_index (by omega) (by omega)
      unfold num_connections_in_range
      rw [hn]
      constructor <;> omega

theorem changes_keep_range (changes : List ProfileChange) :
    ∀ plugin_data : SFTPPluginData, num_connections_in_range plugin_data →
      num_connections_in_range (apply_changes plugin_data changes) := by
  induction changes with
  | nil => intro plugin_data h; exact h
  | cons change changes ih =>
    intro plugin_data h
    exact ih _ (change_keeps_range plugin_data change h)

/-! ## Lemmas on saving and loading a profile -/

theorem g_strlcpy_eq_empty (src : String) (size : Nat) (h : 2 ≤ size) :
    g_strlcpy src size = "" ↔ src = "" := by
  unfold g_strlcpy
  constructor
  · intro he
    have h1 : (src.toList.take (size - 1)) = [] := by
      have := congrArg String.toList he
      simpa using this
    obtain ⟨k, hk⟩ : ∃ k, size - 1 = k + 1 := ⟨size - 2, by omega⟩
    rw [hk] at h1
    cases hs : src.toList with
    | nil =>
      have : src = String.mk src.toList := rfl
      rw [this, hs]
    | cons c cs => rw [hs] at h1; simp at h1
  · intro he
    subst he
    show String.mk (List.take (size - 1) []) = ""
    rw [List.take_nil]

/-- The buffer content after `json_get_string_member_safe` on an empty buffer is empty
exactly when the string member is missing or empty. -/
theorem json_get_string_member_safe_empty (obj : JsonObject) (key : String) (size : Nat)
    (h : 2 ≤ size) :
    json_get_string_member_safe obj key "" size = "" ↔ missing_or_empty obj key := by
  unfold json_get_string_member_safe missing_or_empty json_object_has_member
    json_object_get_string_member
  cases hm : obj.member key with
  | none => simp
  | some v =>
    cases v with
    | str s => simp [g_strlcpy_eq_empty s size h]
    | int v => simp
    | other => simp

theorem to_gint_of_gint (v : Int) (h0 : -2 ^ 31 ≤ v) (h1 : v < 2 ^ 31) : to_gint v = v := by
  unfold to_gint
  omega

/-! ## Lemmas on entry types and on navigation -/

/-- The test both listings make: the permissions attribute is present and bit 14 of the
permissions is set. -/
theorem entry_type_dir_iff (attrs : SftpAttributes) :
    entry_type attrs = "DIR" ↔
      attrs.flags &&& LIBSSH2_SFTP_ATTR_PERMISSIONS ≠ 0 ∧
        attrs.permissions &&& LIBSSH2_SFTP_S_IFDIR ≠ 0 := by
  unfold entry_type
  split
  · simp [*]
  · simp [*]

theorem file_row_kind (format_time : Nat → String) (a : ReaddirAnswer) :
    (file_row format_time a).kind = entry_type a.attrs := by
  by_cases h : a.attrs.flags &&& LIBSSH2_SFTP_ATTR_PERMISSIONS ≠ 0 ∧
      a.attrs.permissions &&& LIBSSH2_SFTP_S_IFDIR ≠ 0
  · unfold file_row entry_type
    simp only []
    rw [if_pos h, if_pos h]
  · unfold file_row entry_type
    simp only []
    rw [if_neg h, if_neg h]

theorem strrchr_from_absent (c : Char) :
    ∀ (l : List Char) (i : Nat) (last : Option Nat), c ∉ l →
      strrchr_from c l i last = last := by
  intro l
  induction l with
  | nil => intro i last _; rfl
  | cons x xs ih =>
    intro i last h
    have hx : x ≠ c := fun e => h (by rw [e]; exact List.mem_cons_self _ _)
    have hxs : c ∉ xs := fun e => h (List.mem_cons_of_mem _ e)
    simp only [strrchr_from, hx, if_false]
    exact ih _ _ hxs

theorem strrchr_from_append (c : Char) :
    ∀ (a b : List Char) (i : Nat) (last : Option Nat),
      strrchr_from c (a ++ b) i last =
        strrchr_from c b (i + a.length) (strrchr_from c a i last) := by
  intro a
  induction a with
  | nil => intro b i last; rfl
  | cons x xs ih =>
    intro b i last
    show strrchr_from c (xs ++ b) (i + 1) (if x = c then some i else last) =
      strrchr_from c b (i + (xs.length + 1))
        (strrchr_from c xs (i + 1) (if x = c then some i else last))
    rw [ih]
    have : i + 1 + xs.length = i + (xs.length + 1) := by omega
    rw [this]

/-- The last slash of `p/d` is the one that joins them when `d` has none. -/
theorem strrchr_joined (p d : List Char) (hd : '/' ∉ d) :
    strrchr_from '/' (p ++ '/' :: d) 0 none = some p.length := by
  rw [strrchr_from_append]
  simp only [strrchr_from, if_true, Nat.zero_add]
  exact strrchr_from_absent '/' d _ _ hd

/-! ## Lemmas on downloaded files and auto-upload -/

theorem lookup_after_insert (table : List (String × String)) (key value : String) :
    g_hash_table_lookup (g_hash_table_insert table key value) key = some value := by
  simp [g_hash_table_insert, g_hash_table_lookup]

/-- The result of `on_document_save` in terms of the session of the current connection
and the table of downloaded files. -/
theorem on_document_save_eq (pdata : SFTPPluginData) (file_name : String) :
    on_document_save pdata (some file_name) =
      if pdata.auto_upload = true then
        match current_session pdata with
        | none => none
        | some session =>
          if session.active = true then
            match g_hash_table_lookup pdata.downloaded_files file_name with
            | none => none
            | some remote_path =>
              some (transfer_async session file_name remote_path true none 0)
          else none
      else none := by
  unfold on_document_save current_session
  by_cases ha : pdata.auto_upload = true
  · simp only [ha, Bool.not_true, Bool.false_eq_true, if_false, if_true]
    by_cases hc : pdata.current_connection < 0
    · simp only [hc, if_true]
    · simp only [hc, if_false]
      cases hs : pdata.sessions.getD pdata.current_connection.toNat none with
      | none => rfl
      | some session =>
        simp only []
        by_cases hact : session.active = true
        · simp only [hact, Bool.not_true, Bool.false_eq_true, if_false, if_true]
        · have : session.active = false := by simpa using hact
          simp only [this, Bool.not_false, if_true, Bool.false_eq_true, if_false]
  · have : pdata.auto_upload = false := by simpa using ha
    simp only [this, Bool.not_false, if_true, Bool.false_eq_true, if_false]

/-! ## Lemmas on SSH config hosts -/

/-- A line that starts a host entry appends the entry and makes it current. -/
theorem ssh_config_line_host (expand_home : List Char → List Char) (st : HostsState)
    (raw v : List Char) (h : host_line_value raw = some v) :
    ssh_config_line expand_home st raw =
      { hosts := array_set st.hosts st.count (new_host v) zero_host, count := st.count + 1,
        current := some st.count } := by
  unfold host_line_value at h
  unfold ssh_config_line
  simp only [] at h ⊢
  by_cases h1 : (g_strstrip raw).head? = some '#' ∨ g_strstrip raw = []
  · rw [if_pos h1] at h; cases h
  · rw [if_neg h1] at h ⊢
    by_cases h2 : has_keyword (g_strstrip raw) "Host " = true
    · rw [if_pos h2] at h ⊢
      by_cases h3 : '*' ∉ g_strstrip ((g_strstrip raw).drop 5) ∧
          '?' ∉ g_strstrip ((g_strstrip raw).drop 5)
      · rw [if_pos h3] at h ⊢
        simp only [Option.some.injEq] at h
        rw [h]
        rfl
      · rw [if_neg h3] at h; cases h
    · rw [if_neg h2] at h; cases h

theorem set_current_getD (st : HostsState) (cur j : Nat) (host : SSHConfigHost) :
    (set_current st cur host).hosts.getD j zero_host =
      if j = cur then host else st.hosts.getD j zero_host := by
  unfold set_current
  exact array_set_getD _ _ _ _ _

/-- Replacing the current entry by one with the same name keeps the count, the pointer,
every name and every other entry. -/
theorem set_current_keeps (st : HostsState) (cur : Nat) (host : SSHConfigHost)
    (hc : st.current = some cur) (hn : host.name = (st.hosts.getD cur zero_host).name) :
    (set_current st cur host).count = st.count ∧
    ((set_current st cur host).current = st.current ∨
      (set_current st cur host).current = none) ∧
    (∀ j, ((set_current st cur host).hosts.getD j zero_host).name =
      (st.hosts.getD j zero_host).name) ∧
    (∀ j, st.current ≠ some j →
      (set_current st cur host).hosts.getD j zero_host = st.hosts.getD j zero_host) := by
  refine ⟨rfl, Or.inl rfl, fun j => ?_, fun j hj => ?_⟩
  · rw [set_current_getD]
    by_cases h : j = cur
    · rw [if_pos h, h, hn]
    · rw [if_neg h]
  · rw [set_current_getD]
    have : j ≠ cur := fun e => hj (by rw [hc, e])
    rw [if_neg this]

/-- A line that starts no host entry keeps the count and every name, and changes no
entry but the current one. -/
theorem ssh_config_line_other (expand_home : List Char → List Char) (st : HostsState)
    (raw : List Char) (h : host_line_value raw = none) :
    (ssh_config_line expand_home st raw).count = st.count ∧
    ((ssh_config_line expand_home st raw).current = st.current ∨
      (ssh_config_line expand_home st raw).current = none) ∧
    (∀ j, ((ssh_config_line expand_home st raw).hosts.getD j zero_host).name =
      (st.hosts.getD j zero_host).name) ∧
    (∀ j, st.current ≠ some j →
      (ssh_config_line expand_home st raw).hosts.getD j zero_host =
        st.hosts.getD j zero_host) := by
  have hst : st.count = st.count ∧ (st.current = st.current ∨ st.current = none) ∧
      (∀ j, (st.hosts.getD j zero_host).name = (st.hosts.getD j zero_host).name) ∧
      (∀ j, st.current ≠ some j → st.hosts.getD j zero_host = st.hosts.getD j zero_host) :=
    ⟨rfl, Or.inl rfl, fun _ => rfl, fun _ _ => rfl⟩
  unfold host_line_value at h
  unfold ssh_config_line
  simp only [] at h ⊢
  by_cases h1 : (g_strstrip raw).head? = some '#' ∨ g_strstrip raw = []
  · rw [if_pos h1]; exact hst
  · rw [if_neg h1] at h ⊢
    by_cases h2 : has_keyword (g_strstrip raw) "Host " = true
    · rw [if_pos h2] at h ⊢
      by_cases h3 : '*' ∉ g_strstrip ((g_strstrip raw).drop 5) ∧
          '?' ∉ g_strstrip ((g_strstrip raw).drop 5)
      · rw [if_pos h3] at h; cases h
      · rw [if_neg h3]
        exact ⟨rfl, Or.inr rfl, fun _ => rfl, fun _ _ => rfl⟩
    · rw [if_neg h2]
      split
      · exact hst
      · rename_i cur hc
        split
        · exact set_current_keeps st cur _ hc rfl
        · split
          · exact set_current_keeps st cur _ hc rfl
          · split
            · exact set_current_keeps st cur _ hc rfl
            · split
              · exact set_current_keeps st cur _ hc rfl
              · split
                · split
                  · exact set_current_keeps st cur _ hc rfl
                  · exact set_current_keeps st cur _ hc rfl
                · exact hst

/-- The loop of `config_load_ssh_hosts`: the count it reaches, the entries it leaves
alone and the names it stores. -/
theorem ssh_hosts_loop_spec (expand_home : List Char → List Char) (max_hosts : Int) :
    ∀ (lines : List (List Char)) (st : HostsState),
      current_below_count st → (st.count : Int) ≤ max_hosts →
      ((ssh_hosts_loop expand_home max_hosts lines st).count : Int) =
          min max_hosts (st.count + (lines.filterMap host_line_value).length : Nat) ∧
      (∀ j, (ssh_hosts_loop expand_home max_hosts lines st).count ≤ j →
        (ssh_hosts_loop expand_home max_hosts lines st).hosts.getD j zero_host =
          st.hosts.getD j zero_host) ∧
      (∀ k, k < st.count →
        ((ssh_hosts_loop expand_home max_hosts lines st).hosts.getD k zero_host).name =
          (st.hosts.getD k zero_host).name) ∧
      (∀ k, st.count ≤ k → k < (ssh_hosts_loop expand_home max_hosts lines st).count →
        ∃ v, (lines.filterMap host_line_value)[k - st.count]? = some v ∧
          ((ssh_hosts_loop expand_home max_hosts lines st).hosts.getD k zero_host).name =
            g_strlcpy (String.mk v) NAME_LEN) := by
  intro lines
  induction lines with
  | nil =>
    intro st _ hle
    refine ⟨?_, fun _ _ => rfl, fun _ _ => rfl, fun k h1 h2 => ?_⟩
    · simp only [ssh_hosts_loop, List.filterMap_nil, List.length_nil, Nat.add_zero]
      omega
    · simp only [ssh_hosts_loop] at h2; omega
  | cons raw rest ih =>
    intro st hcur hle
    by_cases hlt : (st.count : Int) < max_hosts
    · simp only [ssh_hosts_loop, hlt, if_true]
      cases hv : host_line_value raw with
      | some v =>
        have hline := ssh_config_line_host expand_home st raw v hv
        rw [hline]
        have hcur2 : current_below_count
            { hosts := array_set st.hosts st.count (new_host v) zero_host,
              count := st.count + 1, current := some st.count } := by
          intro c hc
          simp only [Option.some.injEq] at hc
          show c < st.count + 1
          omega
        obtain ⟨i1, i2, i3, i4⟩ := ih _ hcur2 (by show ((st.count + 1 : Nat) : Int) ≤ max_hosts; omega)
        simp only [List.filterMap_cons, hv, List.length_cons] at i1 i2 i3 i4 ⊢
        have hge : st.count + 1 ≤ (ssh_hosts_loop expand_home max_hosts rest
            { hosts := array_set st.hosts st.count (new_host v) zero_host,
              count := st.count + 1, current := some st.count }).count := by
          omega
        refine ⟨by omega, fun j hj => ?_, fun k hk => ?_, fun k hk1 hk2 => ?_⟩
        · rw [i2 j hj, array_set_getD]
          have : j ≠ st.count := by omega
          rw [if_neg this]
        · rw [i3 k (by omega), array_set_getD]
          have : k ≠ st.count := by omega
          rw [if_neg this]
        · by_cases hk : k = st.count
          · subst hk
            refine ⟨v, by simp, ?_⟩
            rw [i3 st.count (by omega), array_set_getD, if_pos rfl]
            rfl
          · obtain ⟨w, hw1, hw2⟩ := i4 k (by omega) hk2
            refine ⟨w, ?_, hw2⟩
            obtain ⟨q, hq⟩ : ∃ q, k - st.count = q + 1 := ⟨k - st.count - 1, by omega⟩
            have hq2 : k - (st.count + 1) = q := by omega
            rw [hq, List.getElem?_cons_succ, ← hq2]
            exact hw1
      | none =>
        obtain ⟨o1, o2, o3, o4⟩ := ssh_config_line_other expand_home st raw hv
        have hcur2 : current_below_count (ssh_config_line expand_home st raw) := by
          intro c hc
          rw [o1]
          rcases o2 with o2 | o2
          · rw [o2] at hc; exact hcur c hc
          · rw [o2] at hc; cases hc
        obtain ⟨i1, i2, i3, i4⟩ := ih _ hcur2 (by rw [o1]; exact hle)
        rw [o1] at i1 i3 i4
        simp only [List.filterMap_cons, hv]
        have hge : st.count ≤ (ssh_hosts_loop expand_home max_hosts rest
            (ssh_config_line expand_home st raw)).count := by
          omega
        refine ⟨i1, fun j hj => ?_, fun k hk => ?_, i4⟩
        · rw [i2 j hj]
          apply o4
          intro hc
          have := hcur j hc
          omega
        · rw [i3 k hk, o3]
    · have hr : ssh_hosts_loop expand_home max_hosts (raw :: rest) st = st := by
        simp only [ssh_hosts_loop, hlt, if_false]
      rw [hr]
      refine ⟨by omega, fun _ _ => rfl, fun _ _ => rfl, fun k h1 h2 => by omega⟩

/-- A comment line or a blank line changes nothing. -/
theorem ssh_config_line_ignored (expand_home : List Char → List Char) (st : HostsState)
    (raw : List Char)
    (h : (g_strstrip raw).head? = some '#' ∨ g_strstrip raw = []) :
    ssh_config_line expand_home st raw = st := by
  unfold ssh_config_line
  simp only []
  rw [if_pos h]

/-! ## The claims, concluded -/

/-- C21 (code defect). An auto-upload runs on the connected session while the user
refreshes the file list.  The worker takes the session lock and enters its transfer; the
main thread, which takes no lock in `ui_update_file_list`, enters
`libssh2_sftp_opendir` on the same session: two threads drive the SFTP handle at once,
and the lock is held by the worker only.  Creating a directory and deleting a file call
into the handle from the main thread in the same way. -/
theorem listing_overlaps_transfer :
    on_refresh_clicked_calls one_session_plugin scenario_listing =
      [.opendir, .readdir, .readdir, .readdir, .closedir] ∧
    on_menu_mkdir_calls one_session_plugin 0 scenario_listing =
      [.mkdir, .opendir, .readdir, .readdir, .readdir, .closedir] ∧
    on_menu_delete_calls one_session_plugin "FILE" (-1) scenario_listing = [.unlink] ∧
    (run_shared upload_and_refresh [.worker 0 true, .main]).pool.workers.map
        (fun w => (w.pc, w.op.session)) = [(.in_transfer, connected_session)] ∧
    (run_shared upload_and_refresh [.worker 0 true, .main]).pool.lock = some 0 ∧
    (run_shared upload_and_refresh [.worker 0 true, .main]).main_inside = true ∧
    (run_shared upload_and_refresh [.worker 0 true, .main]).main_calls.head? =
      some .opendir ∧
    current_session one_session_plugin = some connected_session := by
  decide

/-- C22 (counterexample). A one-byte file is uploaded on a connected session to a server
whose every write returns 0 (no error, no byte accepted): `sftp_upload_file` has not
returned after 10000 rounds of fuel, and does not return whatever the fuel, with or
without a task attached. -/
theorem upload_stalls_on_zero_writes :
    sftp_upload_file (some connected_session) none (stalled_upload [1]) 10000 = none ∧
    (∀ fuel : Nat,
      sftp_upload_file (some connected_session) none (stalled_upload [1]) fuel = none ∧
      sftp_upload_file (some connected_session) (some ⟨0, 0⟩) (stalled_upload [1]) fuel =
        none) := by
  have h : ∀ fuel st, upload_loop (stalled_upload [1]) fuel [1] st = none := by
    intro fuel st
    cases fuel with
    | zero => rfl
    | succ f =>
      rw [upload_loop_succ]
      have hb : 0 < (List.take BUF_SIZE ([1] : List Byte)).length := by decide
      simp only [hb, if_true, upload_chunk_stalls [1] _ hb f st]
  have hall : ∀ fuel : Nat,
      sftp_upload_file (some connected_session) none (stalled_upload [1]) fuel = none ∧
      sftp_upload_file (some connected_session) (some ⟨0, 0⟩) (stalled_upload [1]) fuel =
        none := fun fuel => ⟨h _ _, h _ _⟩
  exact ⟨(hall 10000).1, hall⟩

/-- C22 (amended). For every finite local file and every behaviour of the remote write
call in which each call returns an error or a number of accepted bytes between 0 and the
number requested, and in which no `k` calls in a row all return 0, `sftp_upload_file`
returns: fuel of (file length) * (k + 1) + 2 is enough.  With k = 1 this is: every call
returns an error or accepts between 1 and the number of bytes requested. -/
theorem upload_terminates (session : Option SFTPSession) (op : Option FileOperation)
    (env : UploadEnv) (k fuel : Nat) (hw : WritesEventuallyProgress env k)
    (hfuel : local_length env * (k + 1) + 2 ≤ fuel) :
    ∃ r, sftp_upload_file session op env fuel = some r := by
  unfold sftp_upload_file
  by_cases hc : not_connected session = true
  · simp only [hc, if_true]; exact ⟨_, rfl⟩
  simp only [hc, Bool.false_eq_true, if_false]
  cases hl : env.local_file with
  | none => exact ⟨_, rfl⟩
  | some content =>
    simp only []
    by_cases ho : env.remote_open_ok = true
    · simp only [ho, Bool.not_true, Bool.false_eq_true, if_false]
      apply upload_loop_returns_eventually env k hw
      simpa [local_length, hl] using hfuel
    · have ho2 : env.remote_open_ok = false := by simpa using ho
      simp only [ho2, Bool.not_false, if_true]
      exact ⟨_, rfl⟩

/-- Witness for C22: three bytes to a server that accepts nothing on every even call and
one byte on every odd call (k = 2). -/
theorem upload_terminates_witness :
    WritesEventuallyProgress (halting_upload [1, 2, 3]) 2 ∧
    local_length (halting_upload [1, 2, 3]) * (2 + 1) + 2 ≤ 11 ∧
    (∃ r, sftp_upload_file (some connected_session) none (halting_upload [1, 2, 3]) 11 =
      some r) ∧
    (sftp_upload_file (some connected_session) none (halting_upload [1, 2, 3]) 11).map
      (fun r => (r.ret, remote_written r.events)) = some (true, [1, 2, 3]) := by
  have hw : WritesEventuallyProgress (halting_upload [1, 2, 3]) 2 := by
    intro i n hn
    constructor
    · show (if i % 2 = 0 then (0 : Int) else 1) ≤ n
      split <;> omega
    · by_cases hi : i % 2 = 0
      · refine ⟨1, by omega, ?_⟩
        show (if (i + 1) % 2 = 0 then (0 : Int) else 1) ≠ 0
        have : ¬ (i + 1) % 2 = 0 := by omega
        simp only [this, if_false]
        decide
      · refine ⟨0, by omega, ?_⟩
        show (if (i + 0) % 2 = 0 then (0 : Int) else 1) ≠ 0
        simp only [Nat.add_zero, hi, if_false]
        decide
  exact ⟨hw, by decide,
    upload_terminates (some connected_session) none (halting_upload [1, 2, 3]) 2 11 hw
      (by decide), by decide⟩

/-- C23 (code defect). The file holds one host entry, `web`, followed by its HostName,
Port and User lines, and `max_hosts` is 1: the loop condition `count < max_hosts` ends
the loop right after the Host line, so the returned entry has an empty hostname, port 22
and an empty user.  With `max_hosts` 2 the same file gives the entry its three
settings. -/
theorem last_host_loses_settings :
    config_load_ssh_hosts [] 1 one_host_config example_home =
      (1, [{ name := "web", hostname := "", port := 22, username := "",
             identity_file := "" }]) ∧
    config_load_ssh_hosts [] 2 one_host_config example_home =
      (1, [{ name := "web", hostname := "web.example.org", port := 2222,
             username := "deploy", identity_file := "" }]) := by
  decide

/-- C24 (code defect). Three profiles `a`, `b`, `c` are loaded, `b` is selected and
connected: the only session is in slot 1 and its `config` pointer is on slot 1.
`delete_connection(0)` then moves that session to slot 0 but leaves its pointer on slot 1,
which now holds profile `c`: the live session, connected with `b`, is bound to `c`. -/
theorem delete_leaves_session_on_old_slot :
    plugin_connected_to_b = some connected_to_b ∧
    sessions_bound connected_to_b MAX_CONNECTIONS ∧
    (connected_to_b.sessions.getD 1 none).map
      (fun s => (s.config_index, (profile_of connected_to_b s).name)) = some (1, "b") ∧
    (delete_connection connected_to_b 0).num_connections = 2 ∧
    profile_names (delete_connection connected_to_b 0) = ["b", "c"] ∧
    ((delete_connection connected_to_b 0).sessions.getD 0 none).map
      (fun s => (s.config_index, (profile_of (delete_connection connected_to_b 0) s).name)) =
      some (1, "c") ∧
    ¬ sessions_bound (delete_connection connected_to_b 0)
      (delete_connection connected_to_b 0).num_connections.toNat := by
  decide

/-- C25 (counterexample). Profiles `a` and `b` are both connected and auto-upload is on.
`notes.txt` is downloaded and opened on connection `a` (slot 0, SFTP handle 2); the user
then selects connection `b` and saves the document: `on_document_save` starts an upload
of the file on the session of `b` (slot 1, SFTP handle 4), to the path it had on `a`. -/
theorem auto_upload_on_other_connection :
    plugin_with_two_sessions = some two_sessions ∧
    notes_download.map
        (fun t => (t.1.session.config_index, t.1.session.sftp_session, t.2.local_path,
          t.2.remote_path)) =
      some (0, some 2, "/tmp/geany_sftp_a_1700000000/notes.txt", "./notes.txt") ∧
    (on_document_save after_download_on_b
        (some "/tmp/geany_sftp_a_1700000000/notes.txt")).map
        (fun task => (task.session.config_index, task.session.sftp_session, task.is_upload,
          task.local_path, task.remote_path)) =
      some (1, some 4, true, "/tmp/geany_sftp_a_1700000000/notes.txt", "./notes.txt") := by
  decide

/-- C25 (amended). Whenever `on_document_save` starts an auto-upload for a saved file,
auto-upload is on, the upload is issued on the active session of the connection that is
current at the time of the save, and its remote path is the one recorded for the file in
the table of downloaded files; it is started whenever these conditions hold, and no
upload is started when auto-upload is off, the current connection has no session or an
inactive one, or the file is not in the table.  A successful download-and-open records
the remote path it downloaded from under the local path. -/
theorem auto_upload_uses_current_session (pdata : SFTPPluginData) (file_name : String)
    (ctx : DownloadOpenCtx) :
    (∀ task, on_document_save pdata (some file_name) = some task →
      pdata.auto_upload = true ∧
      ∃ session remote_path,
        current_session pdata = some session ∧ session.active = true ∧
        g_hash_table_lookup pdata.downloaded_files file_name = some remote_path ∧
        task = transfer_async session file_name remote_path true none 0) ∧
    (∀ session remote_path,
      pdata.auto_upload = true → current_session pdata = some session →
      session.active = true →
      g_hash_table_lookup pdata.downloaded_files file_name = some remote_path →
      on_document_save pdata (some file_name) =
        some (transfer_async session file_name remote_path true none 0)) ∧
    (pdata.auto_upload = false ∨ current_session pdata = none ∨
      (∃ session, current_session pdata = some session ∧ session.active = false) ∨
      g_hash_table_lookup pdata.downloaded_files file_name = none →
      on_document_save pdata (some file_name) = none) ∧
    g_hash_table_lookup (on_download_open_complete pdata ctx true).downloaded_files
      ctx.local_path = some ctx.remote_path := by
  refine ⟨?_, ?_, ?_, ?_⟩
  · intro task h
    rw [on_document_save_eq] at h
    by_cases ha : pdata.auto_upload = true
    · simp only [ha, if_true] at h
      cases hs : current_session pdata with
      | none => rw [hs] at h; cases h
      | some session =>
        rw [hs] at h
        simp only [] at h
        by_cases hact : session.active = true
        · simp only [hact, if_true] at h
          cases hl : g_hash_table_lookup pdata.downloaded_files file_name with
          | none => rw [hl] at h; cases h
          | some remote_path =>
            rw [hl] at h
            simp only [Option.some.injEq] at h
            exact ⟨ha, session, remote_path, rfl, hact, rfl, h.symm⟩
        · simp only [hact, if_false] at h
          cases h
    · simp only [ha, if_false] at h
      cases h
  · intro session remote_path ha hs hact hl
    rw [on_document_save_eq]
    simp only [ha, if_true, hs, hact, hl]
  · intro h
    rw [on_document_save_eq]
    rcases h with h | h | ⟨session, hs, hact⟩ | h
    · simp only [h, Bool.false_eq_true, if_false]
    · simp only [h]
      split <;> rfl
    · simp only [hs, hact, Bool.false_eq_true, if_false]
      split <;> rfl
    · by_cases ha : pdata.auto_upload = true
      · simp only [ha, if_true]
        cases hs : current_session pdata with
        | none => rfl
        | some session =>
          simp only [h]
          split <;> rfl
      · rw [if_neg ha]
  · simp only [on_download_open_complete, if_true]
    exact lookup_after_insert _ _ _

/-- C26. For every connection profile with non-empty name and hostname (its strings
shorter than their buffers and its port a `gint`, as in every C `SFTPConnection`),
`parse_connection_object` applied to the object built by `connection_to_node` returns
TRUE and reproduces name, hostname, port, username, password, private_key and remote_dir
exactly, with state `CONN_DISCONNECTED`; and on every object `parse_connection_object`
returns FALSE exactly when the string member name or hostname is missing or empty. -/
theorem profile_round_trip (conn : SFTPConnection) (obj : JsonObject)
    (hfit : fits_buffers conn) (hname : conn.name ≠ "") (hhost : conn.hostname ≠ "") :
    (parse_connection_object (connection_to_node conn)).1 = true ∧
    (parse_connection_object (connection_to_node conn)).2 =
      { conn with use_keyring := false, state := .CONN_DISCONNECTED } ∧
    ((parse_connection_object obj).1 = false ↔
      missing_or_empty obj "name" ∨ missing_or_empty obj "hostname") := by
  obtain ⟨f1, f2, f3, f4, f5, f6, f7, f8⟩ := hfit
  have hparsed : (parse_connection_object (connection_to_node conn)).2 =
      { conn with use_keyring := false, state := .CONN_DISCONNECTED } := by
    simp only [parse_connection_object, connection_to_node, json_get_string_member_safe,
      json_object_has_member, json_object_get_string_member, json_object_get_int_member]
    simp [g_strlcpy_short _ _ f1, g_strlcpy_short _ _ f2, g_strlcpy_short _ _ f3,
      g_strlcpy_short _ _ f4, g_strlcpy_short _ _ f5, g_strlcpy_short _ _ f6,
      to_gint_of_gint _ f7 f8]
  have hret : ∀ o : JsonObject, (parse_connection_object o).1 = false ↔
      missing_or_empty o "name" ∨ missing_or_empty o "hostname" := by
    intro o
    rw [← json_get_string_member_safe_empty o "name" NAME_LEN (by decide),
      ← json_get_string_member_safe_empty o "hostname" MAX_HOSTNAME_LEN (by decide)]
    simp only [parse_connection_object, zero_connection]
    split <;> simp [imp_iff_not_or]
  refine ⟨?_, hparsed, hret obj⟩
  have hn : ¬ (parse_connection_object (connection_to_node conn)).1 = false := by
    rw [hret]
    simp only [missing_or_empty, json_object_get_string_member, connection_to_node]
    simp [hname, hhost]
  simpa using hn

/-- Witness for C26: the test profile, and an object whose hostname is the empty string. -/
theorem profile_round_trip_witness :
    (fits_buffers test_profile ∧ test_profile.name ≠ "" ∧ test_profile.hostname ≠ "") ∧
    ((parse_connection_object (connection_to_node test_profile)).1 = true ∧
      (parse_connection_object (connection_to_node test_profile)).2 =
        { test_profile with use_keyring := false, state := .CONN_DISCONNECTED } ∧
      ((parse_connection_object (profile_object "a" "")).1 = false ↔
        missing_or_empty (profile_object "a" "") "name" ∨
          missing_or_empty (profile_object "a" "") "hostname")) :=
  ⟨⟨by decide, by decide, by decide⟩,
    profile_round_trip test_profile (profile_object "a" "") (by decide) (by decide)
      (by decide)⟩

/-- C27 (code defect). A block device (mode 060660) and a socket (mode 140755) are shown
as "DIR" by `ui_update_file_list` and by `sftp_list_directory`, although their file-type
field is not `S_IFDIR`: both functions test `permissions & S_IFDIR` for a non-zero
result, which holds for every type whose code has bit 14 set.  The symbolic link, the
regular file, the directory and the entry without permissions are classified as the
claim says. -/
theorem device_listed_as_directory :
    device_directory.map (fun a => (a.filename, (file_row (fun _ => "") a).kind)) =
      [("sda", "DIR"), ("agent.sock", "DIR"), ("link", "FILE"), ("a.txt", "FILE"),
       ("sub", "DIR"), ("bare", "FILE")] ∧
    sftp_list_directory (some connected_session) ⟨true, device_directory, fun _ => ""⟩ =
      (true, [("DIR", "sda"), ("DIR", "agent.sock"), ("FILE", "link"), ("FILE", "a.txt"),
        ("DIR", "sub"), ("FILE", "bare")]) ∧
    device_directory.map (fun a => (a.filename, decide (is_directory a.attrs))) =
      [("sda", false), ("agent.sock", false), ("link", false), ("a.txt", false),
       ("sub", true), ("bare", false)] := by
  decide

/-- C28. For every current remote path p that is "/" or is absolute with no trailing
slash, and every directory name d that is non-empty, contains no '/', and is neither "."
nor "..", with the joined path shorter than `MAX_PATH_LEN`: `navigate_to_directory(d)`
followed by `navigate_to_directory("..")` restores the plugin data, `current_remote_path`
included; `navigate_to_directory("..")` at "/" leaves "/"; and
`navigate_to_directory(".")` leaves the path unchanged. -/
theorem navigate_down_then_up (plugin_data : SFTPPluginData) (d : String)
    (hp : rooted_path plugin_data.current_remote_path) (hd : plain_name d)
    (hlen : (if plugin_data.current_remote_path = "/" then "/" ++ d
      else plugin_data.current_remote_path ++ "/" ++ d).length < MAX_PATH_LEN) :
    navigate_to_directory (navigate_to_directory plugin_data d) ".." = plugin_data ∧
    (navigate_to_directory { plugin_data with current_remote_path := "/" }
      "..").current_remote_path = "/" ∧
    navigate_to_directory plugin_data "." = plugin_data := by
  obtain ⟨hne, hslash, hdot, hdotdot⟩ := hd
  refine ⟨?_, rfl, by simp [navigate_to_directory]⟩
  have hstep : navigate_to_directory plugin_data d =
      { plugin_data with
        current_remote_path :=
          if plugin_data.current_remote_path = "/" then "/" ++ d
          else plugin_data.current_remote_path ++ "/" ++ d } := by
    unfold navigate_to_directory
    simp only [hdotdot, hdot, if_false, ne_eq, not_false_eq_true, if_true]
    by_cases h : plugin_data.current_remote_path = "/"
    · simp only [h, if_true] at hlen ⊢
      rw [g_strlcpy_short _ _ hlen, g_strlcpy_short _ _ hlen]
    · simp only [h, if_false] at hlen ⊢
      rw [g_strlcpy_short _ _ hlen, g_strlcpy_short _ _ hlen]
  rw [hstep]
  unfold navigate_to_directory
  simp only [if_true]
  by_cases h : plugin_data.current_remote_path = "/"
  · simp only [h, if_true]
    have hs : strrchr ("/" ++ d) '/' = some 0 := by
      unfold strrchr
      have : ("/" ++ d).toList = [] ++ '/' :: d.toList := by simp
      rw [this]
      exact strrchr_joined [] d.toList hslash
    simp only [hs, ne_eq, not_true_eq_false, if_false]
    cases plugin_data
    simp only at h
    simp only [h]
  · simp only [h, if_false]
    have hs : strrchr (plugin_data.current_remote_path ++ "/" ++ d) '/' =
        some plugin_data.current_remote_path.toList.length := by
      unfold strrchr
      have : (plugin_data.current_remote_path ++ "/" ++ d).toList =
          plugin_data.current_remote_path.toList ++ '/' :: d.toList := by simp
      rw [this]
      exact strrchr_joined _ d.toList hslash
    have hpos : plugin_data.current_remote_path.toList.length ≠ 0 := by
      rcases hp with hp | ⟨hp, -⟩
      · exact absurd hp h
      · intro h0
        rw [List.length_eq_zero.mp h0] at hp
        cases hp
    simp only [hs, ne_eq, hpos, not_false_eq_true, if_true]
    have ht : (plugin_data.current_remote_path ++ "/" ++ d).toList.take
        plugin_data.current_remote_path.toList.length =
        plugin_data.current_remote_path.toList := by
      have : (plugin_data.current_remote_path ++ "/" ++ d).toList =
          plugin_data.current_remote_path.toList ++ '/' :: d.toList := by simp
      rw [this, List.take_left']
      rfl
    rw [ht]
    cases plugin_data
    rfl

/-- Witness for C28: from "/srv" into "www" and back. -/
theorem navigate_down_then_up_witness :
    (rooted_path "/srv" ∧ plain_name "www") ∧
    (navigate_to_directory
        (navigate_to_directory { one_session_plugin with current_remote_path := "/srv" }
          "www") ".." = { one_session_plugin with current_remote_path := "/srv" } ∧
      (navigate_to_directory
        { { one_session_plugin with current_remote_path := "/srv" } with
          current_remote_path := "/" } "..").current_remote_path = "/" ∧
      navigate_to_directory { one_session_plugin with current_remote_path := "/srv" } "." =
        { one_session_plugin with current_remote_path := "/srv" }) :=
  ⟨⟨by decide, by decide⟩,
    navigate_down_then_up { one_session_plugin with current_remote_path := "/srv" } "www"
      (by decide) (by decide) (by decide)⟩

/-- C29. The bound 0 <= `num_connections` <= `MAX_CONNECTIONS` holds after plugin
initialisation and in every state reached from it by loading connections arrays, adding
and editing connections through the dialogs, and deleting connections with any index.
A loaded array leaves exactly its first `MAX_CONNECTIONS` valid elements, in order, the
invalid ones being skipped, and `delete_connection` with an index out of range changes
nothing. -/
theorem num_connections_stays_in_range (changes : List ProfileChange) :
    num_connections_in_range initial_plugin ∧
    num_connections_in_range (apply_changes initial_plugin changes) ∧
    (∀ (plugin_data : SFTPPluginData) (arr : List JsonObject),
      filled (config_load_connections plugin_data (.connections arr)).2.connections
          (config_load_connections plugin_data (.connections arr)).2.num_connections.toNat =
        (valid_profiles arr).take MAX_CONNECTIONS ∧
      (config_load_connections plugin_data (.connections arr)).2.num_connections =
        (min MAX_CONNECTIONS (valid_profiles arr).length : Nat)) ∧
    (∀ (plugin_data : SFTPPluginData) (conn_index : Int),
      conn_index < 0 ∨ plugin_data.num_connections ≤ conn_index →
      delete_connection plugin_data conn_index = plugin_data) ∧
    (∀ (plugin_data : SFTPPluginData) (change : ProfileChange),
      num_connections_in_range plugin_data →
      num_connections_in_range (apply_change plugin_data change)) := by
  have h0 : num_connections_in_range initial_plugin := by decide
  exact ⟨h0, changes_keep_range changes initial_plugin h0, load_keeps_first_valid,
    delete_out_of_range, change_keeps_range⟩

set_option maxRecDepth 100000 in
/-- C30 (counterexample). The file is one Host line whose value has 128 characters:
the entry is returned with a name of 127 characters, not with the Host value. -/
theorem long_host_name_cut :
    host_values (String.mk ("Host ".toList ++ List.replicate 128 'a')) =
      [List.replicate 128 'a'] ∧
    config_load_ssh_hosts [] 5 long_host_config example_home =
      (1, [{ name := String.mk (List.replicate 127 'a'), hostname := "", port := 22,
             username := "", identity_file := "" }]) := by
  decide

/-- C30 (amended). For every ssh-config file content and every `max_hosts` >= 0,
`config_load_ssh_hosts` returns min(`max_hosts`, number of Host lines whose value
contains neither '*' nor '?'), leaves every entry at index `max_hosts` or beyond as it
was, and gives each returned entry the first 127 characters of its Host value as name,
which is the whole value when that is shorter than 128 characters; a comment line or a
blank line changes nothing, and a line has the keyword exactly when its first five
characters, in lower case, are `host` and a space. -/
theorem ssh_hosts_count_and_names (hosts : List SSHConfigHost) (max_hosts : Int)
    (text : String) (expand_home : List Char → List Char) (hmax : 0 ≤ max_hosts) :
    (config_load_ssh_hosts hosts max_hosts (.contents text) expand_home).1 =
      min max_hosts ((host_values text).length : Nat) ∧
    (∀ j : Nat, max_hosts ≤ j →
      (config_load_ssh_hosts hosts max_hosts (.contents text) expand_home).2.getD j
        zero_host = hosts.getD j zero_host) ∧
    (∀ k : Nat,
      (k : Int) < (config_load_ssh_hosts hosts max_hosts (.contents text) expand_home).1 →
      ∃ v, (host_values text)[k]? = some v ∧
        ((config_load_ssh_hosts hosts max_hosts (.contents text) expand_home).2.getD k
          zero_host).name = g_strlcpy (String.mk v) NAME_LEN ∧
        (v.length < NAME_LEN →
          ((config_load_ssh_hosts hosts max_hosts (.contents text) expand_home).2.getD k
            zero_host).name = String.mk v)) ∧
    (∀ (st : HostsState) (raw : List Char),
      (g_strstrip raw).head? = some '#' ∨ g_strstrip raw = [] →
      ssh_config_line expand_home st raw = st) ∧
    (∀ line : List Char,
      has_keyword line "Host " = true ↔
        (line.take 5).map Char.toLower = ['h', 'o', 's', 't', ' ']) := by
  obtain ⟨h1, h2, -, h4⟩ := ssh_hosts_loop_spec expand_home max_hosts (g_strsplit_lines text)
    ⟨hosts, 0, none⟩ (by intro c hc; cases hc) (by simpa using hmax)
  simp only [Nat.zero_add, Nat.sub_zero] at h1 h4
  refine ⟨?_, fun j hj => ?_, fun k hk => ?_, ssh_config_line_ignored expand_home,
    fun line => ?_⟩
  · exact h1
  · apply h2
    have : ((ssh_hosts_loop expand_home max_hosts (g_strsplit_lines text)
        ⟨hosts, 0, none⟩).count : Int) ≤ max_hosts := by
      rw [h1]; exact min_le_left _ _
    omega
  · have hk2 : (k : Int) < ((ssh_hosts_loop expand_home max_hosts (g_strsplit_lines text)
        ⟨hosts, 0, none⟩).count : Int) := hk
    obtain ⟨v, hv1, hv2⟩ := h4 k (Nat.zero_le _) (by exact_mod_cast hk2)
    refine ⟨v, hv1, hv2, fun hlen => ?_⟩
    change ((ssh_hosts_loop expand_home max_hosts (g_strsplit_lines text)
        ⟨hosts, 0, none⟩).hosts.getD k zero_host).name = String.mk v
    rw [hv2]
    exact g_strlcpy_short _ _ hlen
  · unfold has_keyword
    have hl : "Host ".length = 5 := by decide
    have hk : "Host ".toList.map Char.toLower = ['h', 'o', 's', 't', ' '] := by decide
    rw [hl, hk]
    exact beq_iff_eq

/-- Witness for C30: `max_hosts` 2 and a file with the host lines `HOST a`, `host b` and
`hOsT c` between a comment, a blank line and a wildcard entry. -/
theorem ssh_hosts_count_and_names_witness :
    (0 : Int) ≤ 2 ∧
    config_load_ssh_hosts [] 2 (.contents mixed_case_text) example_home =
      (2, [{ name := "a", hostname := "", port := 22, username := "", identity_file := "" },
           { name := "b", hostname := "", port := 22, username := "",
             identity_file := "" }]) ∧
    host_values mixed_case_text = [['a'], ['b'], ['c']] ∧
    ((config_load_ssh_hosts [] 2 (.contents mixed_case_text) example_home).1 =
        min 2 ((host_values mixed_case_text).length : Nat) ∧
      (∀ j : Nat, (2 : Int) ≤ j →
        (config_load_ssh_hosts [] 2 (.contents mixed_case_text) example_home).2.getD j
          zero_host = ([] : List SSHConfigHost).getD j zero_host) ∧
      (∀ k : Nat,
        (k : Int) < (config_load_ssh_hosts [] 2 (.contents mixed_case_text) example_home).1 →
        ∃ v, (host_values mixed_case_text)[k]? = some v ∧
          ((config_load_ssh_hosts [] 2 (.contents mixed_case_text) example_home).2.getD k
            zero_host).name = g_strlcpy (String.mk v) NAME_LEN ∧
          (v.length < NAME_LEN →
            ((config_load_ssh_hosts [] 2 (.contents mixed_case_text) example_home).2.getD k
              zero_host).name = String.mk v)) ∧
      (∀ (st : HostsState) (raw : List Char),
        (g_strstrip raw).head? = some '#' ∨ g_strstrip raw = [] →
        ssh_config_line example_home st raw = st) ∧
      (∀ line : List Char,
        has_keyword line "Host " = true ↔
          (line.take 5).map Char.toLower = ['h', 'o', 's', 't', ' '])) :=
  ⟨by decide, by decide, by decide,
    ssh_hosts_count_and_names [] 2 mixed_case_text example_home (by decide)⟩

end SftpPlugin
